import Mathlib

/-!
Verification of tds_fdw 1.0.8: column planning, row decoding, row-count estimation
and option checks.

A shallow embedding of `tds_fdw.c` and of the option checks of `options.c`: the C
functions become Lean functions of the same name, the DB-Library session becomes
a script of the return codes and data it hands back, `ereport(ERROR, ...)` becomes
`Except.error`, and memory returned by `palloc` keeps whatever contents the
caller-supplied `Palloc` gives it.
-/

namespace TdsFdw

/-! ## C strings -/

/-- A C string, given by the bytes stored before its terminating NUL. A zero
byte inside the list ends the string for the C library routines. -/
abbrev CStr := List Nat

/-- The C library `strncmp`: compares at most `n` bytes, stops at a NUL, and
returns the difference of the first pair of bytes that differ. -/
def strncmp : CStr → CStr → Nat → Int
  | _, _, 0 => 0
  | [], [], _ + 1 => 0
  | [], c :: _, _ + 1 => -(c : Int)
  | c :: _, [], _ + 1 => (c : Int)
  | c :: s, d :: t, n + 1 =>
      if c ≠ d then (c : Int) - (d : Int)
      else if c = 0 then 0
      else strncmp s t n

/-- The C library `strcmp`. -/
def strcmp : CStr → CStr → Int
  | [], [] => 0
  | [], c :: _ => -(c : Int)
  | c :: _, [] => (c : Int)
  | c :: s, d :: t =>
      if c ≠ d then (c : Int) - (d : Int)
      else if c = 0 then 0
      else strcmp s t

/-- The bytes of a C string up to, and without, its first NUL. -/
def cbytes (s : CStr) : List Nat := s.takeWhile (fun c => decide (c ≠ 0))

/-- Two names agree under a case-sensitive comparison of at most `n` bytes:
their first `n` bytes, the terminating NUL included, are the same. -/
def eqUpTo (n : Nat) (s t : CStr) : Prop :=
  (cbytes s ++ [0]).take n = (cbytes t ++ [0]).take n

instance (n : Nat) (s t : CStr) : Decidable (eqUpTo n s t) := by
  unfold eqUpTo; infer_instance

/-! ## Errors and warnings raised through `ereport` -/

/-- The SQLSTATE classes the file passes to `errcode`. -/
inductive SqlState
  | FDW_UNABLE_TO_CREATE_EXECUTION
  | FDW_OUT_OF_MEMORY
  | FDW_INCONSISTENT_DESCRIPTOR_INFORMATION
  | FDW_INVALID_ATTRIBUTE_VALUE
  | FDW_ERROR
  | SYNTAX_ERROR
  | INTERNAL_ERROR
  deriving DecidableEq

/-- The message formats the file passes to `errmsg`, with their arguments. -/
inductive ErrMsg
  /-- Message "Failed to set current query to %s" -/
  | failedSetQuery (q : CStr)
  /-- Message "Failed to execute query %s" -/
  | failedExecQuery (q : CStr)
  /-- Message "Failed to get results from query %s" -/
  | failedGetResults (q : CStr)
  /-- Message "There appears to be no results from query %s" -/
  | noResults (q : CStr)
  /-- Message "Unknown return code getting results from query %s" -/
  | unknownResultsCode (q : CStr)
  /-- Message "Failed to bind results for column %s to a variable." -/
  | failedBind (col : CStr)
  /-- Message "Buffer filled up while getting plan for query" -/
  | planBufferFull
  /-- Message "Failed to get row while getting plan for query" -/
  | planRowFailed
  /-- Message "Failed to get plan for query. Unknown return code." -/
  | planUnknownCode
  /-- Message "Buffer filled up during query" -/
  | scanBufferFull
  /-- Message "Failed to get row during query" -/
  | scanRowFailed
  /-- Message "Failed to get row during query. Unknown return code." -/
  | scanUnknownCode
  /-- Message "Table definition mismatch: Foreign source has %d columns, but target
  table has %d columns" -/
  | tableDefinitionMismatch (ncols natts : Nat)
  /-- Message "Possibly invalid date value" -/
  | invalidDate
  /-- Message "%s marked useraw but wrong type (internal tds_fdw error)" -/
  | userawWrongType (col : CStr)
  /-- An error raised inside a PostgreSQL routine the file calls. -/
  | raisedByPostgres (tag : Nat)
  /-- Not an `ereport`: the C code reads through a NULL pointer here, which is
  undefined behaviour; the model renders it as an abort. -/
  | nullDereference
  deriving DecidableEq

/-- One `ereport(ERROR, (errcode(..), errmsg(..)))`. -/
structure TdsError where
  errcode : SqlState
  errmsg : ErrMsg
  deriving DecidableEq

/-- One `ereport(WARNING, ..)` of `tdsGetColumnMetadata`; `ncol` is the value
of the loop counter at the report. -/
inductive Warning
  /-- Message "Table definition mismatch: Foreign source has column named %s, but
  target table does not. Column will be ignored." -/
  | sourceColumnIgnored (ncol : Nat) (name : CStr)
  /-- Message "Table definition mismatch: Could not match local column %s with column
  from foreign table" -/
  | localColumnUnmatched (ncol : Nat) (attname : CStr)
  deriving DecidableEq

/-! ## Build-time constants -/

/-- DB-Library return code `SUCCEED` (`sybdb.h`). -/
abbrev SUCCEED : Int := 1
/-- DB-Library return code `FAIL` (`sybdb.h`). -/
abbrev FAIL : Int := 0
/-- DB-Library return code `NO_MORE_RESULTS` (`sybdb.h`). -/
abbrev NO_MORE_RESULTS : Int := 2
/-- DB-Library row code `REG_ROW` (`sybdb.h`). -/
abbrev REG_ROW : Int := -1
/-- DB-Library row code `NO_MORE_ROWS` (`sybdb.h`). -/
abbrev NO_MORE_ROWS : Int := -2
/-- DB-Library row code `BUF_FULL` (`sybdb.h`). -/
abbrev BUF_FULL : Int := -3

/-- Wire type tokens of `sybdb.h`. -/
abbrev SYBIMAGE : Int := 34
abbrev SYBTEXT : Int := 35
abbrev SYBVARBINARY : Int := 37
abbrev SYBVARCHAR : Int := 39
abbrev SYBBINARY : Int := 45
abbrev SYBCHAR : Int := 47
abbrev SYBINT2 : Int := 52
abbrev SYBINT4 : Int := 56
abbrev SYBREAL : Int := 59
abbrev SYBDATETIME : Int := 61
abbrev SYBFLT8 : Int := 62
abbrev SYBINT8 : Int := 127

/-- Type OIDs of `catalog/pg_type.h`. -/
abbrev BYTEAOID : Nat := 17
abbrev INT8OID : Nat := 20
abbrev INT2OID : Nat := 21
abbrev INT4OID : Nat := 23
abbrev TEXTOID : Nat := 25
abbrev FLOAT4OID : Nat := 700
abbrev FLOAT8OID : Nat := 701
abbrev TIMESTAMPOID : Nat := 1114

/-- The compile-time configuration the file is built under. -/
structure Build where
  /-- PostgreSQL's identifier length limit (`pg_config_manual.h`). -/
  NAMEDATALEN : Nat
  /-- PostgreSQL's version number; the datetime code needs 90400 or more. -/
  PG_VERSION_NUM : Nat
  /-- Whether DB-Library is built in its Microsoft variant. -/
  MSDBLIB : Bool

/-! ## Data model -/

/-- A PostgreSQL `Datum`. Pass-by-value integers are the machine word the
`IntNGetDatum` macros of `postgres.h` produce; floats are their bit pattern;
varlena values are the payload the pointer leads to; a timestamp is the
`make_timestamp` call that produced it. -/
inductive Datum
  | word (w : Nat)
  | float4 (bits : Nat)
  | float8 (bits : Nat)
  | text (payload : List Nat)
  | bytea (payload : List Nat)
  | timestamp (year month day hour minute second millisecond : Int)
  | parsed (local_index : Nat) (value : List Nat)
  deriving DecidableEq

/-- The union `value` of a `COL`: the member last written. -/
inductive ColValue
  | dbsmallint (v : Int)
  | dbint (v : Int)
  | dbbigint (v : Int)
  | dbreal (bits : Nat)
  | dbflt8 (bits : Nat)
  deriving DecidableEq

/-- The `COL` record of `tds_fdw.h`, with the fields `tds_fdw.c` uses. -/
structure COL where
  name : CStr
  srctype : Int
  useraw : Bool
  value : ColValue
  local_index : Int
  attr_oid : Nat
  deriving DecidableEq

/-- The fields of a target column (`tupdesc->attrs[i]`) the file reads. -/
structure Attr where
  attname : CStr
  atttypid : Nat
  deriving DecidableEq

/-- What `dbcolname` and `dbcoltype` report for one column of the result. -/
structure SrcCol where
  name : CStr
  coltype : Int
  deriving DecidableEq

/-- The contents of freshly `palloc`ed memory, which `palloc` does not clear:
slot `i` of the `columns`, `datums` and `isnull` arrays. -/
structure Palloc where
  columns : Nat → COL
  datums : Nat → Datum
  isnull : Nat → Bool

/-! ## tdsGetColumnMetadata -/

/-- The inner loop of `tdsGetColumnMetadata` over `local_ncol`, entered at
`local_ncol` with the target columns from there on: the index and type of the
first target column whose name `strncmp` finds equal, or `none` when the loop
runs to its end. -/
def matchLocalColumn (NAMEDATALEN : Nat) (name : CStr) : List Attr → Nat → Option (Nat × Nat)
  | [], _ => none
  | a :: rest, local_ncol =>
      if strncmp a.attname name NAMEDATALEN = 0 then some (local_ncol, a.atttypid)
      else matchLocalColumn NAMEDATALEN name rest (local_ncol + 1)

/-- The body of the `ncol` loop of `tdsGetColumnMetadata`: fills
`festate->columns[ncol]`, whose prior contents are `slot`, and returns it with
the updated `local_columns_found` and the warnings reported. -/
def planColumn (b : Build) (match_column_names : Bool) (attrs : List Attr) (slot : COL)
    (ncol : Nat) (s : SrcCol) (found : List Bool) : COL × List Bool × List Warning :=
  let column : COL := { slot with name := s.name, srctype := s.coltype }
  if match_column_names then
    match matchLocalColumn b.NAMEDATALEN s.name attrs 0 with
    | some (local_ncol, oid) =>
        ({ column with local_index := (local_ncol : Int), attr_oid := oid },
          found.set local_ncol true, [])
    | none =>
        ({ column with local_index := -1 }, found, [Warning.sourceColumnIgnored ncol s.name])
  else
    ({ column with local_index := (ncol : Int) }, found, [])

/-- The `ncol` loop of `tdsGetColumnMetadata` from `ncol` on, over the source
columns still to be planned. -/
def planColumns (b : Build) (match_column_names : Bool) (attrs : List Attr) (mem : Nat → COL) :
    Nat → List SrcCol → List Bool → List COL × List Bool × List Warning
  | _, [], found => ([], found, [])
  | ncol, s :: rest, found =>
      let r := planColumn b match_column_names attrs (mem ncol) ncol s found
      let r2 := planColumns b match_column_names attrs mem (ncol + 1) rest r.2.1
      (r.1 :: r2.1, r2.2.1, r.2.2 ++ r2.2.2)

/-- The closing loop of `tdsGetColumnMetadata` from `ncol` on: every target
column that `local_columns_found` does not mark gets a warning and
`isnull[ncol] = 1`. -/
def forceNullLoop : Nat → List Attr → List Bool → List Bool → List Bool × List Warning
  | _, [], _, isnull => (isnull, [])
  | ncol, a :: rest, found, isnull =>
      if found.getD ncol false = false then
        let r := forceNullLoop (ncol + 1) rest found (isnull.set ncol true)
        (r.1, Warning.localColumnUnmatched ncol a.attname :: r.2)
      else forceNullLoop (ncol + 1) rest found isnull

/-- What `tdsGetColumnMetadata` leaves in the execution state. -/
structure ColumnMetadata where
  columns : List COL
  datums : List Datum
  isnull : List Bool
  warnings : List Warning

/-- The function `tdsGetColumnMetadata`: `src` is the result's column list
(`festate->ncols` is its length), `attrs` the target table's descriptor. -/
def tdsGetColumnMetadata (b : Build) (match_column_names : Bool) (src : List SrcCol)
    (attrs : List Attr) (mem : Palloc) : Except TdsError ColumnMetadata :=
  if match_column_names = false ∧ src.length ≠ attrs.length then
    .error ⟨.FDW_INCONSISTENT_DESCRIPTOR_INFORMATION,
      .tableDefinitionMismatch src.length attrs.length⟩
  else
    let natts := attrs.length
    let datums := (List.range natts).map mem.datums
    let isnull := (List.range natts).map mem.isnull
    if match_column_names then
      let lp := planColumns b true attrs mem.columns 0 src (List.replicate natts false)
      let fn := forceNullLoop 0 attrs lp.2.1 isnull
      .ok { columns := lp.1, datums := datums, isnull := fn.1, warnings := lp.2.2 ++ fn.2 }
    else
      let lp := planColumns b false attrs mem.columns 0 src []
      .ok { columns := lp.1, datums := datums, isnull := isnull, warnings := lp.2.2 }

/-! ## Datum macros and the value union -/

/-- The value of the low `w` bits of `x` read as a signed integer. -/
def wrapSigned (w : Nat) (x : Int) : Int :=
  (x + 2 ^ (w - 1)) % 2 ^ w - 2 ^ (w - 1)

/-- The macro `Int16GetDatum` of `postgres.h`: the low 16 bits of the word. -/
def Int16GetDatum (x : Int) : Datum := .word ((x % 65536).toNat)
/-- The macro `Int32GetDatum` of `postgres.h`: the low 32 bits of the word. -/
def Int32GetDatum (x : Int) : Datum := .word ((x % 4294967296).toNat)
/-- The macro `Int64GetDatum` of `postgres.h` for pass-by-value `int8`. -/
def Int64GetDatum (x : Int) : Datum := .word ((x % 18446744073709551616).toNat)
/-- The macro `Float4GetDatum`: the datum carries the float unchanged. -/
def Float4GetDatum (bits : Nat) : Datum := .float4 bits
/-- The macro `Float8GetDatum`: the datum carries the double unchanged. -/
def Float8GetDatum (bits : Nat) : Datum := .float8 bits

/-- The macro `DatumGetInt16` of `postgres.h`, on a pass-by-value datum. -/
def DatumGetInt16 : Datum → Option Int
  | .word w => some (wrapSigned 16 w)
  | _ => none
/-- The macro `DatumGetInt32` of `postgres.h`, on a pass-by-value datum. -/
def DatumGetInt32 : Datum → Option Int
  | .word w => some (wrapSigned 32 w)
  | _ => none
/-- The macro `DatumGetInt64` of `postgres.h`, on a pass-by-value datum. -/
def DatumGetInt64 : Datum → Option Int
  | .word w => some (wrapSigned 64 w)
  | _ => none

/-- Reading `value.dbsmallint`. A read of a member other than the one last
written reinterprets the low-order bytes of what was stored. -/
def ColValue.getSmallint : ColValue → Int
  | .dbsmallint v => v
  | .dbint v => wrapSigned 16 v
  | .dbbigint v => wrapSigned 16 v
  | .dbreal w => wrapSigned 16 w
  | .dbflt8 w => wrapSigned 16 w
/-- Reading `value.dbint`. -/
def ColValue.getInt : ColValue → Int
  | .dbsmallint v => v % 65536
  | .dbint v => v
  | .dbbigint v => wrapSigned 32 v
  | .dbreal w => wrapSigned 32 w
  | .dbflt8 w => wrapSigned 32 w
/-- Reading `value.dbbigint`. -/
def ColValue.getBigint : ColValue → Int
  | .dbsmallint v => v % 65536
  | .dbint v => v % 4294967296
  | .dbbigint v => v
  | .dbreal w => w
  | .dbflt8 w => wrapSigned 64 w
/-- Reading `value.dbreal`, as a bit pattern. -/
def ColValue.getReal : ColValue → Nat
  | .dbsmallint v => (v % 65536).toNat
  | .dbint v => (v % 4294967296).toNat
  | .dbbigint v => (v % 4294967296).toNat
  | .dbreal w => w
  | .dbflt8 w => w % 4294967296
/-- Reading `value.dbflt8`, as a bit pattern. -/
def ColValue.getFlt8 : ColValue → Nat
  | .dbsmallint v => (v % 65536).toNat
  | .dbint v => (v % 4294967296).toNat
  | .dbbigint v => (v % 18446744073709551616).toNat
  | .dbreal w => w
  | .dbflt8 w => w

/-! ## The DB-Library session of a scan -/

/-- The `vartype` argument of `dbbind`. -/
inductive BindType
  | SMALLBIND
  | INTBIND
  | BIGINTBIND
  | REALBIND
  | FLT8BIND
  deriving DecidableEq

/-- One column of the current row as DB-Library presents it: `dbdatlen`,
`dbdata` (`none` is the NULL pointer, otherwise the bytes it points to), and
the column's value as a number (`num`) and as a floating bit pattern (`flt`),
from which `dbnextrow` fills a variable bound to the column. -/
structure RawCol where
  srclen : Int
  src : Option (List Nat)
  num : Int
  flt : Nat
  deriving DecidableEq

/-- What `dbdatlen` and `dbdata` report for a column the row does not have. -/
def RawCol.absent : RawCol := ⟨-1, none, 0, 0⟩

/-- What `dbnextrow` stores in a variable bound with the given `vartype`: the
column's value in the C type of the variable. -/
def bindStore : BindType → RawCol → ColValue
  | .SMALLBIND, r => .dbsmallint (wrapSigned 16 r.num)
  | .INTBIND, r => .dbint (wrapSigned 32 r.num)
  | .BIGINTBIND, r => .dbbigint (wrapSigned 64 r.num)
  | .REALBIND, r => .dbreal (r.flt % 4294967296)
  | .FLT8BIND, r => .dbflt8 (r.flt % 18446744073709551616)

/-- One answer of `dbnextrow`: its return code and, for a row, the columns. -/
structure ScanRow where
  ret_code : Int
  cols : List RawCol
  deriving DecidableEq

/-- The fields of `DBDATEREC` that `dbdatecrack` fills. The names are those of
the Microsoft variant; the Sybase variant calls them `dateyear`, `datemonth`,
`datedmonth`, `datehour`, `dateminute`, `datesecond`, `datemsecond`. -/
structure DBDATEREC where
  year : Int
  month : Int
  day : Int
  hour : Int
  minute : Int
  second : Int
  millisecond : Int
  deriving DecidableEq

/-- A `char *` handed to `InputFunctionCall`: the NULL pointer, or a buffer
of `size` bytes from `palloc` whose contents are `none` as long as nothing
has been written to it. -/
inductive CBuf
  | null
  | buffer (size : Int) (contents : Option (List Nat))
  deriving DecidableEq

/-- The routines of DB-Library and PostgreSQL whose results the file only
passes on. `dbconvert` answers with the bytes it wrote to the destination, or
with its failure code (`FAIL` or `-1`); `dbdatecrack` answers with its return
code and the record it filled. -/
structure Lib where
  dbwillconvert : Int → Int → Bool
  dbconvert : Int → Option (List Nat) → Int → Int → Int → Except Int (List Nat)
  dbdatecrack : Option (List Nat) → Int × DBDATEREC
  timestamptz_to_str : Datum → CStr
  InputFunctionCall : Nat → CBuf → Except TdsError Datum

/-- The DB-Library connection of a scan: the return codes it gives to `dbcmd`,
`dbsqlexec` and `dbresults` for the query, the columns of the result, the
return code of `dbbind` per column number, the answers `dbnextrow` has still
to give (after the last one it answers `NO_MORE_ROWS`), and per column the
binding `dbbind` has registered. -/
structure DBPROCESS where
  cmd : Int
  sqlexec : Int
  results : Int
  cols : List SrcCol
  dbbind : Nat → Int
  rows : List ScanRow
  binds : List (Option BindType)

/-- The fields of `TdsFdwExecutionState` that the scan reads and writes. -/
structure Festate where
  query : CStr
  first : Bool
  row : Int
  ncols : Nat
  columns : List COL
  datums : List Datum
  isnull : List Bool

/-! ## tdsDatetimeToDatum and tdsConvertToCString -/

/-- The function `tdsDatetimeToDatum`: the return code of `dbdatecrack`, and
the datum written to `*datetime_out` when that code is `SUCCEED`. The `float8`
seconds passed to `make_timestamp` are given by the second and millisecond
fields they are computed from. -/
def tdsDatetimeToDatum (b : Build) (lib : Lib) (src : Option (List Nat)) : Int × Option Datum :=
  let r := lib.dbdatecrack src
  if r.1 = SUCCEED then
    if b.MSDBLIB then
      (r.1, some (.timestamp r.2.year r.2.month r.2.day r.2.hour r.2.minute
        r.2.second r.2.millisecond))
    else
      (r.1, some (.timestamp r.2.year (r.2.month + 1) r.2.day r.2.hour r.2.minute
        r.2.second r.2.millisecond))
  else (r.1, none)

/-- The locals that the `switch` of `tdsConvertToCString` sets. -/
structure ConvDest where
  real_destlen : Int
  destlen : Int
  desttype : Int
  dest : CBuf
  use_tds_conversion : Bool
  deriving DecidableEq

/-- The `switch (srctype)` of `tdsConvertToCString`. The `SYBDATETIME` case has
no `break` and runs on into `default`. -/
def convSwitch (b : Build) (lib : Lib) (srctype : Int) (src : Option (List Nat))
    (srclen : Int) : ConvDest :=
  if srctype = SYBCHAR ∨ srctype = SYBVARCHAR ∨ srctype = SYBTEXT then
    ⟨srclen + 1, -2, SYBCHAR, .null, true⟩
  else if srctype = SYBBINARY ∨ srctype = SYBVARBINARY then
    ⟨srclen, srclen, SYBBINARY, .null, true⟩
  else if 90400 ≤ b.PG_VERSION_NUM ∧ srctype = SYBDATETIME then
    match tdsDatetimeToDatum b lib src with
    | (erc, some datetime_out) =>
        if erc = SUCCEED then
          let datetime_str := lib.timestamptz_to_str datetime_out
          ⟨1000, -2, SYBCHAR, .buffer (cbytes datetime_str).length (some datetime_str), false⟩
        else ⟨1000, -2, SYBCHAR, .null, true⟩
    | (_, none) => ⟨1000, -2, SYBCHAR, .null, true⟩
  else
    ⟨1000, -2, SYBCHAR, .null, true⟩

/-- The function `tdsConvertToCString`. -/
def tdsConvertToCString (b : Build) (lib : Lib) (srctype : Int) (src : Option (List Nat))
    (srclen : Int) : CBuf :=
  let d := convSwitch b lib srctype src srclen
  if d.use_tds_conversion then
    if lib.dbwillconvert srctype d.desttype then
      match lib.dbconvert srctype src srclen d.desttype d.destlen with
      | .ok written => .buffer d.real_destlen (some written)
      | .error _ => .buffer d.real_destlen none
    else d.dest
  else d.dest

/-! ## tdsIterateForeignScan -/

/-- The body of the binding loop of `tdsIterateForeignScan` for one column:
the column with `useraw` set, and the binding registered by `dbbind`, whose
return code for this column is `dbbind_rc`. -/
def bindColumn (b : Build) (dbbind_rc : Int) (column : COL) :
    Except TdsError (COL × Option BindType) :=
  let srctype := column.srctype
  let attr_oid := column.attr_oid
  if column.local_index = -1 then .ok (column, none)
  else
    let r : Int × COL × Option BindType :=
      if srctype = SYBINT2 ∧ attr_oid = INT2OID then
        (dbbind_rc, { column with useraw := true }, some .SMALLBIND)
      else if srctype = SYBINT4 ∧ attr_oid = INT4OID then
        (dbbind_rc, { column with useraw := true }, some .INTBIND)
      else if srctype = SYBINT8 ∧ attr_oid = INT8OID then
        (dbbind_rc, { column with useraw := true }, some .BIGINTBIND)
      else if srctype = SYBREAL ∧ attr_oid = FLOAT4OID then
        (dbbind_rc, { column with useraw := true }, some .REALBIND)
      else if srctype = SYBFLT8 ∧ attr_oid = FLOAT8OID then
        (dbbind_rc, { column with useraw := true }, some .FLT8BIND)
      else if (srctype = SYBCHAR ∨ srctype = SYBVARCHAR ∨ srctype = SYBTEXT) ∧
          attr_oid = TEXTOID then
        (SUCCEED, { column with useraw := true }, none)
      else if (srctype = SYBBINARY ∨ srctype = SYBVARBINARY ∨ srctype = SYBIMAGE) ∧
          attr_oid = BYTEAOID then
        (SUCCEED, { column with useraw := true }, none)
      else if 90400 ≤ b.PG_VERSION_NUM ∧ srctype = SYBDATETIME ∧ attr_oid = TIMESTAMPOID then
        (SUCCEED, { column with useraw := true }, none)
      else
        (SUCCEED, { column with useraw := false }, none)
    if r.1 = FAIL then
      .error ⟨.FDW_UNABLE_TO_CREATE_EXECUTION, .failedBind column.name⟩
    else .ok (r.2.1, r.2.2)

/-- The binding loop of `tdsIterateForeignScan` from column `ncol` on. -/
def bindColumns (b : Build) (dbbind : Nat → Int) :
    Nat → List COL → Except TdsError (List COL × List (Option BindType))
  | _, [] => .ok ([], [])
  | ncol, column :: rest =>
      match bindColumn b (dbbind (ncol + 1)) column with
      | .error e => .error e
      | .ok (c, bt) =>
          match bindColumns b dbbind (ncol + 1) rest with
          | .error e => .error e
          | .ok (cs, bts) => .ok (c :: cs, bt :: bts)

/-- What `dbnextrow` does to the bound variables when it delivers a row: each
column with a registered binding gets its `value` member written. -/
def storeBound : List (Option BindType) → List RawCol → List COL → List COL
  | _, _, [] => []
  | binds, raws, column :: rest =>
      (match binds.headD none with
        | some bt => { column with value := bindStore bt (raws.headD RawCol.absent) }
        | none => column) :: storeBound binds.tail raws.tail rest

/-- The arrays `festate->datums` and `festate->isnull`. -/
structure RowBuf where
  datums : List Datum
  isnull : List Bool
  deriving DecidableEq

/-- The `switch (attr_oid)` of the `useraw` branch: the datum stored for the
column, or the error raised. -/
def userawDatum (b : Build) (lib : Lib) (column : COL) (raw : RawCol) :
    Except TdsError Datum :=
  let attr_oid := column.attr_oid
  if attr_oid = INT2OID then .ok (Int16GetDatum column.value.getSmallint)
  else if attr_oid = INT4OID then .ok (Int32GetDatum column.value.getInt)
  else if attr_oid = INT8OID then .ok (Int64GetDatum column.value.getBigint)
  else if attr_oid = FLOAT4OID then .ok (Float4GetDatum column.value.getReal)
  else if attr_oid = FLOAT8OID then .ok (Float8GetDatum column.value.getFlt8)
  else if attr_oid = TEXTOID then
    match raw.src with
    | some bytes => .ok (.text (bytes.take raw.srclen.toNat))
    | none => .error ⟨.INTERNAL_ERROR, .nullDereference⟩
  else if attr_oid = BYTEAOID then
    match raw.src with
    | some bytes => .ok (.bytea (bytes.take raw.srclen.toNat))
    | none => .error ⟨.INTERNAL_ERROR, .nullDereference⟩
  else if 90400 ≤ b.PG_VERSION_NUM ∧ attr_oid = TIMESTAMPOID then
    match tdsDatetimeToDatum b lib raw.src with
    | (erc, some d) =>
        if erc ≠ SUCCEED then .error ⟨.FDW_INVALID_ATTRIBUTE_VALUE, .invalidDate⟩
        else .ok d
    | (_, none) => .error ⟨.FDW_INVALID_ATTRIBUTE_VALUE, .invalidDate⟩
  else .error ⟨.FDW_ERROR, .userawWrongType column.name⟩

/-- The body of the decoding loop of `tdsIterateForeignScan` for one column. -/
def decodeColumn (b : Build) (lib : Lib) (column : COL) (raw : RawCol) (buf : RowBuf) :
    Except TdsError RowBuf :=
  if column.local_index = -1 then .ok buf
  else
    let idx := column.local_index.toNat
    if raw.srclen = 0 ∧ raw.src = none then
      .ok { buf with isnull := buf.isnull.set idx true }
    else
      let buf1 : RowBuf :=
        if raw.src = none then buf
        else { buf with isnull := buf.isnull.set idx false }
      if column.useraw then
        match userawDatum b lib column raw with
        | .error e => .error e
        | .ok d => .ok { buf1 with datums := buf1.datums.set idx d }
      else
        let cstring := tdsConvertToCString b lib column.srctype raw.src raw.srclen
        match lib.InputFunctionCall idx cstring with
        | .error e => .error e
        | .ok d => .ok { buf1 with datums := buf1.datums.set idx d }

/-- The decoding loop of `tdsIterateForeignScan` over the columns still to be
decoded, with the row's columns from the same position on. -/
def decodeRow (b : Build) (lib : Lib) : List COL → List RawCol → RowBuf → Except TdsError RowBuf
  | [], _, buf => .ok buf
  | column :: rest, raws, buf =>
      match decodeColumn b lib column (raws.headD RawCol.absent) buf with
      | .error e => .error e
      | .ok buf1 => decodeRow b lib rest raws.tail buf1

/-- The tuple `heap_form_tuple` builds from `datums` and `isnull`: a column
flagged null carries no datum. -/
def heap_form_tuple (buf : RowBuf) : List (Option Datum) :=
  List.zipWith (fun d n => if n then none else some d) buf.datums buf.isnull

/-- The first-call block of `tdsIterateForeignScan` (`if (festate->first)`). -/
def firstIteration (b : Build) (match_column_names : Bool) (attrs : List Attr) (mem : Palloc)
    (festate : Festate) (dbproc : DBPROCESS) :
    Except TdsError (Festate × DBPROCESS × List Warning) :=
  if dbproc.cmd = FAIL then
    .error ⟨.FDW_UNABLE_TO_CREATE_EXECUTION, .failedSetQuery festate.query⟩
  else if dbproc.sqlexec = FAIL then
    .error ⟨.FDW_UNABLE_TO_CREATE_EXECUTION, .failedExecQuery festate.query⟩
  else if dbproc.results = FAIL then
    .error ⟨.FDW_UNABLE_TO_CREATE_EXECUTION, .failedGetResults festate.query⟩
  else if dbproc.results = NO_MORE_RESULTS then
    .error ⟨.FDW_UNABLE_TO_CREATE_EXECUTION, .noResults festate.query⟩
  else if dbproc.results = SUCCEED then
    match tdsGetColumnMetadata b match_column_names dbproc.cols attrs mem with
    | .error e => .error e
    | .ok m =>
        match bindColumns b dbproc.dbbind 0 m.columns with
        | .error e => .error e
        | .ok (columns, binds) =>
            .ok ({ festate with first := false, ncols := dbproc.cols.length, columns := columns,
                                datums := m.datums, isnull := m.isnull },
                 { dbproc with binds := binds }, m.warnings)
  else
    .error ⟨.FDW_UNABLE_TO_CREATE_EXECUTION, .unknownResultsCode festate.query⟩

/-- What one call of `tdsIterateForeignScan` leaves behind: the execution
state, the connection, the slot (`none` is the cleared slot that signals the
end of the data) and the warnings reported. -/
structure IterResult where
  festate : Festate
  dbproc : DBPROCESS
  slot : Option (List (Option Datum))
  warnings : List Warning

/-- The part of `tdsIterateForeignScan` from `dbnextrow` on. -/
def fetchRow (b : Build) (lib : Lib) (festate : Festate) (dbproc : DBPROCESS)
    (warnings : List Warning) : Except TdsError IterResult :=
  match dbproc.rows with
  | [] => .ok ⟨festate, dbproc, none, warnings⟩
  | r :: rest =>
      let dbproc1 := { dbproc with rows := rest }
      if r.ret_code = NO_MORE_ROWS then .ok ⟨festate, dbproc1, none, warnings⟩
      else if r.ret_code = REG_ROW then
        let columns := storeBound dbproc.binds r.cols festate.columns
        match decodeRow b lib columns r.cols ⟨festate.datums, festate.isnull⟩ with
        | .error e => .error e
        | .ok buf =>
            .ok ⟨{ festate with row := festate.row + 1, columns := columns,
                                datums := buf.datums, isnull := buf.isnull },
                 dbproc1, some (heap_form_tuple buf), warnings⟩
      else if r.ret_code = BUF_FULL then
        .error ⟨.FDW_OUT_OF_MEMORY, .scanBufferFull⟩
      else if r.ret_code = FAIL then
        .error ⟨.FDW_UNABLE_TO_CREATE_EXECUTION, .scanRowFailed⟩
      else
        .error ⟨.FDW_UNABLE_TO_CREATE_EXECUTION, .scanUnknownCode⟩

/-- The function `tdsIterateForeignScan`. -/
def tdsIterateForeignScan (b : Build) (lib : Lib) (match_column_names : Bool)
    (attrs : List Attr) (mem : Palloc) (festate : Festate) (dbproc : DBPROCESS) :
    Except TdsError IterResult :=
  if festate.first then
    match firstIteration b match_column_names attrs mem festate dbproc with
    | .error e => .error e
    | .ok (festate1, dbproc1, warnings) => fetchRow b lib festate1 dbproc1 warnings
  else fetchRow b lib festate dbproc []

/-! ## Row-count estimation -/

/-- The return codes a connection gives to `dbcmd`, `dbsqlexec` and
`dbresults` for one statement. -/
structure StmtScript where
  cmd : Int
  sqlexec : Int
  results : Int
  deriving DecidableEq

/-- One column of a fetched row as `dbnextrow` stores it in a bound variable:
under `INTBIND` and under `FLT8BIND`. -/
structure Cell (D : Type) where
  asInt : Int
  asFlt8 : D

/-- One answer of `dbnextrow` to an estimator: the return code and, for a row,
its columns. -/
structure EstRow (D : Type) where
  ret_code : Int
  cells : List (Cell D)

/-- The connection an estimator talks to, as the answers it gives: to the
three statements, the column names of the query's result, the return code of
`dbbind` per column number, the answers of `dbnextrow` (after the last one it
answers `NO_MORE_ROWS`), `DBCOUNT` and `dbiscount`. `D` stands for the C type
`double`. -/
structure EstSession (D : Type) where
  showplan_on : StmtScript
  query : StmtScript
  colnames : List CStr
  dbbind : Nat → Int
  rows : List (EstRow D)
  dbcount : Int
  dbiscount : Int
  showplan_off : StmtScript

/-- What an estimator hands back: the `double` it returns and the statements
it has passed to `dbcmd`, in order. -/
structure Estimate (D : Type) where
  rows : D
  issued : List CStr

/-- The string "SET SHOWPLAN_ALL ON". -/
def show_plan_query : CStr :=
  [83, 69, 84, 32, 83, 72, 79, 87, 80, 76, 65, 78, 95, 65, 76, 76, 32, 79, 78]

/-- The string "SET SHOWPLAN_ALL OFF". -/
def show_plan_query_off : CStr :=
  [83, 69, 84, 32, 83, 72, 79, 87, 80, 76, 65, 78, 95, 65, 76, 76, 32, 79, 70, 70]

/-- The string "Parent". -/
def str_Parent : CStr := [80, 97, 114, 101, 110, 116]

/-- The string "EstimateRows". -/
def str_EstimateRows : CStr := [69, 115, 116, 105, 109, 97, 116, 101, 82, 111, 119, 115]

/-- The two locals of `tdsGetRowCountShowPlanAll` that `dbbind` binds. -/
inductive PlanVar
  | parent
  | estimate_rows
  deriving DecidableEq

/-- The values of the locals `parent` and `estimate_rows`. -/
structure PlanVars (D : Type) where
  parent : Int
  estimate_rows : D

/-- The column loop of `tdsGetRowCountShowPlanAll` from column `ncol` on: the
bindings it registers, as (column index, variable), in the order of the calls. -/
def bindPlanColumns (dbbind : Nat → Int) : Nat → List CStr → Except TdsError (List (Nat × PlanVar))
  | _, [] => .ok []
  | ncol, col_name :: rest =>
      if strcmp col_name str_Parent = 0 ∧ dbbind (ncol + 1) = FAIL then
        .error ⟨.FDW_UNABLE_TO_CREATE_EXECUTION, .failedBind col_name⟩
      else if strcmp col_name str_EstimateRows = 0 ∧ dbbind (ncol + 1) = FAIL then
        .error ⟨.FDW_UNABLE_TO_CREATE_EXECUTION, .failedBind col_name⟩
      else
        match bindPlanColumns dbbind (ncol + 1) rest with
        | .error e => .error e
        | .ok bs =>
            .ok ((if strcmp col_name str_Parent = 0 then [(ncol, PlanVar.parent)] else []) ++
              (if strcmp col_name str_EstimateRows = 0 then [(ncol, PlanVar.estimate_rows)]
                else []) ++ bs)

/-- What `dbnextrow` does to `parent` and `estimate_rows` when it delivers a
row: every registered binding stores its column, in the order of registration. -/
def storePlanVars {D : Type} (binds : List (Nat × PlanVar)) (cells : List (Cell D))
    (v : PlanVars D) : PlanVars D :=
  binds.foldl (fun v bd =>
    match cells[bd.1]? with
    | some c =>
        (match bd.2 with
          | .parent => { v with parent := c.asInt }
          | .estimate_rows => { v with estimate_rows := c.asFlt8 })
    | none => v) v

/-- The `while` loop of `tdsGetRowCountShowPlanAll` over the answers of
`dbnextrow` still to come, with the current value of `rows`. -/
def planRowLoop {D : Type} [Add D] (binds : List (Nat × PlanVar)) :
    List (EstRow D) → PlanVars D → D → Except TdsError D
  | [], _, rows => .ok rows
  | r :: rest, v, rows =>
      if r.ret_code = NO_MORE_ROWS then .ok rows
      else if r.ret_code = REG_ROW then
        let v1 := storePlanVars binds r.cells v
        planRowLoop binds rest v1 (if v1.parent = 0 then rows + v1.estimate_rows else rows)
      else if r.ret_code = BUF_FULL then
        .error ⟨.FDW_OUT_OF_MEMORY, .planBufferFull⟩
      else if r.ret_code = FAIL then
        .error ⟨.FDW_UNABLE_TO_CREATE_EXECUTION, .planRowFailed⟩
      else
        .error ⟨.FDW_UNABLE_TO_CREATE_EXECUTION, .planUnknownCode⟩

/-- The code of `tdsGetRowCountShowPlanAll` from the label
`cleanup_after_show_plan` on. The last message names `show_plan_query`, as
the source does. -/
def cleanupAfterShowPlan {D : Type} (s : EstSession D) (rows : D) (issued : List CStr) :
    Except TdsError (Estimate D) :=
  if s.showplan_off.cmd = FAIL then
    .error ⟨.FDW_UNABLE_TO_CREATE_EXECUTION, .failedSetQuery show_plan_query_off⟩
  else if s.showplan_off.sqlexec = FAIL then
    .error ⟨.FDW_UNABLE_TO_CREATE_EXECUTION, .failedExecQuery show_plan_query_off⟩
  else if s.showplan_off.results = FAIL then
    .error ⟨.FDW_UNABLE_TO_CREATE_EXECUTION, .failedGetResults show_plan_query⟩
  else .ok ⟨rows, issued ++ [show_plan_query_off]⟩

/-- The function `tdsGetRowCountShowPlanAll`, for the query `query` of the
option set. -/
def tdsGetRowCountShowPlanAll {D : Type} [Zero D] [Add D] (query : CStr) (s : EstSession D) :
    Except TdsError (Estimate D) :=
  if s.showplan_on.cmd = FAIL then
    .error ⟨.FDW_UNABLE_TO_CREATE_EXECUTION, .failedSetQuery show_plan_query⟩
  else if s.showplan_on.sqlexec = FAIL then
    .error ⟨.FDW_UNABLE_TO_CREATE_EXECUTION, .failedExecQuery show_plan_query⟩
  else if s.showplan_on.results = FAIL then
    .error ⟨.FDW_UNABLE_TO_CREATE_EXECUTION, .failedGetResults show_plan_query⟩
  else if s.query.cmd = FAIL then
    .error ⟨.FDW_UNABLE_TO_CREATE_EXECUTION, .failedSetQuery query⟩
  else if s.query.sqlexec = FAIL then
    .error ⟨.FDW_UNABLE_TO_CREATE_EXECUTION, .failedExecQuery query⟩
  else if s.query.results = FAIL then
    .error ⟨.FDW_UNABLE_TO_CREATE_EXECUTION, .failedGetResults query⟩
  else if s.query.results = NO_MORE_RESULTS then
    cleanupAfterShowPlan s 0 [show_plan_query, query]
  else if s.query.results = SUCCEED then
    match bindPlanColumns s.dbbind 0 s.colnames with
    | .error e => .error e
    | .ok binds =>
        match planRowLoop binds s.rows ⟨0, 0⟩ 0 with
        | .error e => .error e
        | .ok rows => cleanupAfterShowPlan s rows [show_plan_query, query]
  else
    .error ⟨.FDW_UNABLE_TO_CREATE_EXECUTION, .unknownResultsCode query⟩

/-- The `while` loop of `tdsGetRowCountExecute` over the answers of
`dbnextrow` still to come, with the current value of `rows_increment`. -/
def countRowLoop {D : Type} : List (EstRow D) → Int → Except TdsError Int
  | [], rows_increment => .ok rows_increment
  | r :: rest, rows_increment =>
      if r.ret_code = NO_MORE_ROWS then .ok rows_increment
      else if r.ret_code = REG_ROW then countRowLoop rest (rows_increment + 1)
      else if r.ret_code = BUF_FULL then
        .error ⟨.FDW_OUT_OF_MEMORY, .planBufferFull⟩
      else if r.ret_code = FAIL then
        .error ⟨.FDW_UNABLE_TO_CREATE_EXECUTION, .planRowFailed⟩
      else
        .error ⟨.FDW_UNABLE_TO_CREATE_EXECUTION, .planUnknownCode⟩

/-- The code of `tdsGetRowCountExecute` from the label `cleanup` on: the
integer chosen is converted to `double` by the `return`. -/
def cleanupExecute {D : Type} [IntCast D] (rows_report rows_increment iscount : Int)
    (issued : List CStr) : Estimate D :=
  if iscount ≠ 0 then ⟨((rows_report : Int) : D), issued⟩
  else ⟨((rows_increment : Int) : D), issued⟩

/-- The function `tdsGetRowCountExecute`, for the query `query` of the option
set. -/
def tdsGetRowCountExecute {D : Type} [IntCast D] (query : CStr) (s : EstSession D) :
    Except TdsError (Estimate D) :=
  if s.query.cmd = FAIL then
    .error ⟨.FDW_UNABLE_TO_CREATE_EXECUTION, .failedSetQuery query⟩
  else if s.query.sqlexec = FAIL then
    .error ⟨.FDW_UNABLE_TO_CREATE_EXECUTION, .failedExecQuery query⟩
  else if s.query.results = FAIL then
    .error ⟨.FDW_UNABLE_TO_CREATE_EXECUTION, .failedGetResults query⟩
  else if s.query.results = NO_MORE_RESULTS then
    .ok (cleanupExecute 0 0 0 [query])
  else if s.query.results = SUCCEED then
    match countRowLoop s.rows 0 with
    | .error e => .error e
    | .ok rows_increment => .ok (cleanupExecute s.dbcount rows_increment s.dbiscount [query])
  else
    .error ⟨.FDW_UNABLE_TO_CREATE_EXECUTION, .unknownResultsCode query⟩

/-! ## The estimate the spec asks for, and sample inputs -/

/-- The sum the spec asks of the plan-based estimator: the running total, in
row order and starting from 0, of the field in column `e` (EstimateRows) over
the rows whose field in column `p` (Parent) is 0. -/
def sumRootEstimates {D : Type} [Zero D] [Add D] (p e : Nat) (rows : List (EstRow D)) : D :=
  ((rows.filter (fun r => decide ((r.cells[p]?).map Cell.asInt = some 0))).map
    (fun r => ((r.cells[e]?).map Cell.asFlt8).getD 0)).foldl (fun acc x => acc + x) 0

/-- The fabricated plan of the spec: a session in which every call succeeds,
the result has the columns Parent and EstimateRows, and there are two rows,
one with Parent 0 and estimate `x`, one with Parent 1 and estimate `y`. -/
def examplePlan {D : Type} [Zero D] (x y : D) : EstSession D where
  showplan_on := ⟨SUCCEED, SUCCEED, SUCCEED⟩
  query := ⟨SUCCEED, SUCCEED, SUCCEED⟩
  colnames := [str_Parent, str_EstimateRows]
  dbbind := fun _ => SUCCEED
  rows := [⟨REG_ROW, [⟨0, 0⟩, ⟨0, x⟩]⟩, ⟨REG_ROW, [⟨1, 0⟩, ⟨0, y⟩]⟩]
  dbcount := 2
  dbiscount := 0
  showplan_off := ⟨SUCCEED, SUCCEED, SUCCEED⟩

/-- A build with the default identifier limit and the Sybase variant. -/
def sampleBuild : Build := ⟨64, 90400, false⟩

/-- Memory whose fresh contents are all-zero records. -/
def sampleMem : Palloc :=
  ⟨fun _ => ⟨[], 0, false, .dbint 0, 0, 0⟩, fun _ => .word 0, fun _ => false⟩

/-- The string "id". -/
def str_id : CStr := [105, 100]

/-- The string "name". -/
def str_name : CStr := [110, 97, 109, 101]

/-- The string "x". -/
def str_x : CStr := [120]

/-- A target table `(id int4, name text)`. -/
def sampleAttrs : List Attr := [⟨str_id, INT4OID⟩, ⟨str_name, TEXTOID⟩]

/-- A result with the columns `name`, `id` and `x`. -/
def sampleSrc : List SrcCol := [⟨str_name, SYBVARCHAR⟩, ⟨str_id, SYBINT4⟩, ⟨str_x, SYBINT4⟩]

/-- A planned column `id` of wire type `SYBINT4` bound to target column 0 of
type `int4`. -/
def sampleColumn : COL := ⟨str_id, SYBINT4, false, .dbint 0, 0, INT4OID⟩

/-- A library in which `dbconvert` fails on the single byte 255 and copies
every other source, `dbdatecrack` fails, and the input functions take whatever
buffer they are handed. -/
def sampleLib : Lib where
  dbwillconvert := fun _ _ => true
  dbconvert := fun _ src _ _ _ =>
    match src with
    | some [255] => .error FAIL
    | some bytes => .ok bytes
    | none => .error (-1)
  dbdatecrack := fun _ => (FAIL, ⟨0, 0, 0, 0, 0, 0, 0⟩)
  timestamptz_to_str := fun _ => []
  InputFunctionCall := fun idx buf =>
    match buf with
    | .null => .ok (.word 0)
    | .buffer _ none => .ok (.parsed idx [])
    | .buffer _ (some bytes) => .ok (.parsed idx bytes)

/-- A session whose query succeeds and yields two rows, for a statement that
is not count-style. -/
def sampleSession : EstSession Int where
  showplan_on := ⟨SUCCEED, SUCCEED, SUCCEED⟩
  query := ⟨SUCCEED, SUCCEED, SUCCEED⟩
  colnames := [str_id]
  dbbind := fun _ => SUCCEED
  rows := [⟨REG_ROW, [⟨1, 1⟩]⟩, ⟨REG_ROW, [⟨2, 2⟩]⟩]
  dbcount := 2
  dbiscount := 0
  showplan_off := ⟨SUCCEED, SUCCEED, SUCCEED⟩

/-- A session whose query reports that it has no results. -/
def emptySession : EstSession Int where
  showplan_on := ⟨SUCCEED, SUCCEED, SUCCEED⟩
  query := ⟨SUCCEED, SUCCEED, NO_MORE_RESULTS⟩
  colnames := []
  dbbind := fun _ => SUCCEED
  rows := []
  dbcount := 0
  dbiscount := 0
  showplan_off := ⟨SUCCEED, SUCCEED, SUCCEED⟩

/-! ## tdsGetStartupCost, tdsReScanForeignScan and the executor's loop -/

/-- The string "127.0.0.1". -/
def str_loopback : CStr := [49, 50, 55, 46, 48, 46, 48, 46, 49]

/-- The string "localhost". -/
def str_localhost : CStr := [108, 111, 99, 97, 108, 104, 111, 115, 116]

/-- The string "dbhost.example.com". -/
def str_dbhost : CStr :=
  [100, 98, 104, 111, 115, 116, 46, 101, 120, 97, 109, 112, 108, 101, 46, 99, 111, 109]

/-- The function `tdsGetStartupCost`, for the server name of the option set.
The `double` it returns is one of the constants 0 and 25, given here as the
integer the constant denotes. -/
def tdsGetStartupCost (servername : CStr) : Int :=
  if strcmp servername str_loopback = 0 ∨ strcmp servername str_localhost = 0 then 0
  else 25

/-- The function `tdsReScanForeignScan`: its body only reports two notices
under `DEBUG`, so the execution state and the connection stay as they are. -/
def tdsReScanForeignScan (festate : Festate) (dbproc : DBPROCESS) : Festate × DBPROCESS :=
  (festate, dbproc)

/-- The executor's use of a scan: it calls `tdsIterateForeignScan` until the
slot comes back empty, at most `n` times, and collects the rows. -/
def scanRows (b : Build) (lib : Lib) (match_column_names : Bool) (attrs : List Attr)
    (mem : Palloc) : Nat → Festate → DBPROCESS → Except TdsError (List (List (Option Datum)))
  | 0, _, _ => .ok []
  | n + 1, festate, dbproc =>
      match tdsIterateForeignScan b lib match_column_names attrs mem festate dbproc with
      | .error e => .error e
      | .ok r =>
          match r.slot with
          | none => .ok []
          | some tuple =>
              match scanRows b lib match_column_names attrs mem n r.festate r.dbproc with
              | .error e => .error e
              | .ok tuples => .ok (tuple :: tuples)

/-- The pairs of wire type and target type that the spec lists for FastBind. -/
def fastBindPair (srctype : Int) (oid : Nat) : Prop :=
  (srctype = SYBINT2 ∧ oid = INT2OID) ∨ (srctype = SYBINT4 ∧ oid = INT4OID) ∨
  (srctype = SYBINT8 ∧ oid = INT8OID) ∨ (srctype = SYBREAL ∧ oid = FLOAT4OID) ∨
  (srctype = SYBFLT8 ∧ oid = FLOAT8OID) ∨
  ((srctype = SYBCHAR ∨ srctype = SYBVARCHAR ∨ srctype = SYBTEXT) ∧ oid = TEXTOID) ∨
  ((srctype = SYBBINARY ∨ srctype = SYBVARBINARY ∨ srctype = SYBIMAGE) ∧ oid = BYTEAOID) ∨
  (srctype = SYBDATETIME ∧ oid = TIMESTAMPOID)

instance (srctype : Int) (oid : Nat) : Decidable (fastBindPair srctype oid) := by
  unfold fastBindPair; infer_instance

/-- The error the row loop of either estimator raises for a return code of
`dbnextrow` other than `REG_ROW` and `NO_MORE_ROWS`. -/
def rowFetchError (ret_code : Int) : TdsError :=
  if ret_code = BUF_FULL then ⟨.FDW_OUT_OF_MEMORY, .planBufferFull⟩
  else if ret_code = FAIL then ⟨.FDW_UNABLE_TO_CREATE_EXECUTION, .planRowFailed⟩
  else ⟨.FDW_UNABLE_TO_CREATE_EXECUTION, .planUnknownCode⟩

/-- The execution state `tdsBeginForeignScan` leaves for the query "q". -/
def sampleFestate : Festate := ⟨[113], true, 0, 0, [], [], []⟩

/-- A connection whose query succeeds with the column `id` of wire type
`SYBINT4` and the two rows 1 and 2. -/
def sampleDbproc : DBPROCESS where
  cmd := SUCCEED
  sqlexec := SUCCEED
  results := SUCCEED
  cols := [⟨str_id, SYBINT4⟩]
  dbbind := fun _ => SUCCEED
  rows := [⟨REG_ROW, [⟨4, some [1, 0, 0, 0], 1, 0⟩]⟩, ⟨REG_ROW, [⟨4, some [2, 0, 0, 0], 2, 0⟩]⟩]
  binds := []

/-- No column of the list has slot `j` as its target: each is unbound or bound
to another slot. -/
def SlotUntouched (j : Nat) (cols : List COL) : Prop :=
  ∀ c ∈ cols, c.local_index = -1 ∨ c.local_index.toNat ≠ j

/-- The execution state after the first-call block in which slot `j` is flagged
null and no column has it as its target. -/
def NullKept (j : Nat) (f : Festate) : Prop :=
  f.isnull[j]? = some true ∧ j < f.datums.length ∧ SlotUntouched j f.columns ∧ f.first = false


/-! ## options.c -/

/-- One entry of an options list (a `DefElem`): its name and the string that
`defGetString` returns for it. -/
structure DefElem where
  defname : CStr
  arg : CStr
  deriving DecidableEq

/-- The record `TdsFdwOptionSet`, with the fields `tdsOptionSetInit` sets; for
a `char *` field `none` is the NULL pointer. -/
structure TdsFdwOptionSet where
  servername : Option CStr
  language : Option CStr
  character_set : Option CStr
  port : Int
  database : Option CStr
  dbuse : Int
  tds_version : Option CStr
  msg_handler : Option CStr
  username : Option CStr
  password : Option CStr
  query : Option CStr
  table : Option CStr
  row_estimate_method : Option CStr
  match_column_names : Int
  deriving DecidableEq

/-- The SQLSTATE classes `options.c` passes to `errcode` in the functions
embedded here. -/
inductive OptionSqlState
  | FDW_INVALID_OPTION_NAME
  | SYNTAX_ERROR
  deriving DecidableEq

/-- The message formats `options.c` passes to `errmsg` in the functions
embedded here, with their arguments. -/
inductive OptionMsg
  /-- Message "Invalid option %s", with the name in double quotes; its hint
  lists the valid options. -/
  | invalidOption (defname : CStr)
  /-- Message "Redundant option: NAME (%s)", where `optname` is the NAME the
  format string spells out. -/
  | redundantOption (optname : CStr) (arg : CStr)
  /-- Message "Unknown tds version: %s." -/
  | unknownTdsVersion (tds_version : CStr)
  /-- Message "Unknown msg handler: %s." -/
  | unknownMsgHandler (msg_handler : CStr)
  /-- The message of the check for conflicting options: "table and query
  options" used together. -/
  | conflictingTableQuery
  /-- Message "Required options: either a table or a query must be specified" -/
  | requiredTableOrQuery
  deriving DecidableEq

/-- One `ereport(ERROR, (errcode(..), errmsg(..)))` of `options.c`. -/
structure OptionError where
  errcode : OptionSqlState
  errmsg : OptionMsg
  deriving DecidableEq

/-- The catalog OID `ForeignServerRelationId` (`pg_foreign_server.h`). -/
abbrev ForeignServerRelationId : Nat := 1417
/-- The catalog OID `UserMappingRelationId` (`pg_user_mapping.h`). -/
abbrev UserMappingRelationId : Nat := 1418
/-- The catalog OID `ForeignTableRelationId` (`pg_foreign_table.h`). -/
abbrev ForeignTableRelationId : Nat := 3118

/-- The string "servername". -/
def str_servername : CStr := [115, 101, 114, 118, 101, 114, 110, 97, 109, 101]

/-- The string "language". -/
def str_language : CStr := [108, 97, 110, 103, 117, 97, 103, 101]

/-- The string "character_set". -/
def str_character_set : CStr := [99, 104, 97, 114, 97, 99, 116, 101, 114, 95, 115, 101, 116]

/-- The string "port". -/
def str_port : CStr := [112, 111, 114, 116]

/-- The string "database". -/
def str_database : CStr := [100, 97, 116, 97, 98, 97, 115, 101]

/-- The string "dbuse". -/
def str_dbuse : CStr := [100, 98, 117, 115, 101]

/-- The string "tds_version". -/
def str_tds_version : CStr := [116, 100, 115, 95, 118, 101, 114, 115, 105, 111, 110]

/-- The string "msg_handler". -/
def str_msg_handler : CStr := [109, 115, 103, 95, 104, 97, 110, 100, 108, 101, 114]

/-- The string "row_estimate_method". -/
def str_row_estimate_method : CStr := [114, 111, 119, 95, 101, 115, 116, 105, 109, 97, 116, 101, 95, 109, 101, 116, 104, 111, 100]

/-- The string "username". -/
def str_username : CStr := [117, 115, 101, 114, 110, 97, 109, 101]

/-- The string "password". -/
def str_password : CStr := [112, 97, 115, 115, 119, 111, 114, 100]

/-- The string "query". -/
def str_query : CStr := [113, 117, 101, 114, 121]

/-- The string "table". -/
def str_table : CStr := [116, 97, 98, 108, 101]

/-- The string "match_column_names". -/
def str_match_column_names : CStr := [109, 97, 116, 99, 104, 95, 99, 111, 108, 117, 109, 110, 95, 110, 97, 109, 101, 115]

/-- The string "4.2". -/
def str_tds_4_2 : CStr := [52, 46, 50]

/-- The string "5.0". -/
def str_tds_5_0 : CStr := [53, 46, 48]

/-- The string "7.0". -/
def str_tds_7_0 : CStr := [55, 46, 48]

/-- The string "7.1". -/
def str_tds_7_1 : CStr := [55, 46, 49]

/-- The string "7.2". -/
def str_tds_7_2 : CStr := [55, 46, 50]

/-- The string "7.3". -/
def str_tds_7_3 : CStr := [55, 46, 51]

/-- The string "7.4". -/
def str_tds_7_4 : CStr := [55, 46, 52]

/-- The string "notice". -/
def str_notice : CStr := [110, 111, 116, 105, 99, 101]

/-- The string "blackhole". -/
def str_blackhole : CStr := [98, 108, 97, 99, 107, 104, 111, 108, 101]

/-- The string "bogus". -/
def str_bogus : CStr := [98, 111, 103, 117, 115]

/-- The string "2020-01-15 10:30:00". -/
def str_timestamp : CStr := [50, 48, 50, 48, 45, 48, 49, 45, 49, 53, 32, 49, 48, 58, 51, 48, 58, 48, 48]

/-! ### The option table and tdsGetForeignServerOptions -/

/-- The table `valid_options`: each option name with the catalog it belongs to. -/
def valid_options : List (CStr × Nat) :=
  [(str_servername, ForeignServerRelationId),
   (str_language, ForeignServerRelationId),
   (str_character_set, ForeignServerRelationId),
   (str_port, ForeignServerRelationId),
   (str_database, ForeignServerRelationId),
   (str_dbuse, ForeignServerRelationId),
   (str_tds_version, ForeignServerRelationId),
   (str_msg_handler, ForeignServerRelationId),
   (str_row_estimate_method, ForeignServerRelationId),
   (str_username, UserMappingRelationId),
   (str_password, UserMappingRelationId),
   (str_query, ForeignTableRelationId),
   (str_table, ForeignTableRelationId),
   (str_row_estimate_method, ForeignTableRelationId),
   (str_match_column_names, ForeignTableRelationId)]

/-- The function `tdsIsValidOption`: whether some entry of `valid_options` has
the context and, under `strcmp`, the name. -/
def tdsIsValidOption (optname : CStr) (context : Nat) : Bool :=
  valid_options.any (fun opt => decide (context = opt.2 ∧ strcmp opt.1 optname = 0))

/-- The function `tdsOptionSetInit`: the option set it leaves. -/
def tdsOptionSetInit : TdsFdwOptionSet :=
  ⟨none, none, none, 0, none, 0, none, none, none, none, none, none, none, 0⟩

/-- Which of the macros `DBVERSION_71` to `DBVERSION_74` the DB-Library header
defines. -/
structure DbVersions where
  DBVERSION_71 : Bool
  DBVERSION_72 : Bool
  DBVERSION_73 : Bool
  DBVERSION_74 : Bool

/-- The body of the `foreach` loop of `tdsGetForeignServerOptions` for one
entry. `atoi` is the C library routine. The local `msg_handler_test` is
declared without an initializer, so `msg_handler_test` here is the value the
variable happens to hold when the block is entered; the block is entered at
most once in a call, since a second `msg_handler` entry is reported as
redundant before the variable is read. -/
def serverOption (v : DbVersions) (atoi : CStr → Int) (msg_handler_test : Int)
    (defel : DefElem) (option_set : TdsFdwOptionSet) : Except OptionError TdsFdwOptionSet :=
  if tdsIsValidOption defel.defname ForeignServerRelationId = false then
    .error ⟨.FDW_INVALID_OPTION_NAME, .invalidOption defel.defname⟩
  else if strcmp defel.defname str_servername = 0 then
    if option_set.servername ≠ none then
      .error ⟨.SYNTAX_ERROR, .redundantOption str_servername defel.arg⟩
    else .ok { option_set with servername := some defel.arg }
  else if strcmp defel.defname str_language = 0 then
    if option_set.language ≠ none then
      .error ⟨.SYNTAX_ERROR, .redundantOption str_language defel.arg⟩
    else .ok { option_set with language := some defel.arg }
  else if strcmp defel.defname str_character_set = 0 then
    if option_set.character_set ≠ none then
      .error ⟨.SYNTAX_ERROR, .redundantOption str_character_set defel.arg⟩
    else .ok { option_set with character_set := some defel.arg }
  else if strcmp defel.defname str_port = 0 then
    if option_set.port ≠ 0 then
      .error ⟨.SYNTAX_ERROR, .redundantOption str_port defel.arg⟩
    else .ok { option_set with port := atoi defel.arg }
  else if strcmp defel.defname str_database = 0 then
    if option_set.database ≠ none then
      .error ⟨.SYNTAX_ERROR, .redundantOption str_database defel.arg⟩
    else .ok { option_set with database := some defel.arg }
  else if strcmp defel.defname str_dbuse = 0 then
    if option_set.dbuse ≠ 0 then
      .error ⟨.SYNTAX_ERROR, .redundantOption str_dbuse defel.arg⟩
    else .ok { option_set with dbuse := atoi defel.arg }
  else if strcmp defel.defname str_tds_version = 0 then
    if option_set.tds_version ≠ none then
      .error ⟨.SYNTAX_ERROR, .redundantOption str_database defel.arg⟩
    else
      let tds_version_test : Int :=
        if strcmp defel.arg str_tds_4_2 = 0 then 1
        else if strcmp defel.arg str_tds_5_0 = 0 then 1
        else if strcmp defel.arg str_tds_7_0 = 0 then 1
        else if v.DBVERSION_71 = true ∧ strcmp defel.arg str_tds_7_1 = 0 then 1
        else if v.DBVERSION_72 = true ∧ strcmp defel.arg str_tds_7_2 = 0 then 1
        else if v.DBVERSION_73 = true ∧ strcmp defel.arg str_tds_7_3 = 0 then 1
        else if v.DBVERSION_74 = true ∧ strcmp defel.arg str_tds_7_4 = 0 then 1
        else 0
      if tds_version_test = 0 then
        .error ⟨.SYNTAX_ERROR, .unknownTdsVersion defel.arg⟩
      else .ok { option_set with tds_version := some defel.arg }
  else if strcmp defel.defname str_msg_handler = 0 then
    if option_set.msg_handler ≠ none then
      .error ⟨.SYNTAX_ERROR, .redundantOption str_msg_handler defel.arg⟩
    else
      let test : Int :=
        if strcmp defel.arg str_notice = 0 then 1
        else if strcmp defel.arg str_blackhole = 0 then 1
        else msg_handler_test
      if test = 0 then
        .error ⟨.SYNTAX_ERROR, .unknownMsgHandler defel.arg⟩
      else .ok { option_set with msg_handler := some defel.arg }
  else .ok option_set

/-- The function `tdsGetForeignServerOptions`: the option set after the loop
over `options_list`, or the error an entry raises. -/
def tdsGetForeignServerOptions (v : DbVersions) (atoi : CStr → Int) (msg_handler_test : Int) :
    List DefElem → TdsFdwOptionSet → Except OptionError TdsFdwOptionSet
  | [], option_set => .ok option_set
  | defel :: rest, option_set =>
      match serverOption v atoi msg_handler_test defel option_set with
      | .error e => .error e
      | .ok option_set1 => tdsGetForeignServerOptions v atoi msg_handler_test rest option_set1

/-- The function `tdsValidateForeignTableOptionSet`. -/
def tdsValidateForeignTableOptionSet (option_set : TdsFdwOptionSet) : Except OptionError Unit :=
  if option_set.table ≠ none ∧ option_set.query ≠ none then
    .error ⟨.SYNTAX_ERROR, .conflictingTableQuery⟩
  else if option_set.table = none ∧ option_set.query = none then
    .error ⟨.SYNTAX_ERROR, .requiredTableOrQuery⟩
  else .ok ()

/-! ### Sample inputs for decoding and conversion -/

/-- The library `sampleLib` with a coercion table that reports every pair of
types as not convertible. -/
def noConvertLib : Lib := { sampleLib with dbwillconvert := fun _ _ => false }

/-- The library `sampleLib` with a `dbdatecrack` that succeeds with the fields
of 15 January 2020, 10:30 (month counted from 0), and the text of that
timestamp. -/
def dateLib : Lib :=
  { sampleLib with
    dbdatecrack := fun _ => (SUCCEED, ⟨2020, 0, 15, 10, 30, 0, 0⟩)
    timestamptz_to_str := fun _ => str_timestamp }

/-- A connection whose query succeeds with the column `id` of wire type
`SYBINT4` and two rows: a NULL value, then a value of length 4 for which
`dbdata` returns the NULL pointer. -/
def staleFlagDbproc : DBPROCESS where
  cmd := SUCCEED
  sqlexec := SUCCEED
  results := SUCCEED
  cols := [⟨str_id, SYBINT4⟩]
  dbbind := fun _ => SUCCEED
  rows := [⟨REG_ROW, [⟨0, none, 0, 0⟩]⟩, ⟨REG_ROW, [⟨4, none, 7, 0⟩]⟩]
  binds := []

/-! ## Lemmas: string comparison -/

theorem strncmp_eq_zero_iff (n : Nat) (s t : CStr) :
    strncmp s t n = 0 ↔ eqUpTo n s t := by
  induction n generalizing s t with
  | zero => simp [strncmp, eqUpTo]
  | succ n ih =>
    cases s with
    | nil =>
      cases t with
      | nil => simp [strncmp, eqUpTo]
      | cons d t =>
        by_cases hd : d = 0
        · simp [strncmp, eqUpTo, cbytes, hd]
        · simp [strncmp, eqUpTo, cbytes, hd, List.takeWhile_cons]
          intro h; exact absurd h.symm hd
    | cons c s =>
      cases t with
      | nil =>
        by_cases hc : c = 0
        · simp [strncmp, eqUpTo, cbytes, hc]
        · simp [strncmp, eqUpTo, cbytes, hc, List.takeWhile_cons]
      | cons d t =>
        by_cases hcd : c = d
        · subst hcd
          by_cases hc : c = 0
          · simp [strncmp, eqUpTo, cbytes, hc]
          · have := ih s t
            simp [strncmp, eqUpTo, cbytes, hc, List.takeWhile_cons] at this ⊢
            exact this
        · by_cases hc : c = 0
          · subst hc
            have hd : d ≠ 0 := fun h => hcd h.symm
            simp [strncmp, eqUpTo, cbytes, hcd, hd, List.takeWhile_cons]
          · by_cases hd : d = 0
            · subst hd
              simp [strncmp, eqUpTo, cbytes, hcd, hc, List.takeWhile_cons]
            · simp [strncmp, eqUpTo, cbytes, hcd, hc, hd, List.takeWhile_cons]
              omega

theorem eqUpTo_symm {n : Nat} {s t : CStr} (h : eqUpTo n s t) : eqUpTo n t s := by
  unfold eqUpTo at *; exact h.symm

theorem eqUpTo_trans {n : Nat} {s t u : CStr} (h : eqUpTo n s t) (h2 : eqUpTo n t u) :
    eqUpTo n s u := by
  unfold eqUpTo at *; exact h.trans h2

/-! ## Lemmas: column planning -/

theorem matchLocalColumn_none (N : Nat) (name : CStr) (attrs : List Attr) (k : Nat) :
    matchLocalColumn N name attrs k = none ↔ ∀ a ∈ attrs, strncmp a.attname name N ≠ 0 := by
  induction attrs generalizing k with
  | nil => simp [matchLocalColumn]
  | cons a rest ih =>
    by_cases h : strncmp a.attname name N = 0
    · simp [matchLocalColumn, h]
    · simp [matchLocalColumn, h, ih]

theorem matchLocalColumn_some (N : Nat) (name : CStr) (attrs : List Attr) (k j oid : Nat) :
    matchLocalColumn N name attrs k = some (j, oid) ↔
      ∃ i a, j = k + i ∧ attrs[i]? = some a ∧ strncmp a.attname name N = 0 ∧ oid = a.atttypid ∧
        ∀ i', i' < i → ∀ a', attrs[i']? = some a' → strncmp a'.attname name N ≠ 0 := by
  induction attrs generalizing k with
  | nil => simp [matchLocalColumn]
  | cons a rest ih =>
    by_cases h : strncmp a.attname name N = 0
    · simp only [matchLocalColumn, h, if_true, Option.some.injEq, Prod.mk.injEq]
      constructor
      · rintro ⟨rfl, rfl⟩
        exact ⟨0, a, by simp, by simp, h, rfl, by intro i' hi'; omega⟩
      · rintro ⟨i, a', hj, hget, hm, hoid, hmin⟩
        cases i with
        | zero =>
          simp at hget; subst hget
          exact ⟨by omega, hoid.symm⟩
        | succ i =>
          exact absurd h (hmin 0 (by omega) a (by simp))
    · simp only [matchLocalColumn, h, if_false, ih]
      constructor
      · rintro ⟨i, a', hj, hget, hm, hoid, hmin⟩
        refine ⟨i + 1, a', by omega, by simpa using hget, hm, hoid, ?_⟩
        intro i' hi' a'' hget'
        cases i' with
        | zero => simp at hget'; subst hget'; exact h
        | succ i' => exact hmin i' (by omega) a'' (by simpa using hget')
      · rintro ⟨i, a', hj, hget, hm, hoid, hmin⟩
        cases i with
        | zero => simp at hget; subst hget; exact absurd hm h
        | succ i =>
          refine ⟨i, a', by omega, by simpa using hget, hm, hoid, ?_⟩
          intro i' hi' a'' hget'
          exact hmin (i' + 1) (by omega) a'' (by simpa using hget')

theorem matchLocalColumn_congr (N : Nat) (s t : CStr) (h : eqUpTo N s t) (attrs : List Attr)
    (k : Nat) : matchLocalColumn N s attrs k = matchLocalColumn N t attrs k := by
  induction attrs generalizing k with
  | nil => rfl
  | cons a rest ih =>
    have e : strncmp a.attname s N = 0 ↔ strncmp a.attname t N = 0 := by
      rw [strncmp_eq_zero_iff, strncmp_eq_zero_iff]
      exact ⟨fun h1 => eqUpTo_trans h1 h, fun h1 => eqUpTo_trans h1 (eqUpTo_symm h)⟩
    by_cases hz : strncmp a.attname s N = 0
    · simp [matchLocalColumn, hz, e.mp hz]
    · have hz2 : ¬ strncmp a.attname t N = 0 := fun h2 => hz (e.mpr h2)
      simp [matchLocalColumn, hz, hz2, ih]

theorem planColumn_fst (b : Build) (m : Bool) (attrs : List Attr) (slot : COL) (ncol : Nat)
    (s : SrcCol) (found : List Bool) :
    (planColumn b m attrs slot ncol s found).1 = (planColumn b m attrs slot ncol s []).1 := by
  unfold planColumn
  cases m
  · simp
  · simp only [if_true]
    cases matchLocalColumn b.NAMEDATALEN s.name attrs 0 with
    | none => rfl
    | some r => rfl

theorem planColumns_getElem? (b : Build) (m : Bool) (attrs : List Attr) (mem : Nat → COL)
    (src : List SrcCol) (k : Nat) (found : List Bool) (i : Nat) :
    (planColumns b m attrs mem k src found).1[i]? =
      (src[i]?).map (fun s => (planColumn b m attrs (mem (k + i)) (k + i) s []).1) := by
  induction src generalizing k found i with
  | nil => simp [planColumns]
  | cons s rest ih =>
    cases i with
    | zero => simp [planColumns]; exact planColumn_fst ..
    | succ i =>
      simp only [planColumns, List.getElem?_cons_succ, ih]
      have : k + 1 + i = k + (i + 1) := by omega
      rw [this]

theorem planColumn_local_index (b : Build) (attrs : List Attr) (slot : COL) (ncol : Nat)
    (s : SrcCol) (found : List Bool) :
    (planColumn b true attrs slot ncol s found).1.local_index =
      match matchLocalColumn b.NAMEDATALEN s.name attrs 0 with
      | some r => (r.1 : Int)
      | none => -1 := by
  unfold planColumn
  simp only [if_true]
  cases matchLocalColumn b.NAMEDATALEN s.name attrs 0 with
  | none => rfl
  | some r => rfl

theorem planColumn_found (b : Build) (attrs : List Attr) (slot : COL) (ncol : Nat)
    (s : SrcCol) (found : List Bool) :
    (planColumn b true attrs slot ncol s found).2.1 =
      match matchLocalColumn b.NAMEDATALEN s.name attrs 0 with
      | some r => found.set r.1 true
      | none => found := by
  unfold planColumn
  simp only [if_true]
  cases matchLocalColumn b.NAMEDATALEN s.name attrs 0 with
  | none => rfl
  | some r => rfl

theorem planColumns_found_length (b : Build) (m : Bool) (attrs : List Attr) (mem : Nat → COL)
    (src : List SrcCol) (k : Nat) (found : List Bool) :
    (planColumns b m attrs mem k src found).2.1.length = found.length := by
  induction src generalizing k found with
  | nil => simp [planColumns]
  | cons s rest ih =>
    simp only [planColumns, ih]
    cases m
    · simp [planColumn]
    · rw [planColumn_found]
      cases matchLocalColumn b.NAMEDATALEN s.name attrs 0 with
      | none => rfl
      | some r => simp

theorem planColumns_found (b : Build) (attrs : List Attr) (mem : Nat → COL)
    (src : List SrcCol) (k : Nat) (found : List Bool) (j : Nat) (hj : j < found.length) :
    (planColumns b true attrs mem k src found).2.1.getD j false = true ↔
      found.getD j false = true ∨
        ∃ s ∈ src, ∃ oid, matchLocalColumn b.NAMEDATALEN s.name attrs 0 = some (j, oid) := by
  induction src generalizing k found with
  | nil => simp [planColumns]
  | cons s rest ih =>
    simp only [planColumns]
    rw [ih, planColumn_found]
    · cases hm : matchLocalColumn b.NAMEDATALEN s.name attrs 0 with
      | none => simp [hm]
      | some r =>
        obtain ⟨r1, r2⟩ := r
        simp only [List.mem_cons, exists_eq_or_imp, hm, Option.some.injEq, Prod.mk.injEq]
        by_cases hr : r1 = j
        · subst hr
          simp [List.getD_eq_getElem?_getD, List.getElem?_set, hj]
        · have : ¬ (r1 = j ∧ ∃ oid, r2 = oid) := fun h => hr h.1
          simp [List.getD_eq_getElem?_getD, List.getElem?_set, hr]
    · rw [planColumn_found]
      cases matchLocalColumn b.NAMEDATALEN s.name attrs 0 with
      | none => exact hj
      | some r => simpa using hj

theorem planColumns_warnings (b : Build) (m : Bool) (attrs : List Attr) (mem : Nat → COL)
    (src : List SrcCol) (k : Nat) (found : List Bool) (j : Nat) (nm : CStr) :
    Warning.localColumnUnmatched j nm ∉ (planColumns b m attrs mem k src found).2.2 := by
  induction src generalizing k found with
  | nil => simp [planColumns]
  | cons s rest ih =>
    simp only [planColumns, List.mem_append, not_or]
    refine ⟨?_, ih _ _⟩
    unfold planColumn
    cases m
    · simp
    · simp only [if_true]
      cases matchLocalColumn b.NAMEDATALEN s.name attrs 0 with
      | none => simp
      | some r => simp

theorem forceNullLoop_step (a : Attr) (rest : List Attr) (k : Nat) (found isnull : List Bool) :
    forceNullLoop k (a :: rest) found isnull =
      if found.getD k false = false then
        ((forceNullLoop (k + 1) rest found (isnull.set k true)).1,
          Warning.localColumnUnmatched k a.attname ::
            (forceNullLoop (k + 1) rest found (isnull.set k true)).2)
      else forceNullLoop (k + 1) rest found isnull := by
  rw [forceNullLoop]

theorem forceNullLoop_getElem? (attrs : List Attr) (k : Nat) (found isnull : List Bool) (j : Nat) :
    (forceNullLoop k attrs found isnull).1[j]? =
      if k ≤ j ∧ j < k + attrs.length ∧ found.getD j false = false
      then (isnull[j]?).map (fun _ => true) else isnull[j]? := by
  induction attrs generalizing k isnull with
  | nil =>
    have : ¬ (k ≤ j ∧ j < k + ([] : List Attr).length ∧ found.getD j false = false) := by
      rintro ⟨h1, h2, _⟩; simp at h2; omega
    rw [if_neg this]; rfl
  | cons a rest ih =>
    rw [forceNullLoop_step]
    by_cases hf : found.getD k false = false
    · rw [if_pos hf]
      show (forceNullLoop (k + 1) rest found (isnull.set k true)).1[j]? = _
      rw [ih]
      by_cases hkj : k = j
      · subst hkj
        have h1 : ¬ (k + 1 ≤ k ∧ k < k + 1 + rest.length ∧ found.getD k false = false) := by
          rintro ⟨h, _⟩; omega
        have h2 : (k ≤ k ∧ k < k + (a :: rest).length ∧ found.getD k false = false) :=
          ⟨le_refl _, by simp, hf⟩
        rw [if_neg h1, if_pos h2]
        by_cases hk : k < isnull.length
        · simp [List.getElem?_set, hk]
        · simp [List.getElem?_set, hk, List.getElem?_eq_none (Nat.le_of_not_lt hk)]
      · have e : (k + 1 ≤ j ∧ j < k + 1 + rest.length ∧ found.getD j false = false) ↔
            (k ≤ j ∧ j < k + (a :: rest).length ∧ found.getD j false = false) := by
          constructor <;> rintro ⟨h1, h2, h3⟩ <;>
            exact ⟨by omega, by simp only [List.length_cons] at *; omega, h3⟩
        have hs : (isnull.set k true)[j]? = isnull[j]? := by
          simp [List.getElem?_set, hkj]
        rw [hs]
        by_cases hc : (k ≤ j ∧ j < k + (a :: rest).length ∧ found.getD j false = false)
        · rw [if_pos hc, if_pos (e.mpr hc)]
        · rw [if_neg hc, if_neg (fun h => hc (e.mp h))]
    · rw [if_neg hf, ih]
      by_cases hkj : k = j
      · subst hkj
        have h1 : ¬ (k + 1 ≤ k ∧ k < k + 1 + rest.length ∧ found.getD k false = false) := by
          rintro ⟨h, _⟩; omega
        have h2 : ¬ (k ≤ k ∧ k < k + (a :: rest).length ∧ found.getD k false = false) := by
          rintro ⟨_, _, h⟩; exact hf h
        rw [if_neg h1, if_neg h2]
      · have e : (k + 1 ≤ j ∧ j < k + 1 + rest.length ∧ found.getD j false = false) ↔
            (k ≤ j ∧ j < k + (a :: rest).length ∧ found.getD j false = false) := by
          constructor <;> rintro ⟨h1, h2, h3⟩ <;>
            exact ⟨by omega, by simp only [List.length_cons] at *; omega, h3⟩
        by_cases hc : (k ≤ j ∧ j < k + (a :: rest).length ∧ found.getD j false = false)
        · rw [if_pos hc, if_pos (e.mpr hc)]
        · rw [if_neg hc, if_neg (fun h => hc (e.mp h))]

theorem forceNullLoop_count (attrs : List Attr) (k : Nat) (found isnull : List Bool) (j : Nat)
    (nm : CStr) :
    (forceNullLoop k attrs found isnull).2.count (Warning.localColumnUnmatched j nm) =
      if k ≤ j ∧ (attrs[j - k]?).map Attr.attname = some nm ∧ found.getD j false = false
      then 1 else 0 := by
  induction attrs generalizing k isnull with
  | nil =>
    have : ¬ (k ≤ j ∧ (([] : List Attr)[j - k]?).map Attr.attname = some nm ∧
        found.getD j false = false) := by
      rintro ⟨_, h2, _⟩; simp at h2
    rw [if_neg this]; rfl
  | cons a rest ih =>
    rw [forceNullLoop_step]
    have key : ∀ isn, (forceNullLoop (k + 1) rest found isn).2.count
        (Warning.localColumnUnmatched j nm) =
        if k + 1 ≤ j ∧ ((a :: rest)[j - k]?).map Attr.attname = some nm ∧
          found.getD j false = false then 1 else 0 := by
      intro isn
      rw [ih]
      by_cases h1 : k + 1 ≤ j
      · have h2 : j - k = (j - (k + 1)) + 1 := by omega
        rw [h2, List.getElem?_cons_succ]
      · have n1 : ¬ (k + 1 ≤ j ∧ (rest[j - (k + 1)]?).map Attr.attname = some nm ∧
            found.getD j false = false) := fun h => h1 h.1
        have n2 : ¬ (k + 1 ≤ j ∧ ((a :: rest)[j - k]?).map Attr.attname = some nm ∧
            found.getD j false = false) := fun h => h1 h.1
        rw [if_neg n1, if_neg n2]
    by_cases hf : found.getD k false = false
    · rw [if_pos hf]
      show List.count _ (_ :: _) = _
      rw [List.count_cons, key]
      by_cases hkj : k = j
      · subst hkj
        have n1 : ¬ (k + 1 ≤ k ∧ ((a :: rest)[k - k]?).map Attr.attname = some nm ∧
            found.getD k false = false) := by rintro ⟨h, _⟩; omega
        rw [if_neg n1]
        by_cases hn : a.attname = nm
        · have p : (k ≤ k ∧ ((a :: rest)[k - k]?).map Attr.attname = some nm ∧
              found.getD k false = false) := ⟨le_refl _, by simp [hn], hf⟩
          rw [if_pos p]; simp [hn]
        · have p : ¬ (k ≤ k ∧ ((a :: rest)[k - k]?).map Attr.attname = some nm ∧
              found.getD k false = false) := by
            rintro ⟨_, h, _⟩; simp at h; exact hn h
          rw [if_neg p]; simp [hn]
      · have hb : (Warning.localColumnUnmatched k a.attname ==
            Warning.localColumnUnmatched j nm) = false := by simp [hkj]
        rw [hb]
        by_cases hc : (k ≤ j ∧ ((a :: rest)[j - k]?).map Attr.attname = some nm ∧
            found.getD j false = false)
        · have hc2 : (k + 1 ≤ j ∧ ((a :: rest)[j - k]?).map Attr.attname = some nm ∧
            found.getD j false = false) := ⟨by omega, hc.2⟩
          rw [if_pos hc, if_pos hc2]; simp
        · have hc2 : ¬ (k + 1 ≤ j ∧ ((a :: rest)[j - k]?).map Attr.attname = some nm ∧
            found.getD j false = false) := fun h => hc ⟨by omega, h.2⟩
          rw [if_neg hc, if_neg hc2]; simp
    · rw [if_neg hf, key]
      by_cases hkj : k = j
      · subst hkj
        have n1 : ¬ (k + 1 ≤ k ∧ ((a :: rest)[k - k]?).map Attr.attname = some nm ∧
            found.getD k false = false) := by rintro ⟨h, _⟩; omega
        have n2 : ¬ (k ≤ k ∧ ((a :: rest)[k - k]?).map Attr.attname = some nm ∧
            found.getD k false = false) := fun h => hf h.2.2
        rw [if_neg n1, if_neg n2]
      · by_cases hc : (k ≤ j ∧ ((a :: rest)[j - k]?).map Attr.attname = some nm ∧
            found.getD j false = false)
        · have hc2 : (k + 1 ≤ j ∧ ((a :: rest)[j - k]?).map Attr.attname = some nm ∧
            found.getD j false = false) := ⟨by omega, hc.2⟩
          rw [if_pos hc, if_pos hc2]
        · have hc2 : ¬ (k + 1 ≤ j ∧ ((a :: rest)[j - k]?).map Attr.attname = some nm ∧
            found.getD j false = false) := fun h => hc ⟨by omega, h.2⟩
          rw [if_neg hc, if_neg hc2]

theorem tdsGetColumnMetadata_by_name (b : Build) (src : List SrcCol) (attrs : List Attr)
    (mem : Palloc) :
    tdsGetColumnMetadata b true src attrs mem = .ok
      { columns := (planColumns b true attrs mem.columns 0 src
          (List.replicate attrs.length false)).1
        datums := (List.range attrs.length).map mem.datums
        isnull := (forceNullLoop 0 attrs (planColumns b true attrs mem.columns 0 src
          (List.replicate attrs.length false)).2.1 ((List.range attrs.length).map mem.isnull)).1
        warnings := (planColumns b true attrs mem.columns 0 src
          (List.replicate attrs.length false)).2.2 ++
          (forceNullLoop 0 attrs (planColumns b true attrs mem.columns 0 src
          (List.replicate attrs.length false)).2.1 ((List.range attrs.length).map mem.isnull)).2 } := by
  simp [tdsGetColumnMetadata]

theorem by_name_column (b : Build) (src : List SrcCol) (attrs : List Attr) (mem : Palloc)
    (i : Nat) (s : SrcCol) (hi : src[i]? = some s) :
    ∃ p c, tdsGetColumnMetadata b true src attrs mem = .ok p ∧ p.columns[i]? = some c ∧
      c.local_index = (match matchLocalColumn b.NAMEDATALEN s.name attrs 0 with
        | some r => (r.1 : Int)
        | none => -1) := by
  refine ⟨_, (planColumn b true attrs (mem.columns (0 + i)) (0 + i) s []).1,
    tdsGetColumnMetadata_by_name b src attrs mem, ?_, ?_⟩
  · simp [planColumns_getElem?, hi]
  · exact planColumn_local_index ..

theorem bound_iff_found (b : Build) (src : List SrcCol) (attrs : List Attr) (mem : Nat → COL)
    (j : Nat) (hj : j < attrs.length) :
    (planColumns b true attrs mem 0 src (List.replicate attrs.length false)).2.1.getD j false = true ↔
      ∃ c ∈ (planColumns b true attrs mem 0 src (List.replicate attrs.length false)).1,
        c.local_index = (j : Int) := by
  rw [planColumns_found _ _ _ _ _ _ _ (by simpa using hj)]
  have h0 : ¬ (List.replicate attrs.length false).getD j false = true := by
    simp [List.getD_eq_getElem?_getD, List.getElem?_replicate, hj]
  constructor
  · rintro (h | ⟨s, hs, oid, hm⟩)
    · exact absurd h h0
    · obtain ⟨i, hi⟩ := List.mem_iff_getElem?.mp hs
      refine ⟨(planColumn b true attrs (mem (0 + i)) (0 + i) s []).1, ?_, ?_⟩
      · apply List.mem_iff_getElem?.mpr
        exact ⟨i, by simp [planColumns_getElem?, hi]⟩
      · rw [planColumn_local_index, hm]
  · rintro ⟨c, hc, hl⟩
    right
    obtain ⟨i, hi⟩ := List.mem_iff_getElem?.mp hc
    rw [planColumns_getElem?] at hi
    cases hs : src[i]? with
    | none => rw [hs] at hi; simp at hi
    | some s =>
      rw [hs] at hi
      simp only [Option.map_some', Option.some.injEq] at hi
      subst hi
      rw [planColumn_local_index] at hl
      refine ⟨s, List.getElem?_mem hs, ?_⟩
      cases hm : matchLocalColumn b.NAMEDATALEN s.name attrs 0 with
      | none => rw [hm] at hl; simp at hl
      | some r =>
        obtain ⟨r1, r2⟩ := r
        rw [hm] at hl
        have : r1 = j := by simpa using hl
        exact ⟨r2, by rw [this]⟩

/-! ## Lemmas: row decoding -/

theorem decodeColumn_null (b : Build) (lib : Lib) (column : COL) (raw : RawCol) (buf : RowBuf)
    (hb : column.local_index ≠ -1) (hl : raw.srclen = 0) (hs : raw.src = none) :
    decodeColumn b lib column raw buf =
      .ok { buf with isnull := buf.isnull.set column.local_index.toNat true } := by
  simp [decodeColumn, hb, hl, hs]

theorem decodeColumn_isnull (b : Build) (lib : Lib) (column : COL) (raw : RawCol)
    (buf buf1 : RowBuf) (h : decodeColumn b lib column raw buf = .ok buf1) :
    buf1.isnull =
      if column.local_index = -1 then buf.isnull
      else if raw.srclen = 0 ∧ raw.src = none then buf.isnull.set column.local_index.toNat true
      else if raw.src = none then buf.isnull
      else buf.isnull.set column.local_index.toNat false := by
  unfold decodeColumn at h
  by_cases h1 : column.local_index = -1
  · simp [h1] at h; subst h; simp [h1]
  · simp only [h1, if_false] at h ⊢
    by_cases h2 : raw.srclen = 0 ∧ raw.src = none
    · simp only [h2, and_self, if_true] at h ⊢
      injection h with h; subst h; rfl
    · simp only [h2, if_false] at h ⊢
      by_cases h3 : raw.src = none
      · simp only [h3, if_true] at h ⊢
        split at h
        · split at h
          · exact absurd h (by simp)
          · injection h with h; subst h; rfl
        · split at h
          · exact absurd h (by simp)
          · injection h with h; subst h; rfl
      · simp only [h3, if_false] at h ⊢
        split at h
        · split at h
          · exact absurd h (by simp)
          · injection h with h; subst h; rfl
        · split at h
          · exact absurd h (by simp)
          · injection h with h; subst h; rfl

theorem decodeColumn_isnull_other (b : Build) (lib : Lib) (column : COL) (raw : RawCol)
    (buf buf1 : RowBuf) (j : Nat) (h : decodeColumn b lib column raw buf = .ok buf1)
    (hj : column.local_index = -1 ∨ column.local_index.toNat ≠ j) :
    buf1.isnull[j]? = buf.isnull[j]? := by
  rw [decodeColumn_isnull b lib column raw buf buf1 h]
  by_cases h1 : column.local_index = -1
  · simp [h1]
  · have hne : column.local_index.toNat ≠ j := by
      rcases hj with hj | hj
      · exact absurd hj h1
      · exact hj
    simp only [h1, if_false]
    split
    · simp [List.getElem?_set, hne]
    · split
      · rfl
      · simp [List.getElem?_set, hne]

theorem decodeColumn_isnull_length (b : Build) (lib : Lib) (column : COL) (raw : RawCol)
    (buf buf1 : RowBuf) (h : decodeColumn b lib column raw buf = .ok buf1) :
    buf1.isnull.length = buf.isnull.length := by
  rw [decodeColumn_isnull b lib column raw buf buf1 h]
  split
  · rfl
  · split
    · simp
    · split
      · rfl
      · simp

theorem decodeRow_isnull_length (b : Build) (lib : Lib) (cols : List COL) (raws : List RawCol)
    (buf buf1 : RowBuf) (h : decodeRow b lib cols raws buf = .ok buf1) :
    buf1.isnull.length = buf.isnull.length := by
  induction cols generalizing raws buf with
  | nil => simp [decodeRow] at h; subst h; rfl
  | cons c rest ih =>
    simp only [decodeRow] at h
    split at h
    · exact absurd h (by simp)
    · rename_i buf2 hc
      rw [ih _ _ h, decodeColumn_isnull_length b lib c _ buf buf2 hc]

theorem decodeRow_isnull_other (b : Build) (lib : Lib) (cols : List COL) (raws : List RawCol)
    (buf buf1 : RowBuf) (j : Nat) (h : decodeRow b lib cols raws buf = .ok buf1)
    (hj : ∀ c ∈ cols, c.local_index = -1 ∨ c.local_index.toNat ≠ j) :
    buf1.isnull[j]? = buf.isnull[j]? := by
  induction cols generalizing raws buf with
  | nil => simp [decodeRow] at h; subst h; rfl
  | cons c rest ih =>
    simp only [decodeRow] at h
    split at h
    · exact absurd h (by simp)
    · rename_i buf2 hc
      rw [ih _ _ h (fun c hc => hj c (List.mem_cons_of_mem _ hc))]
      exact decodeColumn_isnull_other b lib c _ buf buf2 j hc (hj c (List.mem_cons_self _ _))

theorem decodeRow_append (b : Build) (lib : Lib) (pre post : List COL) (raws : List RawCol)
    (buf : RowBuf) :
    decodeRow b lib (pre ++ post) raws buf =
      match decodeRow b lib pre raws buf with
      | .error e => .error e
      | .ok buf1 => decodeRow b lib post (raws.drop pre.length) buf1 := by
  induction pre generalizing raws buf with
  | nil => simp [decodeRow]
  | cons c rest ih =>
    simp only [List.cons_append, decodeRow, List.length_cons]
    cases hc : decodeColumn b lib c (raws.headD RawCol.absent) buf with
    | error e => rfl
    | ok buf2 =>
      show decodeRow b lib (rest ++ post) raws.tail buf2 = _
      rw [ih]
      cases raws with
      | nil => simp
      | cons r rs => simp

theorem wrapSigned_16 (n : Int) : wrapSigned 16 n = (n + 32768) % 65536 - 32768 := by
  unfold wrapSigned; norm_num
theorem wrapSigned_32 (n : Int) : wrapSigned 32 n = (n + 2147483648) % 4294967296 - 2147483648 := by
  unfold wrapSigned; norm_num
theorem wrapSigned_64 (n : Int) :
    wrapSigned 64 n = (n + 9223372036854775808) % 18446744073709551616 - 9223372036854775808 := by
  unfold wrapSigned; norm_num

theorem datum_int16_roundtrip (v : Int) (h1 : -32768 ≤ v) (h2 : v < 32768) :
    DatumGetInt16 (Int16GetDatum v) = some v := by
  simp only [Int16GetDatum, DatumGetInt16, wrapSigned_16, Option.some.injEq]
  have h3 : (0 : Int) ≤ v % 65536 := Int.emod_nonneg _ (by norm_num)
  rw [Int.toNat_of_nonneg h3]
  omega

theorem datum_int32_roundtrip (v : Int) (h1 : -2147483648 ≤ v) (h2 : v < 2147483648) :
    DatumGetInt32 (Int32GetDatum v) = some v := by
  simp only [Int32GetDatum, DatumGetInt32, wrapSigned_32, Option.some.injEq]
  have h3 : (0 : Int) ≤ v % 4294967296 := Int.emod_nonneg _ (by norm_num)
  rw [Int.toNat_of_nonneg h3]
  omega

theorem datum_int64_roundtrip (v : Int) (h1 : -9223372036854775808 ≤ v)
    (h2 : v < 9223372036854775808) :
    DatumGetInt64 (Int64GetDatum v) = some v := by
  simp only [Int64GetDatum, DatumGetInt64, wrapSigned_64, Option.some.injEq]
  have h3 : (0 : Int) ≤ v % 18446744073709551616 := Int.emod_nonneg _ (by norm_num)
  rw [Int.toNat_of_nonneg h3]
  omega

theorem decodeColumn_useraw (b : Build) (lib : Lib) (column : COL) (raw : RawCol) (buf : RowBuf)
    (d : Datum) (hb : column.local_index ≠ -1) (hnn : ¬ (raw.srclen = 0 ∧ raw.src = none))
    (hu : column.useraw = true) (hd : userawDatum b lib column raw = .ok d) :
    ∃ out, decodeColumn b lib column raw buf = .ok out ∧
      out.datums = buf.datums.set column.local_index.toNat d ∧
      (raw.src ≠ none → out.isnull = buf.isnull.set column.local_index.toNat false) := by
  by_cases hs : raw.src = none
  · have hl : ¬ raw.srclen = 0 := fun h => hnn ⟨h, hs⟩
    exact ⟨⟨buf.datums.set column.local_index.toNat d, buf.isnull⟩,
      by simp [decodeColumn, hb, hl, hs, hu, hd], rfl, fun h => absurd hs h⟩
  · exact ⟨⟨buf.datums.set column.local_index.toNat d,
        buf.isnull.set column.local_index.toNat false⟩,
      by simp [decodeColumn, hb, hs, hu, hd], rfl, fun _ => rfl⟩

/-! ## Lemmas: row-count estimation -/

theorem countRowLoop_all_rows {D : Type} (rows : List (EstRow D)) (n : Int)
    (h : ∀ r ∈ rows, r.ret_code = REG_ROW) :
    countRowLoop rows n = .ok (n + rows.length) := by
  induction rows generalizing n with
  | nil => simp [countRowLoop]
  | cons r rest ih =>
    have hr : r.ret_code = -1 := h r (List.mem_cons_self _ _)
    simp only [countRowLoop, hr]
    rw [if_neg (by decide), if_pos trivial, ih _ (fun r hr => h r (List.mem_cons_of_mem _ hr))]
    simp only [List.length_cons, Nat.cast_add, Nat.cast_one]
    congr 1
    omega

theorem storePlanVars_append {D : Type} (xs ys : List (Nat × PlanVar)) (cells : List (Cell D))
    (v : PlanVars D) :
    storePlanVars (xs ++ ys) cells v = storePlanVars ys cells (storePlanVars xs cells v) := by
  simp [storePlanVars, List.foldl_append]

theorem storePlanVars_parent_opt {D : Type} (c : Prop) [Decidable c] (k : Nat)
    (cells : List (Cell D)) (v : PlanVars D) :
    storePlanVars (if c then [(k, PlanVar.parent)] else []) cells v =
      ⟨if c then ((cells[k]?).map Cell.asInt).getD v.parent else v.parent, v.estimate_rows⟩ := by
  by_cases h : c
  · rw [if_pos h, if_pos h]
    cases hc : cells[k]? with
    | none => simp [storePlanVars, hc]
    | some x => simp [storePlanVars, hc]
  · rw [if_neg h, if_neg h]; rfl

theorem storePlanVars_estimate_opt {D : Type} (c : Prop) [Decidable c] (k : Nat)
    (cells : List (Cell D)) (v : PlanVars D) :
    storePlanVars (if c then [(k, PlanVar.estimate_rows)] else []) cells v =
      ⟨v.parent, if c then ((cells[k]?).map Cell.asFlt8).getD v.estimate_rows
        else v.estimate_rows⟩ := by
  by_cases h : c
  · rw [if_pos h, if_pos h]
    cases hc : cells[k]? with
    | none => simp [storePlanVars, hc]
    | some x => simp [storePlanVars, hc]
  · rw [if_neg h, if_neg h]; rfl

theorem bindPlanColumns_store {D : Type} (dbbind : Nat → Int) (hbind : ∀ n, dbbind n ≠ FAIL)
    (p e : Nat) (names : List CStr) (k : Nat)
    (hP : ∀ i nm, names[i]? = some nm → (strcmp nm str_Parent = 0 ↔ k + i = p))
    (hE : ∀ i nm, names[i]? = some nm → (strcmp nm str_EstimateRows = 0 ↔ k + i = e)) :
    ∃ bs, bindPlanColumns dbbind k names = .ok bs ∧
      ∀ (cells : List (Cell D)) (v : PlanVars D),
        (storePlanVars bs cells v).parent =
          (if k ≤ p ∧ p < k + names.length then ((cells[p]?).map Cell.asInt).getD v.parent
            else v.parent) ∧
        (storePlanVars bs cells v).estimate_rows =
          (if k ≤ e ∧ e < k + names.length then ((cells[e]?).map Cell.asFlt8).getD v.estimate_rows
            else v.estimate_rows) := by
  induction names generalizing k with
  | nil =>
    refine ⟨[], rfl, ?_⟩
    intro cells v
    have h1 : ¬ (k ≤ p ∧ p < k + ([] : List CStr).length) := by simp
    have h2 : ¬ (k ≤ e ∧ e < k + ([] : List CStr).length) := by simp
    rw [if_neg h1, if_neg h2]
    exact ⟨rfl, rfl⟩
  | cons nm rest ih =>
    obtain ⟨bs, hbs, hstore⟩ := ih (k + 1)
      (fun i nm' h => by
        have := hP (i + 1) nm' (by simpa using h)
        rw [this]; constructor <;> intro h' <;> omega)
      (fun i nm' h => by
        have := hE (i + 1) nm' (by simpa using h)
        rw [this]; constructor <;> intro h' <;> omega)
    have hp0 : strcmp nm str_Parent = 0 ↔ k = p := by
      have := hP 0 nm (by simp); simpa using this
    have he0 : strcmp nm str_EstimateRows = 0 ↔ k = e := by
      have := hE 0 nm (by simp); simpa using this
    have hb : ¬ dbbind (k + 1) = FAIL := hbind _
    refine ⟨_, by
      rw [bindPlanColumns, if_neg (fun h => hb h.2), if_neg (fun h => hb h.2), hbs], ?_⟩
    intro cells v
    rw [storePlanVars_append, storePlanVars_append, storePlanVars_parent_opt,
      storePlanVars_estimate_opt]
    obtain ⟨h1, h2⟩ := hstore cells
      ⟨if strcmp nm str_Parent = 0 then ((cells[k]?).map Cell.asInt).getD v.parent else v.parent,
       if strcmp nm str_EstimateRows = 0 then ((cells[k]?).map Cell.asFlt8).getD v.estimate_rows
         else v.estimate_rows⟩
    rw [h1, h2]
    simp only [List.length_cons]
    constructor
    · by_cases hkp : k = p
      · subst hkp
        have c1 : ¬ (k + 1 ≤ k ∧ k < k + 1 + rest.length) := by omega
        have c2 : (k ≤ k ∧ k < k + (rest.length + 1)) := by omega
        rw [if_neg c1, if_pos c2, if_pos (hp0.mpr rfl)]
      · have hnp : ¬ strcmp nm str_Parent = 0 := fun h => hkp (hp0.mp h)
        rw [if_neg hnp]
        by_cases hc : (k ≤ p ∧ p < k + (rest.length + 1))
        · rw [if_pos hc, if_pos (by omega)]
        · rw [if_neg hc, if_neg (by omega)]
    · by_cases hke : k = e
      · subst hke
        have c1 : ¬ (k + 1 ≤ k ∧ k < k + 1 + rest.length) := by omega
        have c2 : (k ≤ k ∧ k < k + (rest.length + 1)) := by omega
        rw [if_neg c1, if_pos c2, if_pos (he0.mpr rfl)]
      · have hne : ¬ strcmp nm str_EstimateRows = 0 := fun h => hke (he0.mp h)
        rw [if_neg hne]
        by_cases hc : (k ≤ e ∧ e < k + (rest.length + 1))
        · rw [if_pos hc, if_pos (by omega)]
        · rw [if_neg hc, if_neg (by omega)]

theorem planRowLoop_all_rows {D : Type} [Zero D] [Add D] (binds : List (Nat × PlanVar))
    (p e : Nat)
    (hst : ∀ (cells : List (Cell D)) (v : PlanVars D),
      (storePlanVars binds cells v).parent = ((cells[p]?).map Cell.asInt).getD v.parent ∧
      (storePlanVars binds cells v).estimate_rows =
        ((cells[e]?).map Cell.asFlt8).getD v.estimate_rows)
    (rows : List (EstRow D)) (v : PlanVars D) (acc : D)
    (hrows : ∀ r ∈ rows, r.ret_code = REG_ROW ∧ p < r.cells.length ∧ e < r.cells.length) :
    planRowLoop binds rows v acc =
      .ok (((rows.filter (fun r => decide ((r.cells[p]?).map Cell.asInt = some 0))).map
        (fun r => ((r.cells[e]?).map Cell.asFlt8).getD 0)).foldl (fun a x => a + x) acc) := by
  induction rows generalizing v acc with
  | nil => simp [planRowLoop]
  | cons r rest ih =>
    obtain ⟨hr, hp, he⟩ := hrows r (List.mem_cons_self _ _)
    have hr1 : r.ret_code = -1 := hr
    obtain ⟨h1, h2⟩ := hst r.cells v
    simp only [planRowLoop, hr1]
    rw [if_neg (by decide), if_pos trivial, ih _ _ (fun r hr => hrows r (List.mem_cons_of_mem _ hr)),
      h1, h2]
    have gp : r.cells[p]? = some (r.cells[p]) := List.getElem?_eq_getElem hp
    have ge : r.cells[e]? = some (r.cells[e]) := List.getElem?_eq_getElem he
    simp only [gp, ge, Option.map_some', Option.getD_some, List.filter_cons, Option.some.injEq]
    by_cases hz : (r.cells[p]).asInt = 0
    · simp [hz, ge]
    · simp [hz]

theorem bindPlanColumns_ok (dbbind : Nat → Int) (hbind : ∀ n, dbbind n ≠ FAIL)
    (names : List CStr) (k : Nat) : ∃ bs, bindPlanColumns dbbind k names = .ok bs := by
  induction names generalizing k with
  | nil => exact ⟨[], rfl⟩
  | cons nm rest ih =>
    obtain ⟨bs, hbs⟩ := ih (k + 1)
    have hb : ¬ dbbind (k + 1) = FAIL := hbind _
    exact ⟨_, by
      rw [bindPlanColumns, if_neg (fun h => hb h.2), if_neg (fun h => hb h.2), hbs]⟩

/-! ## Lemmas: estimator failures and the startup cost -/

theorem strcmp_eq_zero_iff (s t : CStr) : strcmp s t = 0 ↔ cbytes s = cbytes t := by
  induction s generalizing t with
  | nil =>
    cases t with
    | nil => simp [strcmp]
    | cons d t =>
      by_cases hd : d = 0
      · simp [strcmp, cbytes, hd]
      · simp [strcmp, cbytes, hd, List.takeWhile_cons]
  | cons c s ih =>
    cases t with
    | nil =>
      by_cases hc : c = 0
      · simp [strcmp, cbytes, hc]
      · simp [strcmp, cbytes, hc, List.takeWhile_cons]
    | cons d t =>
      by_cases hcd : c = d
      · subst hcd
        by_cases hc : c = 0
        · simp [strcmp, cbytes, hc]
        · have := ih t
          simp [strcmp, cbytes, hc, List.takeWhile_cons] at this ⊢
          exact this
      · by_cases hc : c = 0
        · subst hc
          have hd : d ≠ 0 := fun h => hcd h.symm
          simp [strcmp, cbytes, hcd, hd, List.takeWhile_cons]
        · by_cases hd : d = 0
          · subst hd
            simp [strcmp, cbytes, hcd, hc, List.takeWhile_cons]
          · simp [strcmp, cbytes, hcd, hc, hd, List.takeWhile_cons]
            omega

theorem countRowLoop_fail {D : Type} (pre : List (EstRow D)) (bad : EstRow D)
    (post : List (EstRow D)) (n : Int) (hpre : ∀ r ∈ pre, r.ret_code = REG_ROW)
    (h1 : bad.ret_code ≠ REG_ROW) (h2 : bad.ret_code ≠ NO_MORE_ROWS) :
    countRowLoop (pre ++ bad :: post) n = .error (rowFetchError bad.ret_code) := by
  induction pre generalizing n with
  | nil =>
    simp only [List.nil_append, countRowLoop, rowFetchError]
    rw [if_neg h2, if_neg h1]
    split
    · rfl
    · split <;> rfl
  | cons r rest ih =>
    have hr : r.ret_code = -1 := hpre r (List.mem_cons_self _ _)
    simp only [List.cons_append, countRowLoop, hr]
    rw [if_neg (by decide), if_pos trivial]
    exact ih _ (fun r hr => hpre r (List.mem_cons_of_mem _ hr))

theorem planRowLoop_fail {D : Type} [Add D] (binds : List (Nat × PlanVar))
    (pre : List (EstRow D)) (bad : EstRow D) (post : List (EstRow D)) (v : PlanVars D) (acc : D)
    (hpre : ∀ r ∈ pre, r.ret_code = REG_ROW)
    (h1 : bad.ret_code ≠ REG_ROW) (h2 : bad.ret_code ≠ NO_MORE_ROWS) :
    planRowLoop binds (pre ++ bad :: post) v acc = .error (rowFetchError bad.ret_code) := by
  induction pre generalizing v acc with
  | nil =>
    simp only [List.nil_append, planRowLoop, rowFetchError]
    rw [if_neg h2, if_neg h1]
    split
    · rfl
    · split <;> rfl
  | cons r rest ih =>
    have hr : r.ret_code = -1 := hpre r (List.mem_cons_self _ _)
    simp only [List.cons_append, planRowLoop, hr]
    rw [if_neg (by decide), if_pos trivial]
    exact ih _ _ (fun r hr => hpre r (List.mem_cons_of_mem _ hr))

/-! ## Lemmas: positional and unmatched columns -/

theorem planColumns_length (b : Build) (m : Bool) (attrs : List Attr) (mem : Nat → COL)
    (src : List SrcCol) (k : Nat) (found : List Bool) :
    (planColumns b m attrs mem k src found).1.length = src.length := by
  induction src generalizing k found with
  | nil => simp [planColumns]
  | cons s rest ih => simp [planColumns, ih]

theorem planColumns_positional_warnings (b : Build) (attrs : List Attr) (mem : Nat → COL)
    (src : List SrcCol) (k : Nat) (found : List Bool) :
    (planColumns b false attrs mem k src found).2.2 = [] := by
  induction src generalizing k found with
  | nil => simp [planColumns]
  | cons s rest ih => simp [planColumns, ih, planColumn]

theorem planColumn_positional (b : Build) (attrs : List Attr) (slot : COL) (ncol : Nat)
    (s : SrcCol) (found : List Bool) :
    (planColumn b false attrs slot ncol s found).1 =
      { slot with name := s.name, srctype := s.coltype, local_index := (ncol : Int) } := by
  simp [planColumn]

theorem planColumn_name_srctype (b : Build) (m : Bool) (attrs : List Attr) (slot : COL)
    (ncol : Nat) (s : SrcCol) (found : List Bool) :
    (planColumn b m attrs slot ncol s found).1.name = s.name ∧
    (planColumn b m attrs slot ncol s found).1.srctype = s.coltype := by
  unfold planColumn
  cases m
  · simp
  · simp only [if_true]
    cases matchLocalColumn b.NAMEDATALEN s.name attrs 0 with
    | none => exact ⟨rfl, rfl⟩
    | some r => exact ⟨rfl, rfl⟩

theorem planColumn_warnings (b : Build) (attrs : List Attr) (slot : COL) (ncol : Nat)
    (s : SrcCol) (found : List Bool) :
    (planColumn b true attrs slot ncol s found).2.2 =
      if matchLocalColumn b.NAMEDATALEN s.name attrs 0 = none
      then [Warning.sourceColumnIgnored ncol s.name] else [] := by
  unfold planColumn
  simp only [if_true]
  cases matchLocalColumn b.NAMEDATALEN s.name attrs 0 with
  | none => simp
  | some r => simp

theorem planColumns_count_ignored (b : Build) (attrs : List Attr) (mem : Nat → COL)
    (src : List SrcCol) (k : Nat) (found : List Bool) (j : Nat) (nm : CStr) :
    (planColumns b true attrs mem k src found).2.2.count (Warning.sourceColumnIgnored j nm) =
      if k ≤ j ∧ (src[j - k]?).map SrcCol.name = some nm ∧
        matchLocalColumn b.NAMEDATALEN nm attrs 0 = none then 1 else 0 := by
  induction src generalizing k found with
  | nil =>
    have : ¬ (k ≤ j ∧ (([] : List SrcCol)[j - k]?).map SrcCol.name = some nm ∧
        matchLocalColumn b.NAMEDATALEN nm attrs 0 = none) := by
      rintro ⟨_, h2, _⟩; simp at h2
    rw [if_neg this]; rfl
  | cons s rest ih =>
    simp only [planColumns, List.count_append, ih, planColumn_warnings]
    by_cases hkj : k = j
    · subst hkj
      have n1 : ¬ (k + 1 ≤ k ∧ (rest[k - (k + 1)]?).map SrcCol.name = some nm ∧
          matchLocalColumn b.NAMEDATALEN nm attrs 0 = none) := by rintro ⟨h, _⟩; omega
      rw [if_neg n1]
      by_cases hm : matchLocalColumn b.NAMEDATALEN s.name attrs 0 = none
      · rw [if_pos hm]
        by_cases hn : s.name = nm
        · subst hn
          rw [if_pos ⟨le_refl _, by simp, hm⟩]; simp
        · rw [if_neg (by rintro ⟨_, h, _⟩; simp at h; exact hn h)]
          have hb : (Warning.sourceColumnIgnored k s.name ==
              Warning.sourceColumnIgnored k nm) = false := by simp [hn]
          rw [List.count_cons, hb]; rfl
      · rw [if_neg hm]
        have : ¬ (k ≤ k ∧ ((s :: rest)[k - k]?).map SrcCol.name = some nm ∧
            matchLocalColumn b.NAMEDATALEN nm attrs 0 = none) := by
          rintro ⟨_, h, h3⟩
          simp at h
          subst h
          exact hm h3
        rw [if_neg this]; simp
    · have hz : (if matchLocalColumn b.NAMEDATALEN s.name attrs 0 = none
          then [Warning.sourceColumnIgnored k s.name] else []).count
          (Warning.sourceColumnIgnored j nm) = 0 := by
        split
        · have hb : (Warning.sourceColumnIgnored k s.name ==
              Warning.sourceColumnIgnored j nm) = false := by simp [hkj]
          rw [List.count_cons, hb]; rfl
        · rfl
      rw [hz, Nat.zero_add]
      by_cases hlt : k ≤ j
      · have h2 : j - k = (j - (k + 1)) + 1 := by omega
        rw [h2, List.getElem?_cons_succ]
        by_cases hc : (k ≤ j ∧ (rest[j - (k + 1)]?).map SrcCol.name = some nm ∧
            matchLocalColumn b.NAMEDATALEN nm attrs 0 = none)
        · rw [if_pos ⟨by omega, hc.2⟩, if_pos hc]
        · rw [if_neg (fun h => hc ⟨hlt, h.2⟩), if_neg hc]
      · rw [if_neg (fun h => hlt (by omega)), if_neg (fun h => hlt h.1)]

theorem forceNullLoop_no_ignored (attrs : List Attr) (k : Nat) (found isnull : List Bool)
    (j : Nat) (nm : CStr) :
    Warning.sourceColumnIgnored j nm ∉ (forceNullLoop k attrs found isnull).2 := by
  induction attrs generalizing k isnull with
  | nil => simp [forceNullLoop]
  | cons a rest ih =>
    rw [forceNullLoop_step]
    split
    · simp only [List.mem_cons, not_or]
      exact ⟨by simp, ih _ _⟩
    · exact ih _ _

theorem tdsGetColumnMetadata_positional (b : Build) (src : List SrcCol) (attrs : List Attr)
    (mem : Palloc) (h : src.length = attrs.length) :
    tdsGetColumnMetadata b false src attrs mem = .ok
      { columns := (planColumns b false attrs mem.columns 0 src []).1
        datums := (List.range attrs.length).map mem.datums
        isnull := (List.range attrs.length).map mem.isnull
        warnings := (planColumns b false attrs mem.columns 0 src []).2.2 } := by
  simp [tdsGetColumnMetadata, h]

theorem bindColumn_skip (b : Build) (rc : Int) (c : COL) (h : c.local_index = -1) :
    bindColumn b rc c = .ok (c, none) := by
  simp [bindColumn, h]

theorem decodeColumn_skip (b : Build) (lib : Lib) (c : COL) (raw : RawCol) (buf : RowBuf)
    (h : c.local_index = -1) : decodeColumn b lib c raw buf = .ok buf := by
  simp [decodeColumn, h]

/-! ## Lemmas: the scan state across calls -/

theorem fetchRow_ok (b : Build) (lib : Lib) (festate : Festate) (dbproc : DBPROCESS)
    (w : List Warning) (r : IterResult) (h : fetchRow b lib festate dbproc w = .ok r) :
    (r.slot = none ∧ r.festate = festate) ∨
    ∃ row rest buf, dbproc.rows = row :: rest ∧ row.ret_code = REG_ROW ∧
      decodeRow b lib (storeBound dbproc.binds row.cols festate.columns) row.cols
        ⟨festate.datums, festate.isnull⟩ = .ok buf ∧
      r = ⟨{ festate with row := festate.row + 1,
                          columns := storeBound dbproc.binds row.cols festate.columns,
                          datums := buf.datums, isnull := buf.isnull },
           { dbproc with rows := rest }, some (heap_form_tuple buf), w⟩ := by
  unfold fetchRow at h
  cases hrows : dbproc.rows with
  | nil =>
    rw [hrows] at h
    injection h with h; subst h
    exact Or.inl ⟨rfl, rfl⟩
  | cons row rest =>
    rw [hrows] at h
    simp only [] at h
    by_cases h1 : row.ret_code = NO_MORE_ROWS
    · rw [if_pos h1] at h
      injection h with h; subst h
      exact Or.inl ⟨rfl, rfl⟩
    · rw [if_neg h1] at h
      by_cases h2 : row.ret_code = REG_ROW
      · rw [if_pos h2] at h
        cases hd : decodeRow b lib (storeBound dbproc.binds row.cols festate.columns) row.cols
            ⟨festate.datums, festate.isnull⟩ with
        | error e => rw [hd] at h; exact absurd h (by simp)
        | ok buf =>
          rw [hd] at h
          injection h with h; subst h
          exact Or.inr ⟨row, rest, buf, rfl, h2, hd, rfl⟩
      · rw [if_neg h2] at h
        split at h
        · exact absurd h (by simp)
        · split at h <;> exact absurd h (by simp)

theorem fetchRow_first (b : Build) (lib : Lib) (festate : Festate) (dbproc : DBPROCESS)
    (w : List Warning) (r : IterResult) (h : fetchRow b lib festate dbproc w = .ok r) :
    r.festate.first = festate.first := by
  rcases fetchRow_ok b lib festate dbproc w r h with ⟨-, h2⟩ | ⟨row, rest, buf, -, -, -, h2⟩
  · rw [h2]
  · rw [h2]

theorem firstIteration_first (b : Build) (m : Bool) (attrs : List Attr) (mem : Palloc)
    (festate : Festate) (dbproc : DBPROCESS) (f1 : Festate) (d1 : DBPROCESS)
    (w : List Warning) (h : firstIteration b m attrs mem festate dbproc = .ok (f1, d1, w)) :
    f1.first = false := by
  unfold firstIteration at h
  split at h
  · exact absurd h (by simp)
  · split at h
    · exact absurd h (by simp)
    · split at h
      · exact absurd h (by simp)
      · split at h
        · exact absurd h (by simp)
        · split at h
          · split at h
            · exact absurd h (by simp)
            · split at h
              · exact absurd h (by simp)
              · injection h with h
                injection h with h1 h2
                subst h1; rfl
          · exact absurd h (by simp)

theorem iterate_first (b : Build) (lib : Lib) (m : Bool) (attrs : List Attr) (mem : Palloc)
    (festate : Festate) (dbproc : DBPROCESS) (r : IterResult)
    (h : tdsIterateForeignScan b lib m attrs mem festate dbproc = .ok r) :
    r.festate.first = false := by
  unfold tdsIterateForeignScan at h
  by_cases hf : festate.first = true
  · rw [if_pos hf] at h
    split at h
    · exact absurd h (by simp)
    · rename_i f1 d1 w hfi
      rw [fetchRow_first b lib f1 d1 w r h]
      exact firstIteration_first b m attrs mem festate dbproc f1 d1 w hfi
  · rw [if_neg hf] at h
    rw [fetchRow_first b lib festate dbproc [] r h]
    simpa using hf

theorem ok_of_ite_error {α : Type} (p : Prop) [Decidable p] (e : TdsError) (x y : α)
    (h : (if p then (Except.error e : Except TdsError α) else Except.ok x) = Except.ok y) :
    x = y := by
  split at h
  · exact absurd h (by simp)
  · injection h

theorem bindColumn_ok (b : Build) (rc : Int) (column c : COL) (bt : Option BindType)
    (hb : column.local_index ≠ -1) (h : bindColumn b rc column = .ok (c, bt)) :
    c.name = column.name ∧ c.srctype = column.srctype ∧ c.value = column.value ∧
    c.local_index = column.local_index ∧ c.attr_oid = column.attr_oid ∧
    (c.useraw = true ↔
      (column.srctype = SYBINT2 ∧ column.attr_oid = INT2OID) ∨
      (column.srctype = SYBINT4 ∧ column.attr_oid = INT4OID) ∨
      (column.srctype = SYBINT8 ∧ column.attr_oid = INT8OID) ∨
      (column.srctype = SYBREAL ∧ column.attr_oid = FLOAT4OID) ∨
      (column.srctype = SYBFLT8 ∧ column.attr_oid = FLOAT8OID) ∨
      ((column.srctype = SYBCHAR ∨ column.srctype = SYBVARCHAR ∨ column.srctype = SYBTEXT) ∧
        column.attr_oid = TEXTOID) ∨
      ((column.srctype = SYBBINARY ∨ column.srctype = SYBVARBINARY ∨
        column.srctype = SYBIMAGE) ∧ column.attr_oid = BYTEAOID) ∨
      (90400 ≤ b.PG_VERSION_NUM ∧ column.srctype = SYBDATETIME ∧
        column.attr_oid = TIMESTAMPOID)) := by
  unfold bindColumn at h
  rw [if_neg hb] at h
  simp only [] at h
  by_cases p1 : column.srctype = SYBINT2 ∧ column.attr_oid = INT2OID
  · rw [if_pos p1] at h
    have := ok_of_ite_error _ _ _ _ h
    injection this with h1 h2; subst h1
    exact ⟨rfl, rfl, rfl, rfl, rfl, iff_of_true rfl (Or.inl p1)⟩
  rw [if_neg p1] at h
  by_cases p2 : column.srctype = SYBINT4 ∧ column.attr_oid = INT4OID
  · rw [if_pos p2] at h
    have := ok_of_ite_error _ _ _ _ h
    injection this with h1 h2; subst h1
    exact ⟨rfl, rfl, rfl, rfl, rfl, iff_of_true rfl (Or.inr (Or.inl p2))⟩
  rw [if_neg p2] at h
  by_cases p3 : column.srctype = SYBINT8 ∧ column.attr_oid = INT8OID
  · rw [if_pos p3] at h
    have := ok_of_ite_error _ _ _ _ h
    injection this with h1 h2; subst h1
    exact ⟨rfl, rfl, rfl, rfl, rfl, iff_of_true rfl (Or.inr (Or.inr (Or.inl p3)))⟩
  rw [if_neg p3] at h
  by_cases p4 : column.srctype = SYBREAL ∧ column.attr_oid = FLOAT4OID
  · rw [if_pos p4] at h
    have := ok_of_ite_error _ _ _ _ h
    injection this with h1 h2; subst h1
    exact ⟨rfl, rfl, rfl, rfl, rfl, iff_of_true rfl (Or.inr (Or.inr (Or.inr (Or.inl p4))))⟩
  rw [if_neg p4] at h
  by_cases p5 : column.srctype = SYBFLT8 ∧ column.attr_oid = FLOAT8OID
  · rw [if_pos p5] at h
    have := ok_of_ite_error _ _ _ _ h
    injection this with h1 h2; subst h1
    exact ⟨rfl, rfl, rfl, rfl, rfl,
      iff_of_true rfl (Or.inr (Or.inr (Or.inr (Or.inr (Or.inl p5)))))⟩
  rw [if_neg p5] at h
  by_cases p6 : (column.srctype = SYBCHAR ∨ column.srctype = SYBVARCHAR ∨
      column.srctype = SYBTEXT) ∧ column.attr_oid = TEXTOID
  · rw [if_pos p6] at h
    have := ok_of_ite_error _ _ _ _ h
    injection this with h1 h2; subst h1
    exact ⟨rfl, rfl, rfl, rfl, rfl,
      iff_of_true rfl (Or.inr (Or.inr (Or.inr (Or.inr (Or.inr (Or.inl p6))))))⟩
  rw [if_neg p6] at h
  by_cases p7 : (column.srctype = SYBBINARY ∨ column.srctype = SYBVARBINARY ∨
      column.srctype = SYBIMAGE) ∧ column.attr_oid = BYTEAOID
  · rw [if_pos p7] at h
    have := ok_of_ite_error _ _ _ _ h
    injection this with h1 h2; subst h1
    exact ⟨rfl, rfl, rfl, rfl, rfl,
      iff_of_true rfl (Or.inr (Or.inr (Or.inr (Or.inr (Or.inr (Or.inr (Or.inl p7)))))))⟩
  rw [if_neg p7] at h
  by_cases p8 : 90400 ≤ b.PG_VERSION_NUM ∧ column.srctype = SYBDATETIME ∧
      column.attr_oid = TIMESTAMPOID
  · rw [if_pos p8] at h
    have := ok_of_ite_error _ _ _ _ h
    injection this with h1 h2; subst h1
    exact ⟨rfl, rfl, rfl, rfl, rfl,
      iff_of_true rfl (Or.inr (Or.inr (Or.inr (Or.inr (Or.inr (Or.inr (Or.inr p8)))))))⟩
  rw [if_neg p8] at h
  have := ok_of_ite_error _ _ _ _ h
  injection this with h1 h2; subst h1
  refine ⟨rfl, rfl, rfl, rfl, rfl, iff_of_false (by simp) ?_⟩
  rintro (q | q | q | q | q | q | q | q)
  · exact p1 q
  · exact p2 q
  · exact p3 q
  · exact p4 q
  · exact p5 q
  · exact p6 q
  · exact p7 q
  · exact p8 q

theorem bindColumn_succeeds (b : Build) (rc : Int) (column : COL) (hrc : rc ≠ FAIL) :
    ∃ c bt, bindColumn b rc column = .ok (c, bt) := by
  unfold bindColumn
  by_cases hb : column.local_index = -1
  · rw [if_pos hb]; exact ⟨_, _, rfl⟩
  rw [if_neg hb]
  simp only []
  have key : ∀ (r : Int × COL × Option BindType), (r.1 = rc ∨ r.1 = SUCCEED) →
      ∃ c bt, (if r.1 = FAIL then
        (Except.error ⟨.FDW_UNABLE_TO_CREATE_EXECUTION, .failedBind column.name⟩ :
          Except TdsError (COL × Option BindType))
        else Except.ok (r.2.1, r.2.2)) = Except.ok (c, bt) := by
    intro r hr
    have : ¬ r.1 = FAIL := by
      rcases hr with hr | hr
      · rw [hr]; exact hrc
      · rw [hr]; decide
    rw [if_neg this]
    exact ⟨_, _, rfl⟩
  apply key
  split_ifs <;> simp

theorem storeBound_local_index (binds : List (Option BindType)) (raws : List RawCol)
    (cols : List COL) :
    (storeBound binds raws cols).map COL.local_index = cols.map COL.local_index := by
  induction cols generalizing binds raws with
  | nil => simp [storeBound]
  | cons c rest ih =>
    simp only [storeBound, List.map_cons, ih]
    congr 1
    cases binds.headD none <;> rfl

theorem bindColumn_local_index (b : Build) (rc : Int) (column c : COL) (bt : Option BindType)
    (h : bindColumn b rc column = .ok (c, bt)) : c.local_index = column.local_index := by
  by_cases hb : column.local_index = -1
  · rw [bindColumn_skip b rc column hb] at h
    injection h with h
    injection h with h1 h2
    rw [h1]
  · exact (bindColumn_ok b rc column c bt hb h).2.2.2.1

theorem bindColumns_local_index (b : Build) (dbbind : Nat → Int) (k : Nat) (cols cs : List COL)
    (bts : List (Option BindType)) (h : bindColumns b dbbind k cols = .ok (cs, bts)) :
    cs.map COL.local_index = cols.map COL.local_index := by
  induction cols generalizing k cs bts with
  | nil =>
    simp only [bindColumns] at h
    injection h with h
    injection h with h1 h2
    subst h1; rfl
  | cons c rest ih =>
    simp only [bindColumns] at h
    cases hc : bindColumn b (dbbind (k + 1)) c with
    | error e => rw [hc] at h; exact absurd h (by simp)
    | ok p =>
      obtain ⟨c1, bt⟩ := p
      rw [hc] at h
      simp only [] at h
      cases hr : bindColumns b dbbind (k + 1) rest with
      | error e => rw [hr] at h; exact absurd h (by simp)
      | ok q =>
        obtain ⟨cs1, bts1⟩ := q
        rw [hr] at h
        simp only [] at h
        injection h with h
        injection h with h1 h2
        subst h1
        simp only [List.map_cons, ih _ _ _ hr, bindColumn_local_index b _ c c1 bt hc]

theorem decodeColumn_datums_length (b : Build) (lib : Lib) (column : COL) (raw : RawCol)
    (buf buf1 : RowBuf) (h : decodeColumn b lib column raw buf = .ok buf1) :
    buf1.datums.length = buf.datums.length := by
  unfold decodeColumn at h
  by_cases h1 : column.local_index = -1
  · rw [if_pos h1] at h; injection h with h; subst h; rfl
  · rw [if_neg h1] at h
    simp only [] at h
    by_cases h2 : raw.srclen = 0 ∧ raw.src = none
    · rw [if_pos h2] at h; injection h with h; subst h; rfl
    · rw [if_neg h2] at h
      have hb1 : (if raw.src = none then buf
          else { buf with isnull := buf.isnull.set column.local_index.toNat false }).datums =
          buf.datums := by
        split <;> rfl
      split at h
      · split at h
        · exact absurd h (by simp)
        · injection h with h; subst h
          simp [hb1]
      · split at h
        · exact absurd h (by simp)
        · injection h with h; subst h
          simp [hb1]

theorem decodeRow_datums_length (b : Build) (lib : Lib) (cols : List COL) (raws : List RawCol)
    (buf buf1 : RowBuf) (h : decodeRow b lib cols raws buf = .ok buf1) :
    buf1.datums.length = buf.datums.length := by
  induction cols generalizing raws buf with
  | nil => simp [decodeRow] at h; subst h; rfl
  | cons c rest ih =>
    simp only [decodeRow] at h
    split at h
    · exact absurd h (by simp)
    · rename_i buf2 hc
      rw [ih _ _ h, decodeColumn_datums_length b lib c _ buf buf2 hc]

theorem heap_form_tuple_null (buf : RowBuf) (j : Nat) (hn : buf.isnull[j]? = some true)
    (hd : j < buf.datums.length) : (heap_form_tuple buf)[j]? = some none := by
  obtain ⟨hlt, hv⟩ := List.getElem?_eq_some_iff.mp hn
  unfold heap_form_tuple
  rw [List.getElem?_eq_getElem (by simp [List.length_zipWith]; omega)]
  simp [hv]

theorem slotUntouched_of_map (j : Nat) (cols cols2 : List COL)
    (h : cols2.map COL.local_index = cols.map COL.local_index) (hu : SlotUntouched j cols) :
    SlotUntouched j cols2 := by
  intro c hc
  have : c.local_index ∈ cols2.map COL.local_index := List.mem_map_of_mem _ hc
  rw [h] at this
  obtain ⟨c0, hc0, he⟩ := List.mem_map.mp this
  rw [← he]
  exact hu c0 hc0

theorem plan_slotUntouched (b : Build) (src : List SrcCol) (attrs : List Attr) (mem : Nat → COL)
    (found : List Bool) (j : Nat)
    (h : ∀ c ∈ (planColumns b true attrs mem 0 src found).1, c.local_index ≠ (j : Int)) :
    SlotUntouched j (planColumns b true attrs mem 0 src found).1 := by
  intro c hc
  have hne := h c hc
  obtain ⟨i, hi⟩ := List.mem_iff_getElem?.mp hc
  rw [planColumns_getElem?] at hi
  cases hs : src[i]? with
  | none => rw [hs] at hi; simp at hi
  | some s =>
    rw [hs] at hi
    simp only [Option.map_some', Option.some.injEq] at hi
    subst hi
    rw [planColumn_local_index] at hne ⊢
    cases hm : matchLocalColumn b.NAMEDATALEN s.name attrs 0 with
    | none => left; rfl
    | some r =>
      rw [hm] at hne
      right
      simp only [Int.toNat_ofNat]
      intro he
      exact hne (by simp [he])

theorem plan_unbound_isnull (b : Build) (src : List SrcCol) (attrs : List Attr) (mem : Palloc)
    (m : ColumnMetadata) (j : Nat) (hj : j < attrs.length)
    (hplan : tdsGetColumnMetadata b true src attrs mem = .ok m)
    (hunbound : ∀ c ∈ m.columns, c.local_index ≠ (j : Int)) :
    m.isnull[j]? = some true ∧ m.datums.length = attrs.length ∧ SlotUntouched j m.columns := by
  rw [tdsGetColumnMetadata_by_name] at hplan
  injection hplan with hplan
  subst hplan
  have hnb : ¬ ∃ c ∈ (planColumns b true attrs mem.columns 0 src
      (List.replicate attrs.length false)).1, c.local_index = (j : Int) := by
    rintro ⟨c, hc, he⟩
    exact hunbound c hc he
  have hf := (not_congr (bound_iff_found b src attrs mem.columns j hj)).mpr hnb
  have hf2 : (planColumns b true attrs mem.columns 0 src
      (List.replicate attrs.length false)).2.1.getD j false = false := by
    simpa using hf
  refine ⟨?_, by simp, plan_slotUntouched b src attrs mem.columns _ j hunbound⟩
  show (forceNullLoop _ _ _ _).1[j]? = _
  rw [forceNullLoop_getElem?, if_pos ⟨Nat.zero_le _, by omega, hf2⟩]
  simp [hj]

theorem firstIteration_nullKept (b : Build) (attrs : List Attr) (mem : Palloc)
    (festate : Festate) (dbproc : DBPROCESS) (m : ColumnMetadata) (j : Nat)
    (hj : j < attrs.length)
    (hplan : tdsGetColumnMetadata b true dbproc.cols attrs mem = .ok m)
    (hunbound : ∀ c ∈ m.columns, c.local_index ≠ (j : Int))
    (f1 : Festate) (d1 : DBPROCESS) (w : List Warning)
    (h : firstIteration b true attrs mem festate dbproc = .ok (f1, d1, w)) :
    NullKept j f1 := by
  obtain ⟨hn, hd, hu⟩ := plan_unbound_isnull b dbproc.cols attrs mem m j hj hplan hunbound
  have hfirst := firstIteration_first b true attrs mem festate dbproc f1 d1 w h
  unfold firstIteration at h
  rw [hplan] at h
  split at h
  · exact absurd h (by simp)
  · split at h
    · exact absurd h (by simp)
    · split at h
      · exact absurd h (by simp)
      · split at h
        · exact absurd h (by simp)
        · split at h
          · simp only [] at h
            cases hb : bindColumns b dbproc.dbbind 0 m.columns with
            | error e => rw [hb] at h; exact absurd h (by simp)
            | ok p =>
              obtain ⟨cs, bts⟩ := p
              rw [hb] at h
              simp only [] at h
              injection h with h
              injection h with h1 h2
              subst h1
              refine ⟨hn, by rw [hd]; exact hj, ?_, rfl⟩
              exact slotUntouched_of_map j m.columns cs
                (bindColumns_local_index b _ _ _ _ _ hb) hu
          · exact absurd h (by simp)

theorem fetchRow_nullKept (b : Build) (lib : Lib) (festate : Festate) (dbproc : DBPROCESS)
    (w : List Warning) (r : IterResult) (j : Nat) (hinv : NullKept j festate)
    (h : fetchRow b lib festate dbproc w = .ok r) :
    NullKept j r.festate ∧ ∀ t, r.slot = some t → t[j]? = some none := by
  obtain ⟨hn, hd, hu, hf⟩ := hinv
  rcases fetchRow_ok b lib festate dbproc w r h with ⟨h1, h2⟩ | ⟨row, rest, buf, -, -, hdec, h2⟩
  · rw [h2]
    refine ⟨⟨hn, hd, hu, hf⟩, ?_⟩
    intro t ht
    rw [h1] at ht
    exact absurd ht (by simp)
  · have hu2 : SlotUntouched j (storeBound dbproc.binds row.cols festate.columns) :=
      slotUntouched_of_map j festate.columns _ (storeBound_local_index _ _ _) hu
    have hn2 : buf.isnull[j]? = some true := by
      rw [decodeRow_isnull_other b lib _ _ _ buf j hdec hu2]
      exact hn
    have hd2 : j < buf.datums.length := by
      rw [decodeRow_datums_length b lib _ _ _ buf hdec]
      exact hd
    subst h2
    refine ⟨⟨hn2, hd2, hu2, hf⟩, ?_⟩
    intro t ht
    injection ht with ht
    subst ht
    exact heap_form_tuple_null buf j hn2 hd2

theorem scanRows_nullKept (b : Build) (lib : Lib) (m : Bool) (attrs : List Attr) (mem : Palloc)
    (j : Nat) (n : Nat) (festate : Festate) (dbproc : DBPROCESS)
    (rows : List (List (Option Datum))) (hinv : NullKept j festate)
    (h : scanRows b lib m attrs mem n festate dbproc = .ok rows) :
    ∀ t ∈ rows, t[j]? = some none := by
  induction n generalizing festate dbproc rows with
  | zero =>
    simp only [scanRows] at h
    injection h with h; subst h
    intro t ht; exact absurd ht (by simp)
  | succ n ih =>
    simp only [scanRows] at h
    have hiter : tdsIterateForeignScan b lib m attrs mem festate dbproc =
        fetchRow b lib festate dbproc [] := by
      unfold tdsIterateForeignScan
      rw [if_neg (by simp [hinv.2.2.2])]
    rw [hiter] at h
    cases hfr : fetchRow b lib festate dbproc [] with
    | error e => rw [hfr] at h; exact absurd h (by simp)
    | ok r =>
      rw [hfr] at h
      simp only [] at h
      obtain ⟨hinv2, hslot⟩ := fetchRow_nullKept b lib festate dbproc [] r j hinv hfr
      cases hs : r.slot with
      | none =>
        rw [hs] at h
        injection h with h; subst h
        intro t ht; exact absurd ht (by simp)
      | some tuple =>
        rw [hs] at h
        simp only [] at h
        cases hrest : scanRows b lib m attrs mem n r.festate r.dbproc with
        | error e => rw [hrest] at h; exact absurd h (by simp)
        | ok tuples =>
          rw [hrest] at h
          injection h with h; subst h
          intro t ht
          rcases List.mem_cons.mp ht with rfl | ht
          · exact hslot _ hs
          · exact ih r.festate r.dbproc tuples hinv2 hrest t ht


/-! ## Lemmas: conversion, the plan statements and exact name matching -/

theorem cleanupAfterShowPlan_ok {D : Type} (s : EstSession D) (rows : D) (issued : List CStr)
    (e : Estimate D) (h : cleanupAfterShowPlan s rows issued = .ok e) :
    e = ⟨rows, issued ++ [show_plan_query_off]⟩ ∧ s.showplan_off.cmd ≠ FAIL ∧
      s.showplan_off.sqlexec ≠ FAIL ∧ s.showplan_off.results ≠ FAIL := by
  unfold cleanupAfterShowPlan at h
  by_cases h1 : s.showplan_off.cmd = FAIL
  · rw [if_pos h1] at h; exact absurd h (by simp)
  · rw [if_neg h1] at h
    by_cases h2 : s.showplan_off.sqlexec = FAIL
    · rw [if_pos h2] at h; exact absurd h (by simp)
    · rw [if_neg h2] at h
      by_cases h3 : s.showplan_off.results = FAIL
      · rw [if_pos h3] at h; exact absurd h (by simp)
      · rw [if_neg h3] at h
        exact ⟨(Except.ok.inj h).symm, h1, h2, h3⟩

theorem cleanupAfterShowPlan_succeeds {D : Type} (s : EstSession D) (rows : D)
    (issued : List CStr) (h1 : s.showplan_off.cmd ≠ FAIL) (h2 : s.showplan_off.sqlexec ≠ FAIL)
    (h3 : s.showplan_off.results ≠ FAIL) :
    cleanupAfterShowPlan s rows issued = .ok ⟨rows, issued ++ [show_plan_query_off]⟩ := by
  unfold cleanupAfterShowPlan
  rw [if_neg h1, if_neg h2, if_neg h3]

theorem planRowLoop_regular_rows {D : Type} [Add D] (binds : List (Nat × PlanVar))
    (rows : List (EstRow D)) (v : PlanVars D) (acc : D)
    (h : ∀ r ∈ rows, r.ret_code = REG_ROW) : ∃ d, planRowLoop binds rows v acc = .ok d := by
  induction rows generalizing v acc with
  | nil => exact ⟨acc, rfl⟩
  | cons r rest ih =>
    have hr : r.ret_code = REG_ROW := h r (List.mem_cons_self _ _)
    have hn : ¬ (r.ret_code = NO_MORE_ROWS) := by rw [hr]; decide
    unfold planRowLoop
    rw [if_neg hn, if_pos hr]
    exact ih _ _ (fun x hx => h x (List.mem_cons_of_mem _ hx))

theorem showPlanAll_issued {D : Type} [Zero D] [Add D] (query : CStr) (s : EstSession D)
    (e : Estimate D) (h : tdsGetRowCountShowPlanAll query s = .ok e) :
    e.issued = [show_plan_query, query, show_plan_query_off] ∧ s.showplan_off.cmd ≠ FAIL ∧
      s.showplan_off.sqlexec ≠ FAIL ∧ s.showplan_off.results ≠ FAIL := by
  unfold tdsGetRowCountShowPlanAll at h
  by_cases h1 : s.showplan_on.cmd = FAIL
  · rw [if_pos h1] at h; exact absurd h (by simp)
  rw [if_neg h1] at h
  by_cases h2 : s.showplan_on.sqlexec = FAIL
  · rw [if_pos h2] at h; exact absurd h (by simp)
  rw [if_neg h2] at h
  by_cases h3 : s.showplan_on.results = FAIL
  · rw [if_pos h3] at h; exact absurd h (by simp)
  rw [if_neg h3] at h
  by_cases h4 : s.query.cmd = FAIL
  · rw [if_pos h4] at h; exact absurd h (by simp)
  rw [if_neg h4] at h
  by_cases h5 : s.query.sqlexec = FAIL
  · rw [if_pos h5] at h; exact absurd h (by simp)
  rw [if_neg h5] at h
  by_cases h6 : s.query.results = FAIL
  · rw [if_pos h6] at h; exact absurd h (by simp)
  rw [if_neg h6] at h
  by_cases h7 : s.query.results = NO_MORE_RESULTS
  · rw [if_pos h7] at h
    obtain ⟨he, hoff⟩ := cleanupAfterShowPlan_ok s 0 _ e h
    rw [he]; exact ⟨rfl, hoff⟩
  rw [if_neg h7] at h
  by_cases h8 : s.query.results = SUCCEED
  · rw [if_pos h8] at h
    cases hb : bindPlanColumns s.dbbind 0 s.colnames with
    | error err => rw [hb] at h; exact absurd h (by simp)
    | ok binds =>
      rw [hb] at h
      simp only [] at h
      cases hl : planRowLoop binds s.rows (⟨0, 0⟩ : PlanVars D) 0 with
      | error err => rw [hl] at h; exact absurd h (by simp)
      | ok rows =>
        rw [hl] at h
        simp only [] at h
        obtain ⟨he, hoff⟩ := cleanupAfterShowPlan_ok s rows _ e h
        rw [he]; exact ⟨rfl, hoff⟩
  · rw [if_neg h8] at h; exact absurd h (by simp)

theorem cbytes_ne_zero (s : CStr) : ∀ x ∈ cbytes s, x ≠ 0 := by
  intro x hx
  have := List.mem_takeWhile_imp hx
  simpa using this

theorem zero_terminated_initial (a c : List Nat) (ha : ∀ x ∈ a, x ≠ 0) (hc : ∀ x ∈ c, x ≠ 0)
    (h : a ++ [0] <+: c ++ [0]) : a = c := by
  induction a generalizing c with
  | nil =>
    cases c with
    | nil => rfl
    | cons y c2 =>
      obtain ⟨r, hr⟩ := h
      have h0 : (0 : Nat) = y := by
        have := congrArg List.head? hr
        simpa using this
      exact absurd h0.symm (hc y (List.mem_cons_self _ _))
  | cons x a2 ih =>
    cases c with
    | nil =>
      obtain ⟨r, hr⟩ := h
      have h0 : x = 0 := by
        have := congrArg List.head? hr
        simpa using this
      exact absurd h0 (ha x (List.mem_cons_self _ _))
    | cons y c2 =>
      obtain ⟨r, hr⟩ := h
      have hxy : x = y := by
        have := congrArg List.head? hr
        simpa using this
      have htl : a2 ++ [0] ++ r = c2 ++ [0] := by
        have := congrArg List.tail hr
        simpa using this
      rw [hxy, ih c2 (fun z hz => ha z (List.mem_cons_of_mem _ hz))
        (fun z hz => hc z (List.mem_cons_of_mem _ hz)) ⟨r, htl⟩]

theorem strncmp_eq_zero_of_short (n : Nat) (s t : CStr) (h : (cbytes s).length < n) :
    strncmp s t n = 0 ↔ cbytes s = cbytes t := by
  rw [strncmp_eq_zero_iff]
  unfold eqUpTo
  constructor
  · intro he
    have hfull : (cbytes s ++ [0]).take n = cbytes s ++ [0] := by
      apply List.take_of_length_le
      simp; omega
    rw [hfull] at he
    apply zero_terminated_initial _ _ (cbytes_ne_zero s) (cbytes_ne_zero t)
    rw [he]
    exact ⟨_, List.take_append_drop _ _⟩
  · intro he
    rw [he]

theorem tdsDatetimeToDatum_succeeds (b : Build) (lib : Lib) (src : Option (List Nat))
    (hs : (lib.dbdatecrack src).1 = SUCCEED) :
    ∃ d, tdsDatetimeToDatum b lib src = (SUCCEED, some d) := by
  unfold tdsDatetimeToDatum
  simp only []
  rw [if_pos hs]
  by_cases hm : b.MSDBLIB = true
  · rw [if_pos hm, hs]; exact ⟨_, rfl⟩
  · rw [if_neg hm, hs]; exact ⟨_, rfl⟩

theorem convSwitch_datetime (b : Build) (lib : Lib) (src : Option (List Nat)) (srclen : Int)
    (d : Datum) (hpg : 90400 ≤ b.PG_VERSION_NUM)
    (hd : tdsDatetimeToDatum b lib src = (SUCCEED, some d)) :
    convSwitch b lib SYBDATETIME src srclen =
      ⟨1000, -2, SYBCHAR,
        .buffer (cbytes (lib.timestamptz_to_str d)).length (some (lib.timestamptz_to_str d)),
        false⟩ := by
  unfold convSwitch
  rw [if_neg (by decide), if_neg (by decide), if_pos ⟨hpg, rfl⟩, hd]
  rfl

/-! ## Lemmas: the binding loops and the first-call block -/

theorem bindColumns_getElem? (b : Build) (dbbind : Nat → Int) (k : Nat) (cols cs : List COL)
    (bts : List (Option BindType)) (h : bindColumns b dbbind k cols = .ok (cs, bts))
    (i : Nat) (col : COL) (hi : cols[i]? = some col) :
    ∃ c bt, cs[i]? = some c ∧ bindColumn b (dbbind (k + i + 1)) col = .ok (c, bt) := by
  induction cols generalizing k cs bts i with
  | nil => simp at hi
  | cons x rest ih =>
    unfold bindColumns at h
    cases hx : bindColumn b (dbbind (k + 1)) x with
    | error e => rw [hx] at h; exact absurd h (by simp)
    | ok p =>
      obtain ⟨c0, bt0⟩ := p
      rw [hx] at h
      simp only [] at h
      cases hr : bindColumns b dbbind (k + 1) rest with
      | error e => rw [hr] at h; exact absurd h (by simp)
      | ok q =>
        obtain ⟨cs1, bts1⟩ := q
        rw [hr] at h
        simp only [] at h
        injection h with h
        injection h with h1 h2
        subst h1
        cases i with
        | zero =>
          simp only [List.getElem?_cons_zero, Option.some.injEq] at hi
          subst hi
          exact ⟨c0, bt0, by simp, hx⟩
        | succ n =>
          simp only [List.getElem?_cons_succ] at hi
          obtain ⟨c, bt, hc, hbc⟩ := ih (k + 1) cs1 bts1 hr n hi
          refine ⟨c, bt, by simpa using hc, ?_⟩
          have e : k + (n + 1) + 1 = k + 1 + n + 1 := by omega
          rw [e]; exact hbc

theorem bindColumns_succeeds (b : Build) (dbbind : Nat → Int) (hbind : ∀ n, dbbind n ≠ FAIL)
    (k : Nat) (cols : List COL) : ∃ cs bts, bindColumns b dbbind k cols = .ok (cs, bts) := by
  induction cols generalizing k with
  | nil => exact ⟨[], [], rfl⟩
  | cons x rest ih =>
    obtain ⟨c, bt, hx⟩ := bindColumn_succeeds b (dbbind (k + 1)) x (hbind _)
    obtain ⟨cs, bts, hr⟩ := ih (k + 1)
    refine ⟨c :: cs, bt :: bts, ?_⟩
    unfold bindColumns
    rw [hx]
    simp only []
    rw [hr]

theorem firstIteration_ok (b : Build) (m : Bool) (attrs : List Attr) (mem : Palloc)
    (festate : Festate) (dbproc : DBPROCESS) (f1 : Festate) (d1 : DBPROCESS) (w : List Warning)
    (h : firstIteration b m attrs mem festate dbproc = .ok (f1, d1, w)) :
    ∃ plan bts, tdsGetColumnMetadata b m dbproc.cols attrs mem = .ok plan ∧
      bindColumns b dbproc.dbbind 0 plan.columns = .ok (f1.columns, bts) := by
  unfold firstIteration at h
  split at h
  · exact absurd h (by simp)
  · split at h
    · exact absurd h (by simp)
    · split at h
      · exact absurd h (by simp)
      · split at h
        · exact absurd h (by simp)
        · split at h
          · cases hp : tdsGetColumnMetadata b m dbproc.cols attrs mem with
            | error e => rw [hp] at h; exact absurd h (by simp)
            | ok plan =>
              rw [hp] at h
              simp only [] at h
              cases hb : bindColumns b dbproc.dbbind 0 plan.columns with
              | error e => rw [hb] at h; exact absurd h (by simp)
              | ok p =>
                obtain ⟨cs, bts⟩ := p
                rw [hb] at h
                simp only [] at h
                injection h with h
                injection h with h1 h2
                subst h1
                exact ⟨plan, bts, rfl, hb⟩
          · exact absurd h (by simp)

theorem firstIteration_succeeds (b : Build) (m : Bool) (attrs : List Attr) (mem : Palloc)
    (festate : Festate) (dbproc : DBPROCESS)
    (h1 : dbproc.cmd ≠ FAIL) (h2 : dbproc.sqlexec ≠ FAIL) (h3 : dbproc.results = SUCCEED)
    (hm : m = true ∨ dbproc.cols.length = attrs.length) (hbind : ∀ n, dbproc.dbbind n ≠ FAIL) :
    ∃ f1 d1 w, firstIteration b m attrs mem festate dbproc = .ok (f1, d1, w) := by
  have hmeta : ∃ plan, tdsGetColumnMetadata b m dbproc.cols attrs mem = .ok plan := by
    rcases hm with hm | hm
    · subst hm; exact ⟨_, tdsGetColumnMetadata_by_name b dbproc.cols attrs mem⟩
    · cases m with
      | true => exact ⟨_, tdsGetColumnMetadata_by_name b dbproc.cols attrs mem⟩
      | false => exact ⟨_, tdsGetColumnMetadata_positional b dbproc.cols attrs mem hm⟩
  obtain ⟨plan, hp⟩ := hmeta
  obtain ⟨cs, bts, hb⟩ := bindColumns_succeeds b dbproc.dbbind hbind 0 plan.columns
  have n3 : ¬ (dbproc.results = FAIL) := by rw [h3]; decide
  have n4 : ¬ (dbproc.results = NO_MORE_RESULTS) := by rw [h3]; decide
  unfold firstIteration
  rw [if_neg h1, if_neg h2, if_neg n3, if_neg n4, if_pos h3, hp]
  simp only []
  rw [hb]
  exact ⟨_, _, _, rfl⟩

theorem tdsGetColumnMetadata_columns (b : Build) (m : Bool) (src : List SrcCol)
    (attrs : List Attr) (mem : Palloc) (plan : ColumnMetadata)
    (h : tdsGetColumnMetadata b m src attrs mem = .ok plan) (i : Nat) :
    plan.columns[i]? =
      (src[i]?).map (fun s => (planColumn b m attrs (mem.columns i) i s []).1) := by
  have key : ∀ found, (planColumns b m attrs mem.columns 0 src found).1[i]? =
      (src[i]?).map (fun s => (planColumn b m attrs (mem.columns i) i s []).1) := by
    intro found
    have := planColumns_getElem? b m attrs mem.columns src 0 found i
    simpa using this
  cases m with
  | true =>
    rw [tdsGetColumnMetadata_by_name] at h
    injection h with h
    rw [← h]
    exact key _
  | false =>
    unfold tdsGetColumnMetadata at h
    split at h
    · exact absurd h (by simp)
    · simp only [Bool.false_eq_true, if_false] at h
      injection h with h
      rw [← h]
      exact key _

theorem planColumn_by_name_some (b : Build) (attrs : List Attr) (slot : COL) (ncol : Nat)
    (s : SrcCol) (found : List Bool) (j oid : Nat)
    (h : matchLocalColumn b.NAMEDATALEN s.name attrs 0 = some (j, oid)) :
    (planColumn b true attrs slot ncol s found).1.local_index = (j : Int) ∧
    (planColumn b true attrs slot ncol s found).1.attr_oid = oid := by
  unfold planColumn
  simp [h]

theorem fastBindPair_iff (b : Build) (hpg : 90400 ≤ b.PG_VERSION_NUM) (srctype : Int)
    (oid : Nat) :
    ((srctype = SYBINT2 ∧ oid = INT2OID) ∨
      (srctype = SYBINT4 ∧ oid = INT4OID) ∨
      (srctype = SYBINT8 ∧ oid = INT8OID) ∨
      (srctype = SYBREAL ∧ oid = FLOAT4OID) ∨
      (srctype = SYBFLT8 ∧ oid = FLOAT8OID) ∨
      ((srctype = SYBCHAR ∨ srctype = SYBVARCHAR ∨ srctype = SYBTEXT) ∧ oid = TEXTOID) ∨
      ((srctype = SYBBINARY ∨ srctype = SYBVARBINARY ∨ srctype = SYBIMAGE) ∧ oid = BYTEAOID) ∨
      (90400 ≤ b.PG_VERSION_NUM ∧ srctype = SYBDATETIME ∧ oid = TIMESTAMPOID)) ↔
    fastBindPair srctype oid := by
  unfold fastBindPair
  constructor
  · rintro (q | q | q | q | q | q | q | q)
    · exact Or.inl q
    · exact Or.inr (Or.inl q)
    · exact Or.inr (Or.inr (Or.inl q))
    · exact Or.inr (Or.inr (Or.inr (Or.inl q)))
    · exact Or.inr (Or.inr (Or.inr (Or.inr (Or.inl q))))
    · exact Or.inr (Or.inr (Or.inr (Or.inr (Or.inr (Or.inl q)))))
    · exact Or.inr (Or.inr (Or.inr (Or.inr (Or.inr (Or.inr (Or.inl q))))))
    · exact Or.inr (Or.inr (Or.inr (Or.inr (Or.inr (Or.inr (Or.inr q.2))))))
  · rintro (q | q | q | q | q | q | q | q)
    · exact Or.inl q
    · exact Or.inr (Or.inl q)
    · exact Or.inr (Or.inr (Or.inl q))
    · exact Or.inr (Or.inr (Or.inr (Or.inl q)))
    · exact Or.inr (Or.inr (Or.inr (Or.inr (Or.inl q))))
    · exact Or.inr (Or.inr (Or.inr (Or.inr (Or.inr (Or.inl q)))))
    · exact Or.inr (Or.inr (Or.inr (Or.inr (Or.inr (Or.inr (Or.inl q))))))
    · exact Or.inr (Or.inr (Or.inr (Or.inr (Or.inr (Or.inr (Or.inr ⟨hpg, q⟩))))))

theorem bindPlanColumns_ok_of_named (dbbind : Nat → Int) (names : List CStr) (k : Nat)
    (h : ∀ (i : Nat) (nm : CStr), names[i]? = some nm →
      (strcmp nm str_Parent = 0 ∨ strcmp nm str_EstimateRows = 0) → dbbind (k + i + 1) ≠ FAIL) :
    ∃ bs, bindPlanColumns dbbind k names = .ok bs := by
  induction names generalizing k with
  | nil => exact ⟨[], rfl⟩
  | cons nm rest ih =>
    have h0 : (strcmp nm str_Parent = 0 ∨ strcmp nm str_EstimateRows = 0) →
        dbbind (k + 1) ≠ FAIL := fun hn => h 0 nm (by simp) hn
    obtain ⟨bs, hbs⟩ := ih (k + 1) (fun i n hi hn => by
      have := h (i + 1) n (by simpa using hi) hn
      have e : k + (i + 1) + 1 = k + 1 + i + 1 := by omega
      rw [e] at this; exact this)
    rw [bindPlanColumns, if_neg (fun c => h0 (Or.inl c.1) c.2),
      if_neg (fun c => h0 (Or.inr c.1) c.2), hbs]
    exact ⟨_, rfl⟩

theorem bindPlanColumns_error_of_named (dbbind : Nat → Int) (names : List CStr) (k : Nat)
    (h : ∃ (i : Nat) (nm : CStr), names[i]? = some nm ∧
      (strcmp nm str_Parent = 0 ∨ strcmp nm str_EstimateRows = 0) ∧ dbbind (k + i + 1) = FAIL) :
    ∃ nm, bindPlanColumns dbbind k names =
      .error ⟨.FDW_UNABLE_TO_CREATE_EXECUTION, .failedBind nm⟩ := by
  induction names generalizing k with
  | nil => obtain ⟨i, nm, hi, _⟩ := h; simp at hi
  | cons x rest ih =>
    by_cases c1 : strcmp x str_Parent = 0 ∧ dbbind (k + 1) = FAIL
    · exact ⟨x, by rw [bindPlanColumns, if_pos c1]⟩
    · by_cases c2 : strcmp x str_EstimateRows = 0 ∧ dbbind (k + 1) = FAIL
      · exact ⟨x, by rw [bindPlanColumns, if_neg c1, if_pos c2]⟩
      · obtain ⟨i, nm, hi, hn, hf⟩ := h
        cases i with
        | zero =>
          simp only [List.getElem?_cons_zero, Option.some.injEq] at hi
          subst hi
          rcases hn with hn | hn
          · exact absurd ⟨hn, hf⟩ c1
          · exact absurd ⟨hn, hf⟩ c2
        | succ n =>
          simp only [List.getElem?_cons_succ] at hi
          have e : k + (n + 1) + 1 = k + 1 + n + 1 := by omega
          rw [e] at hf
          obtain ⟨nm2, h2⟩ := ih (k + 1) ⟨n, nm, hi, hn, hf⟩
          exact ⟨nm2, by rw [bindPlanColumns, if_neg c1, if_neg c2, h2]⟩

/-! ## Column planning (claims C1 to C4) -/

/-- Claim C1: with `match_column_names` off, `tdsGetColumnMetadata` succeeds
exactly when the number of source columns equals the number of target columns,
and for unequal counts, and only then, it raises the table definition mismatch
error that carries the source count and the target count. -/
theorem positional_plan_succeeds_iff_counts_equal (b : Build) (src : List SrcCol)
    (attrs : List Attr) (mem : Palloc) :
    ((∃ p, tdsGetColumnMetadata b false src attrs mem = .ok p) ↔ src.length = attrs.length) ∧
    (src.length ≠ attrs.length ↔
      tdsGetColumnMetadata b false src attrs mem =
        .error ⟨.FDW_INCONSISTENT_DESCRIPTOR_INFORMATION,
          .tableDefinitionMismatch src.length attrs.length⟩) := by
  by_cases h : src.length = attrs.length
  · simp [tdsGetColumnMetadata, h]
  · simp [tdsGetColumnMetadata, h]

/-- Claim C2: with `match_column_names` on, planning returns, and the
`local_index` of source column `i` is `j` exactly when target column `j` is
the first one whose name agrees with the source name in the first
`NAMEDATALEN` bytes; it is `-1` exactly when no target name agrees; and it is
always `-1` or the index of a target column. -/
theorem name_match_binds_first_match (b : Build) (src : List SrcCol) (attrs : List Attr)
    (mem : Palloc) (i : Nat) (s : SrcCol) (hi : src[i]? = some s) :
    ∃ p c, tdsGetColumnMetadata b true src attrs mem = .ok p ∧ p.columns[i]? = some c ∧
      (∀ j : Nat, c.local_index = (j : Int) ↔
        (∃ a, attrs[j]? = some a ∧ eqUpTo b.NAMEDATALEN a.attname s.name) ∧
          ∀ k, k < j → ∀ a, attrs[k]? = some a → ¬ eqUpTo b.NAMEDATALEN a.attname s.name) ∧
      (c.local_index = -1 ↔ ∀ a ∈ attrs, ¬ eqUpTo b.NAMEDATALEN a.attname s.name) ∧
      (c.local_index = -1 ∨ ∃ j : Nat, j < attrs.length ∧ c.local_index = (j : Int)) := by
  obtain ⟨p, c, hp, hc, hl⟩ := by_name_column b src attrs mem i s hi
  refine ⟨p, c, hp, hc, ?_, ?_, ?_⟩
  · intro j
    rw [hl]
    cases hm : matchLocalColumn b.NAMEDATALEN s.name attrs 0 with
    | none =>
      have hn := (matchLocalColumn_none _ _ _ _).mp hm
      constructor
      · intro h; simp at h
      · rintro ⟨⟨a, ha, he⟩, _⟩
        exact absurd ((strncmp_eq_zero_iff _ _ _).mpr he) (hn a (List.getElem?_mem ha))
    | some r =>
      obtain ⟨r1, r2⟩ := r
      obtain ⟨i0, a, hj, hget, hz, hoid, hmin⟩ := (matchLocalColumn_some _ _ _ _ _ _).mp hm
      simp only [Nat.zero_add] at hj
      subst hj
      constructor
      · intro h
        have : r1 = j := by simpa using h
        subst this
        refine ⟨⟨a, hget, (strncmp_eq_zero_iff _ _ _).mp hz⟩, ?_⟩
        intro k hk a2 ha2 he
        exact hmin k hk a2 ha2 ((strncmp_eq_zero_iff _ _ _).mpr he)
      · rintro ⟨⟨a2, ha2, he2⟩, hmin2⟩
        have h1 : ¬ r1 < j := fun h => hmin2 r1 h a hget ((strncmp_eq_zero_iff _ _ _).mp hz)
        have h2 : ¬ j < r1 := fun h => hmin j h a2 ha2 ((strncmp_eq_zero_iff _ _ _).mpr he2)
        have : r1 = j := by omega
        simp [this]
  · rw [hl]
    cases hm : matchLocalColumn b.NAMEDATALEN s.name attrs 0 with
    | none =>
      have hn := (matchLocalColumn_none _ _ _ _).mp hm
      simp only [true_iff]
      intro a ha he
      exact hn a ha ((strncmp_eq_zero_iff _ _ _).mpr he)
    | some r =>
      obtain ⟨r1, r2⟩ := r
      obtain ⟨i0, a, hj, hget, hz, hoid, hmin⟩ := (matchLocalColumn_some _ _ _ _ _ _).mp hm
      constructor
      · intro h; simp at h
      · intro h
        exact absurd ((strncmp_eq_zero_iff _ _ _).mp hz) (h a (List.getElem?_mem hget))
  · rw [hl]
    cases hm : matchLocalColumn b.NAMEDATALEN s.name attrs 0 with
    | none => left; rfl
    | some r =>
      obtain ⟨r1, r2⟩ := r
      obtain ⟨i0, a, hj, hget, hz, hoid, hmin⟩ := (matchLocalColumn_some _ _ _ _ _ _).mp hm
      right
      refine ⟨r1, ?_, rfl⟩
      have := (List.getElem?_eq_some_iff.mp hget).1
      omega

/-- Witness for C2: in the sample plan the source column `name`, first in the
result, is bound to target column 1. -/
theorem name_match_binds_first_match_witness :
    sampleSrc[0]? = some ⟨str_name, SYBVARCHAR⟩ ∧
    ∃ p c, tdsGetColumnMetadata sampleBuild true sampleSrc sampleAttrs sampleMem = .ok p ∧
      p.columns[0]? = some c ∧ c.local_index = 1 := by
  refine ⟨rfl, ?_⟩
  obtain ⟨p, c, hp, hc, hj, -, -⟩ :=
    name_match_binds_first_match sampleBuild sampleSrc sampleAttrs sampleMem 0
      ⟨str_name, SYBVARCHAR⟩ rfl
  refine ⟨p, c, hp, hc, (hj 1).mpr ⟨⟨⟨str_name, TEXTOID⟩, rfl, by decide⟩, ?_⟩⟩
  intro k hk a ha
  have hk0 : k = 0 := by omega
  subst hk0
  have : a = ⟨str_id, INT4OID⟩ := by
    have h2 : sampleAttrs[0]? = some ⟨str_id, INT4OID⟩ := rfl
    rw [h2] at ha
    exact (Option.some.inj ha).symm
  subst this
  decide

/-- Counterexample to C3: a result that repeats the column name `a` has both
of its columns bound to target column 0. -/
theorem repeated_source_name_shares_target :
    (match tdsGetColumnMetadata ⟨64, 90400, false⟩ true
        [⟨[97], SYBINT4⟩, ⟨[97], SYBINT4⟩] [⟨[97], INT4OID⟩, ⟨[98], INT4OID⟩] sampleMem with
      | .ok p => some (p.columns.map COL.local_index)
      | .error _ => none) = some [0, 0] := by
  decide

/-- Claim C3, amended: with `match_column_names` on, two source columns whose
names agree in the first `NAMEDATALEN` bytes get the same `local_index`, and
two source columns bound to the same target column have names that agree in
the first `NAMEDATALEN` bytes; so only source columns with different names
are kept apart. -/
theorem same_target_iff_same_name (b : Build) (src : List SrcCol) (attrs : List Attr)
    (mem : Palloc) (i k : Nat) (s t : SrcCol) (hi : src[i]? = some s) (hk : src[k]? = some t) :
    ∃ p c d, tdsGetColumnMetadata b true src attrs mem = .ok p ∧
      p.columns[i]? = some c ∧ p.columns[k]? = some d ∧
      (eqUpTo b.NAMEDATALEN s.name t.name → c.local_index = d.local_index) ∧
      (c.local_index = d.local_index → c.local_index ≠ -1 →
        eqUpTo b.NAMEDATALEN s.name t.name) := by
  obtain ⟨p, c, hp, hc, hl⟩ := by_name_column b src attrs mem i s hi
  obtain ⟨p2, d, hp2, hd, hl2⟩ := by_name_column b src attrs mem k t hk
  have : p2 = p := by
    rw [hp] at hp2; injection hp2 with h; exact h.symm
  subst this
  refine ⟨p2, c, d, hp, hc, hd, ?_, ?_⟩
  · intro he
    rw [hl, hl2, matchLocalColumn_congr _ _ _ he]
  · intro heq hne
    rw [hl] at hne
    rw [hl, hl2] at heq
    cases hm : matchLocalColumn b.NAMEDATALEN s.name attrs 0 with
    | none => rw [hm] at hne; exact absurd rfl hne
    | some r =>
      obtain ⟨r1, r2⟩ := r
      rw [hm] at heq
      cases hm2 : matchLocalColumn b.NAMEDATALEN t.name attrs 0 with
      | none => rw [hm2] at heq; simp at heq
      | some q =>
        obtain ⟨q1, q2⟩ := q
        rw [hm2] at heq
        have e : r1 = q1 := by simpa using heq
        subst e
        obtain ⟨i0, a, hj, hget, hz, -, -⟩ := (matchLocalColumn_some _ _ _ _ _ _).mp hm
        obtain ⟨i1, a1, hj1, hget1, hz1, -, -⟩ := (matchLocalColumn_some _ _ _ _ _ _).mp hm2
        have : i0 = i1 := by omega
        subst this
        rw [hget] at hget1
        injection hget1 with e2
        subst e2
        exact eqUpTo_trans (eqUpTo_symm ((strncmp_eq_zero_iff _ _ _).mp hz))
          ((strncmp_eq_zero_iff _ _ _).mp hz1)

/-- Witness for C3, amended: in the sample plan the source columns `name` and
`id` differ in name and are bound to different target columns. -/
theorem same_target_iff_same_name_witness :
    sampleSrc[0]? = some ⟨str_name, SYBVARCHAR⟩ ∧ sampleSrc[1]? = some ⟨str_id, SYBINT4⟩ ∧
    ∃ p c d, tdsGetColumnMetadata sampleBuild true sampleSrc sampleAttrs sampleMem = .ok p ∧
      p.columns[0]? = some c ∧ p.columns[1]? = some d ∧
      (eqUpTo sampleBuild.NAMEDATALEN str_name str_id → c.local_index = d.local_index) ∧
      (c.local_index = d.local_index → c.local_index ≠ -1 →
        eqUpTo sampleBuild.NAMEDATALEN str_name str_id) :=
  ⟨rfl, rfl, same_target_iff_same_name sampleBuild sampleSrc sampleAttrs sampleMem 0 1
    ⟨str_name, SYBVARCHAR⟩ ⟨str_id, SYBINT4⟩ rfl rfl⟩

/-- Claim C4: with `match_column_names` on, planning returns, and for target
column `j`: when no source column is bound to it, `isnull[j]` is set and
exactly one warning is reported for it, under its own name; when some source
column is bound to it, `isnull[j]` is left as allocated and no warning is
reported for it. So every target column is bound or forced null. -/
theorem forced_null_iff_unbound (b : Build) (src : List SrcCol) (attrs : List Attr)
    (mem : Palloc) (j : Nat) (a : Attr) (hj : attrs[j]? = some a) :
    ∃ p, tdsGetColumnMetadata b true src attrs mem = .ok p ∧
      ((¬ ∃ c ∈ p.columns, c.local_index = (j : Int)) →
        p.isnull[j]? = some true ∧
        ∀ nm, p.warnings.count (Warning.localColumnUnmatched j nm) =
          if nm = a.attname then 1 else 0) ∧
      ((∃ c ∈ p.columns, c.local_index = (j : Int)) →
        p.isnull[j]? = some (mem.isnull j) ∧
        ∀ nm, p.warnings.count (Warning.localColumnUnmatched j nm) = 0) := by
  have hlt : j < attrs.length := (List.getElem?_eq_some_iff.mp hj).1
  refine ⟨_, tdsGetColumnMetadata_by_name b src attrs mem, ?_, ?_⟩
  · intro hnb
    have hf := (not_congr (bound_iff_found b src attrs mem.columns j hlt)).mpr hnb
    have hf2 : (planColumns b true attrs mem.columns 0 src
        (List.replicate attrs.length false)).2.1.getD j false = false := by
      simpa using hf
    constructor
    · show (forceNullLoop _ _ _ _).1[j]? = _
      rw [forceNullLoop_getElem?, if_pos ⟨Nat.zero_le _, by omega, hf2⟩]
      simp [hlt]
    · intro nm
      show List.count _ (_ ++ _) = _
      rw [List.count_append, List.count_eq_zero.mpr (planColumns_warnings _ _ _ _ _ _ _ _ _),
        forceNullLoop_count, Nat.zero_add]
      by_cases hn : nm = a.attname
      · rw [if_pos hn, if_pos ⟨Nat.zero_le _, by simp [hj, hn], hf2⟩]
      · rw [if_neg hn, if_neg]
        rintro ⟨_, h, _⟩
        simp [hj] at h
        exact hn h.symm
  · intro hb
    have hf := (bound_iff_found b src attrs mem.columns j hlt).mpr hb
    constructor
    · show (forceNullLoop _ _ _ _).1[j]? = _
      rw [forceNullLoop_getElem?, if_neg]
      · simp [hlt]
      · rintro ⟨_, _, h⟩
        rw [hf] at h; exact absurd h (by simp)
    · intro nm
      show List.count _ (_ ++ _) = _
      rw [List.count_append, List.count_eq_zero.mpr (planColumns_warnings _ _ _ _ _ _ _ _ _),
        forceNullLoop_count, Nat.zero_add, if_neg]
      rintro ⟨_, _, h⟩
      rw [hf] at h; exact absurd h (by simp)

/-- Witness for C4: the claim at target column 0 of the sample plan. -/
theorem forced_null_iff_unbound_witness :
    sampleAttrs[0]? = some ⟨str_id, INT4OID⟩ ∧
    ∃ p, tdsGetColumnMetadata sampleBuild true sampleSrc sampleAttrs sampleMem = .ok p ∧
      ((¬ ∃ c ∈ p.columns, c.local_index = ((0 : Nat) : Int)) →
        p.isnull[0]? = some true ∧
        ∀ nm, p.warnings.count (Warning.localColumnUnmatched 0 nm) =
          if nm = str_id then 1 else 0) ∧
      ((∃ c ∈ p.columns, c.local_index = ((0 : Nat) : Int)) →
        p.isnull[0]? = some (sampleMem.isnull 0) ∧
        ∀ nm, p.warnings.count (Warning.localColumnUnmatched 0 nm) = 0) :=
  ⟨rfl, forced_null_iff_unbound sampleBuild sampleSrc sampleAttrs sampleMem 0
    ⟨str_id, INT4OID⟩ rfl⟩

/-! ## Row decoding (claims C5 to C7) -/

/-- Claim C5: for a bound column whose raw length is 0 and whose raw pointer is
NULL, the decoding step sets the null flag of its target slot and does nothing
else, whatever the wire type, the target type, `useraw` and the library; and
when the row is decoded and no later column writes the same slot, the flag is
set in the decoded row. -/
theorem null_raw_sets_null_flag (b : Build) (lib : Lib) (column : COL) (raw : RawCol)
    (hb : column.local_index ≠ -1) (hl : raw.srclen = 0) (hs : raw.src = none) :
    (∀ buf : RowBuf, decodeColumn b lib column raw buf =
      .ok { datums := buf.datums, isnull := buf.isnull.set column.local_index.toNat true }) ∧
    (∀ (pre post : List COL) (raws : List RawCol) (buf out : RowBuf),
      (raws.drop pre.length).headD RawCol.absent = raw →
      (∀ c ∈ post, c.local_index = -1 ∨ c.local_index.toNat ≠ column.local_index.toNat) →
      column.local_index.toNat < buf.isnull.length →
      decodeRow b lib (pre ++ column :: post) raws buf = .ok out →
      out.isnull[column.local_index.toNat]? = some true) := by
  refine ⟨fun buf => decodeColumn_null b lib column raw buf hb hl hs, ?_⟩
  intro pre post raws buf out hraw hpost hlen hrow
  rw [decodeRow_append] at hrow
  cases hpre : decodeRow b lib pre raws buf with
  | error e => rw [hpre] at hrow; exact absurd hrow (by simp)
  | ok buf1 =>
    rw [hpre] at hrow
    simp only [decodeRow, hraw, decodeColumn_null b lib column raw buf1 hb hl hs] at hrow
    rw [decodeRow_isnull_other b lib post _ _ out _ hrow hpost]
    have hlen1 : buf1.isnull.length = buf.isnull.length :=
      decodeRow_isnull_length b lib pre raws buf buf1 hpre
    simp [List.getElem?_set, hlen1, hlen]

/-- Witness for C5: the sample column with a NULL value has its slot flagged
null by the step, with the datum left alone. -/
theorem null_raw_sets_null_flag_witness :
    decodeColumn sampleBuild sampleLib sampleColumn ⟨0, none, 0, 0⟩ ⟨[.word 9], [false]⟩ =
      .ok ⟨[.word 9], [true]⟩ :=
  (null_raw_sets_null_flag sampleBuild sampleLib sampleColumn ⟨0, none, 0, 0⟩
    (by decide) rfl rfl).1 ⟨[.word 9], [false]⟩

/-- Claim C6, at a failing input: a row of three columns that all go through
the generic conversion, where `dbconvert` fails for the second one. The row is
produced, but the second slot is not NULL: its null flag is false and its
datum is what the input function made of the unwritten buffer. -/
theorem failed_conversion_slot_not_null :
    (match tdsIterateForeignScan sampleBuild sampleLib true
        [⟨[97], 1700⟩, ⟨[98], 1700⟩, ⟨[99], 1700⟩] sampleMem
        ⟨[113], true, 0, 0, [], [], []⟩
        ⟨SUCCEED, SUCCEED, SUCCEED, [⟨[97], SYBFLT8⟩, ⟨[98], SYBFLT8⟩, ⟨[99], SYBFLT8⟩],
          fun _ => SUCCEED,
          [⟨REG_ROW, [⟨1, some [49], 0, 0⟩, ⟨1, some [255], 0, 0⟩, ⟨1, some [51], 0, 0⟩]⟩],
          []⟩ with
      | .ok r => some (r.festate.isnull, r.slot)
      | .error _ => none) =
    some ([false, false, false],
      some [some (.parsed 0 [49]), some (.parsed 1 []), some (.parsed 2 [51])]) := by
  decide

/-- Claim C7: for each of the five pairs that the binding loop binds with
`dbbind` and for every value that is not NULL, the binding loop marks the
column `useraw` and registers the binding, `dbnextrow` stores the bound scalar
in the column, and the decoding step writes to the target slot a datum that
reads back as exactly that scalar: the 16, 32 or 64 bit integer, or the float's
bit pattern. A scalar in the range of the type is stored as it is. -/
theorem fastbind_scalar_roundtrip (b : Build) (lib : Lib) (column : COL) (raw : RawCol)
    (buf : RowBuf) (dbbind_rc : Int)
    (hb : column.local_index ≠ -1) (hrc : dbbind_rc ≠ FAIL)
    (hnn : ¬ (raw.srclen = 0 ∧ raw.src = none)) :
    (column.srctype = SYBINT2 → column.attr_oid = INT2OID →
      ∃ c1 c2 v d out, bindColumn b dbbind_rc column = .ok (c1, some .SMALLBIND) ∧
        storeBound [some .SMALLBIND] [raw] [c1] = [c2] ∧ c2.value = .dbsmallint v ∧
        (-32768 ≤ raw.num → raw.num < 32768 → v = raw.num) ∧
        decodeColumn b lib c2 raw buf = .ok out ∧
        out.datums = buf.datums.set column.local_index.toNat d ∧
        (raw.src ≠ none → out.isnull = buf.isnull.set column.local_index.toNat false) ∧
        DatumGetInt16 d = some v) ∧
    (column.srctype = SYBINT4 → column.attr_oid = INT4OID →
      ∃ c1 c2 v d out, bindColumn b dbbind_rc column = .ok (c1, some .INTBIND) ∧
        storeBound [some .INTBIND] [raw] [c1] = [c2] ∧ c2.value = .dbint v ∧
        (-2147483648 ≤ raw.num → raw.num < 2147483648 → v = raw.num) ∧
        decodeColumn b lib c2 raw buf = .ok out ∧
        out.datums = buf.datums.set column.local_index.toNat d ∧
        (raw.src ≠ none → out.isnull = buf.isnull.set column.local_index.toNat false) ∧
        DatumGetInt32 d = some v) ∧
    (column.srctype = SYBINT8 → column.attr_oid = INT8OID →
      ∃ c1 c2 v d out, bindColumn b dbbind_rc column = .ok (c1, some .BIGINTBIND) ∧
        storeBound [some .BIGINTBIND] [raw] [c1] = [c2] ∧ c2.value = .dbbigint v ∧
        (-9223372036854775808 ≤ raw.num → raw.num < 9223372036854775808 → v = raw.num) ∧
        decodeColumn b lib c2 raw buf = .ok out ∧
        out.datums = buf.datums.set column.local_index.toNat d ∧
        (raw.src ≠ none → out.isnull = buf.isnull.set column.local_index.toNat false) ∧
        DatumGetInt64 d = some v) ∧
    (column.srctype = SYBREAL → column.attr_oid = FLOAT4OID →
      ∃ c1 c2 w out, bindColumn b dbbind_rc column = .ok (c1, some .REALBIND) ∧
        storeBound [some .REALBIND] [raw] [c1] = [c2] ∧ c2.value = .dbreal w ∧
        (raw.flt < 4294967296 → w = raw.flt) ∧
        decodeColumn b lib c2 raw buf = .ok out ∧
        out.datums = buf.datums.set column.local_index.toNat (.float4 w) ∧
        (raw.src ≠ none → out.isnull = buf.isnull.set column.local_index.toNat false)) ∧
    (column.srctype = SYBFLT8 → column.attr_oid = FLOAT8OID →
      ∃ c1 c2 w out, bindColumn b dbbind_rc column = .ok (c1, some .FLT8BIND) ∧
        storeBound [some .FLT8BIND] [raw] [c1] = [c2] ∧ c2.value = .dbflt8 w ∧
        (raw.flt < 18446744073709551616 → w = raw.flt) ∧
        decodeColumn b lib c2 raw buf = .ok out ∧
        out.datums = buf.datums.set column.local_index.toNat (.float8 w) ∧
        (raw.src ≠ none → out.isnull = buf.isnull.set column.local_index.toNat false)) := by
  have hrc2 : ¬ dbbind_rc = 0 := hrc
  refine ⟨?_, ?_, ?_, ?_, ?_⟩
  · intro h1 h2
    obtain ⟨out, ho, hd, hn⟩ := decodeColumn_useraw b lib
      { column with useraw := true, value := .dbsmallint (wrapSigned 16 raw.num) } raw buf
      (Int16GetDatum (wrapSigned 16 raw.num)) hb hnn rfl
      (by simp [userawDatum, h2, ColValue.getSmallint])
    refine ⟨{ column with useraw := true },
      { column with useraw := true, value := .dbsmallint (wrapSigned 16 raw.num) },
      wrapSigned 16 raw.num, _, out, by simp [bindColumn, hb, h1, h2, hrc2], rfl,
      rfl, ?_, ho, hd, hn, ?_⟩
    · intro a c; rw [wrapSigned_16]; omega
    · apply datum_int16_roundtrip <;> rw [wrapSigned_16] <;> omega
  · intro h1 h2
    obtain ⟨out, ho, hd, hn⟩ := decodeColumn_useraw b lib
      { column with useraw := true, value := .dbint (wrapSigned 32 raw.num) } raw buf
      (Int32GetDatum (wrapSigned 32 raw.num)) hb hnn rfl
      (by simp [userawDatum, h2, ColValue.getInt])
    refine ⟨{ column with useraw := true },
      { column with useraw := true, value := .dbint (wrapSigned 32 raw.num) },
      wrapSigned 32 raw.num, _, out, by simp [bindColumn, hb, h1, h2, hrc2], rfl,
      rfl, ?_, ho, hd, hn, ?_⟩
    · intro a c; rw [wrapSigned_32]; omega
    · apply datum_int32_roundtrip <;> rw [wrapSigned_32] <;> omega
  · intro h1 h2
    obtain ⟨out, ho, hd, hn⟩ := decodeColumn_useraw b lib
      { column with useraw := true, value := .dbbigint (wrapSigned 64 raw.num) } raw buf
      (Int64GetDatum (wrapSigned 64 raw.num)) hb hnn rfl
      (by simp [userawDatum, h2, ColValue.getBigint])
    refine ⟨{ column with useraw := true },
      { column with useraw := true, value := .dbbigint (wrapSigned 64 raw.num) },
      wrapSigned 64 raw.num, _, out, by simp [bindColumn, hb, h1, h2, hrc2], rfl,
      rfl, ?_, ho, hd, hn, ?_⟩
    · intro a c; rw [wrapSigned_64]; omega
    · apply datum_int64_roundtrip <;> rw [wrapSigned_64] <;> omega
  · intro h1 h2
    obtain ⟨out, ho, hd, hn⟩ := decodeColumn_useraw b lib
      { column with useraw := true, value := .dbreal (raw.flt % 4294967296) } raw buf
      (.float4 (raw.flt % 4294967296)) hb hnn rfl
      (by simp [userawDatum, h2, ColValue.getReal, Float4GetDatum])
    exact ⟨{ column with useraw := true },
      { column with useraw := true, value := .dbreal (raw.flt % 4294967296) },
      raw.flt % 4294967296, out, by simp [bindColumn, hb, h1, h2, hrc2], rfl, rfl,
      fun h => Nat.mod_eq_of_lt h, ho, hd, hn⟩
  · intro h1 h2
    obtain ⟨out, ho, hd, hn⟩ := decodeColumn_useraw b lib
      { column with useraw := true, value := .dbflt8 (raw.flt % 18446744073709551616) } raw buf
      (.float8 (raw.flt % 18446744073709551616)) hb hnn rfl
      (by simp [userawDatum, h2, ColValue.getFlt8, Float8GetDatum])
    exact ⟨{ column with useraw := true },
      { column with useraw := true, value := .dbflt8 (raw.flt % 18446744073709551616) },
      raw.flt % 18446744073709551616, out, by simp [bindColumn, hb, h1, h2, hrc2],
      rfl, rfl, fun h => Nat.mod_eq_of_lt h, ho, hd, hn⟩

/-- Witness for C7: the sample `SYBINT4` column bound to an `int4` target, for
the value -5, decodes to a datum that reads back as -5. -/
theorem fastbind_scalar_roundtrip_witness :
    ∃ c1 c2 v d out, bindColumn sampleBuild SUCCEED sampleColumn = .ok (c1, some .INTBIND) ∧
      storeBound [some .INTBIND] [⟨4, some [251, 255, 255, 255], -5, 0⟩] [c1] = [c2] ∧
      c2.value = .dbint v ∧
      (-2147483648 ≤ (-5 : Int) → (-5 : Int) < 2147483648 → v = -5) ∧
      decodeColumn sampleBuild sampleLib c2 ⟨4, some [251, 255, 255, 255], -5, 0⟩
        ⟨[.word 0], [true]⟩ = .ok out ∧
      out.datums = [Datum.word 0].set sampleColumn.local_index.toNat d ∧
      ((some [251, 255, 255, 255] : Option (List Nat)) ≠ none →
        out.isnull = [true].set sampleColumn.local_index.toNat false) ∧
      DatumGetInt32 d = some v :=
  (fastbind_scalar_roundtrip sampleBuild sampleLib sampleColumn
    ⟨4, some [251, 255, 255, 255], -5, 0⟩ ⟨[.word 0], [true]⟩ SUCCEED
    (by decide) (by decide) (by decide)).2.1 rfl rfl

/-! ## Row-count estimation (claims C8 to C10) -/

/-- Claim C8: when the query is set and executed, `dbresults` reports
`SUCCEED` and every `dbnextrow` delivers a row, `tdsGetRowCountExecute`
returns `DBCOUNT` if `dbiscount` is non-zero and otherwise the number of rows
fetched; so for a statement that is not count-style and has N rows it returns
N. -/
theorem execute_returns_count_or_rows {D : Type} [IntCast D] (query : CStr) (s : EstSession D)
    (hcmd : s.query.cmd ≠ FAIL) (hexec : s.query.sqlexec ≠ FAIL)
    (hres : s.query.results = SUCCEED) (hrows : ∀ r ∈ s.rows, r.ret_code = REG_ROW) :
    tdsGetRowCountExecute query s =
      .ok ⟨if s.dbiscount ≠ 0 then ((s.dbcount : Int) : D)
        else (((s.rows.length : Nat) : Int) : D), [query]⟩ := by
  have h1 : ¬ s.query.cmd = 0 := hcmd
  have h2 : ¬ s.query.sqlexec = 0 := hexec
  unfold tdsGetRowCountExecute
  rw [if_neg h1, if_neg h2, hres, if_neg (by decide), if_neg (by decide), if_pos rfl,
    countRowLoop_all_rows _ _ hrows]
  simp only [cleanupExecute, zero_add]
  split <;> rfl

/-- Witness for C8: the sample session, with two rows and a statement that is
not count-style, is estimated at 2. -/
theorem execute_returns_count_or_rows_witness :
    tdsGetRowCountExecute [113] sampleSession = .ok ⟨2, [[113]]⟩ :=
  execute_returns_count_or_rows [113] sampleSession (by decide) (by decide) rfl (by decide)

/-- Claim C9: when every statement is set, executed and fetched, every
`dbbind` succeeds, the result has one column named Parent (column `p`) and one
named EstimateRows (column `e`), and every `dbnextrow` delivers a row,
`tdsGetRowCountShowPlanAll` returns the sum of the EstimateRows field over the
rows whose Parent field is 0; for the plan with the rows (Parent 0, estimate
`x`) and (Parent 1, estimate `y`) it returns `x`. -/
theorem showplan_sums_root_estimates {D : Type} [AddZeroClass D] (query : CStr)
    (s : EstSession D) (p e : Nat)
    (hon : s.showplan_on.cmd ≠ FAIL ∧ s.showplan_on.sqlexec ≠ FAIL ∧ s.showplan_on.results ≠ FAIL)
    (hq : s.query.cmd ≠ FAIL ∧ s.query.sqlexec ≠ FAIL ∧ s.query.results = SUCCEED)
    (hoff : s.showplan_off.cmd ≠ FAIL ∧ s.showplan_off.sqlexec ≠ FAIL ∧
      s.showplan_off.results ≠ FAIL)
    (hbind : ∀ n, s.dbbind n ≠ FAIL)
    (hP : ∀ i nm, s.colnames[i]? = some nm → (strcmp nm str_Parent = 0 ↔ i = p))
    (hE : ∀ i nm, s.colnames[i]? = some nm → (strcmp nm str_EstimateRows = 0 ↔ i = e))
    (hp : p < s.colnames.length) (he : e < s.colnames.length)
    (hrows : ∀ r ∈ s.rows, r.ret_code = REG_ROW ∧ r.cells.length = s.colnames.length) :
    tdsGetRowCountShowPlanAll query s =
      .ok ⟨sumRootEstimates p e s.rows, [show_plan_query, query, show_plan_query_off]⟩ ∧
    ∀ x y : D, (tdsGetRowCountShowPlanAll query (examplePlan x y)).map Estimate.rows = .ok x := by
  constructor
  · obtain ⟨bs, hbs, hstore⟩ := bindPlanColumns_store (D := D) s.dbbind hbind p e s.colnames 0
      (fun i nm h => by rw [hP i nm h, Nat.zero_add])
      (fun i nm h => by rw [hE i nm h, Nat.zero_add])
    have hst : ∀ (cells : List (Cell D)) (v : PlanVars D),
        (storePlanVars bs cells v).parent = ((cells[p]?).map Cell.asInt).getD v.parent ∧
        (storePlanVars bs cells v).estimate_rows =
          ((cells[e]?).map Cell.asFlt8).getD v.estimate_rows := by
      intro cells v
      obtain ⟨h1, h2⟩ := hstore cells v
      rw [h1, h2, if_pos ⟨Nat.zero_le _, by omega⟩, if_pos ⟨Nat.zero_le _, by omega⟩]
      exact ⟨rfl, rfl⟩
    have hloop := planRowLoop_all_rows bs p e hst s.rows ⟨0, 0⟩ 0
      (fun r hr => ⟨(hrows r hr).1, by rw [(hrows r hr).2]; exact hp,
        by rw [(hrows r hr).2]; exact he⟩)
    have a1 : ¬ s.showplan_on.cmd = FAIL := hon.1
    have a2 : ¬ s.showplan_on.sqlexec = FAIL := hon.2.1
    have a3 : ¬ s.showplan_on.results = FAIL := hon.2.2
    have a4 : ¬ s.query.cmd = FAIL := hq.1
    have a5 : ¬ s.query.sqlexec = FAIL := hq.2.1
    have a6 : ¬ s.showplan_off.cmd = FAIL := hoff.1
    have a7 : ¬ s.showplan_off.sqlexec = FAIL := hoff.2.1
    have a8 : ¬ s.showplan_off.results = FAIL := hoff.2.2
    unfold tdsGetRowCountShowPlanAll
    rw [if_neg a1, if_neg a2, if_neg a3, if_neg a4, if_neg a5, hq.2.2, if_neg (by decide),
      if_neg (by decide), if_pos rfl, hbs]
    simp only [hloop]
    unfold cleanupAfterShowPlan
    rw [if_neg a6, if_neg a7, if_neg a8]
    rfl
  · intro x y
    simp [tdsGetRowCountShowPlanAll, examplePlan, bindPlanColumns, planRowLoop, storePlanVars,
      cleanupAfterShowPlan, strcmp, str_Parent, str_EstimateRows, Except.map]

/-- Witness for C9: the plan with the rows (Parent 0, estimate 5) and
(Parent 1, estimate 3) is estimated at 5. -/
theorem showplan_sums_root_estimates_witness :
    tdsGetRowCountShowPlanAll [113] (examplePlan (5 : Int) 3) =
      .ok ⟨5, [show_plan_query, [113], show_plan_query_off]⟩ :=
  (showplan_sums_root_estimates [113] (examplePlan (5 : Int) 3) 0 1
    (by decide) (by decide) (by decide) (fun _ => (by decide : SUCCEED ≠ FAIL))
    (fun i nm h => by
      match i, h with
      | 0, h => cases h; decide
      | 1, h => cases h; decide
      | _ + 2, h => simp [examplePlan] at h)
    (fun i nm h => by
      match i, h with
      | 0, h => cases h; decide
      | 1, h => cases h; decide
      | _ + 2, h => simp [examplePlan] at h)
    (by decide) (by decide) (by decide)).1

/-- Counterexample to C10: a count-style statement whose result has no rows is
estimated at `DBCOUNT` (here 7) by `tdsGetRowCountExecute`; a query without
results makes `tdsGetRowCountShowPlanAll` raise an error when the statement
that turns the plan mode off cannot be set; and a result without rows makes it
raise an error when `dbbind` fails for the column Parent, although the
statement that turns the plan mode off would succeed. -/
theorem zero_rows_can_estimate_nonzero :
    (match tdsGetRowCountExecute (D := Int) [113]
        ⟨⟨SUCCEED, SUCCEED, SUCCEED⟩, ⟨SUCCEED, SUCCEED, SUCCEED⟩, [], fun _ => SUCCEED, [],
          7, 1, ⟨SUCCEED, SUCCEED, SUCCEED⟩⟩ with
      | .ok r => some r.rows
      | .error _ => none) = some 7 ∧
    (match tdsGetRowCountShowPlanAll (D := Int) [113]
        ⟨⟨SUCCEED, SUCCEED, SUCCEED⟩, ⟨SUCCEED, SUCCEED, NO_MORE_RESULTS⟩, [], fun _ => SUCCEED,
          [], 0, 0, ⟨FAIL, SUCCEED, SUCCEED⟩⟩ with
      | .ok _ => none
      | .error err => some err) =
      some ⟨.FDW_UNABLE_TO_CREATE_EXECUTION, .failedSetQuery show_plan_query_off⟩ ∧
    (match tdsGetRowCountShowPlanAll (D := Int) [113]
        ⟨⟨SUCCEED, SUCCEED, SUCCEED⟩, ⟨SUCCEED, SUCCEED, SUCCEED⟩, [str_Parent, str_EstimateRows],
          fun _ => FAIL, [], 0, 0, ⟨SUCCEED, SUCCEED, SUCCEED⟩⟩ with
      | .ok _ => none
      | .error err => some err) =
      some ⟨.FDW_UNABLE_TO_CREATE_EXECUTION, .failedBind str_Parent⟩ := by
  refine ⟨?_, ?_, ?_⟩ <;> decide

/-- Claim C10, amended: when the query is set and executed and `dbresults`
reports `NO_MORE_RESULTS`, or reports `SUCCEED` for a result without rows,
`tdsGetRowCountExecute` raises no error and returns 0, except that for a
result without rows it returns `DBCOUNT` when `dbiscount` is non-zero.
`tdsGetRowCountShowPlanAll`, once the plan mode is on, returns 0 when the
statement that turns the plan mode off is set, executed and fetched and, for a
result without rows, `dbbind` fails for no column named Parent or
EstimateRows; it raises an error when one of those three steps fails, and it
raises the binding error when, for a result without rows, `dbbind` fails for
such a column. -/
theorem empty_result_estimate {D : Type} [Zero D] [Add D] [IntCast D] (query : CStr)
    (s : EstSession D)
    (hq : s.query.cmd ≠ FAIL ∧ s.query.sqlexec ≠ FAIL)
    (hempty : s.query.results = NO_MORE_RESULTS ∨ (s.query.results = SUCCEED ∧ s.rows = [])) :
    tdsGetRowCountExecute query s =
      .ok ⟨if s.query.results = SUCCEED ∧ s.dbiscount ≠ 0 then ((s.dbcount : Int) : D)
        else ((0 : Int) : D), [query]⟩ ∧
    (s.showplan_on.cmd ≠ FAIL → s.showplan_on.sqlexec ≠ FAIL → s.showplan_on.results ≠ FAIL →
      ((s.query.results = SUCCEED →
          ∀ (i : Nat) (nm : CStr), s.colnames[i]? = some nm →
            (strcmp nm str_Parent = 0 ∨ strcmp nm str_EstimateRows = 0) →
            s.dbbind (i + 1) ≠ FAIL) →
        (s.showplan_off.cmd ≠ FAIL ∧ s.showplan_off.sqlexec ≠ FAIL ∧
            s.showplan_off.results ≠ FAIL →
          tdsGetRowCountShowPlanAll query s =
            .ok ⟨0, [show_plan_query, query, show_plan_query_off]⟩) ∧
        (s.showplan_off.cmd = FAIL ∨ s.showplan_off.sqlexec = FAIL ∨
            s.showplan_off.results = FAIL →
          ∃ err, tdsGetRowCountShowPlanAll query s = .error err)) ∧
      (s.query.results = SUCCEED →
        (∃ (i : Nat) (nm : CStr), s.colnames[i]? = some nm ∧
          (strcmp nm str_Parent = 0 ∨ strcmp nm str_EstimateRows = 0) ∧
          s.dbbind (i + 1) = FAIL) →
        ∃ nm, tdsGetRowCountShowPlanAll query s =
          .error ⟨.FDW_UNABLE_TO_CREATE_EXECUTION, .failedBind nm⟩)) := by
  have a4 : ¬ s.query.cmd = FAIL := hq.1
  have a5 : ¬ s.query.sqlexec = FAIL := hq.2
  constructor
  · unfold tdsGetRowCountExecute
    rw [if_neg a4, if_neg a5]
    rcases hempty with h | ⟨h, hr⟩
    · rw [h, if_neg (by decide), if_pos rfl, if_neg (fun c => absurd c.1 (by decide))]
      rfl
    · rw [h, hr, if_neg (by decide), if_neg (by decide), if_pos rfl]
      simp only [countRowLoop, cleanupExecute, true_and]
      split <;> rfl
  · intro a1 a2 a3
    constructor
    · intro hbind
      have key : tdsGetRowCountShowPlanAll query s =
          cleanupAfterShowPlan s 0 [show_plan_query, query] := by
        unfold tdsGetRowCountShowPlanAll
        rw [if_neg a1, if_neg a2, if_neg a3, if_neg a4, if_neg a5]
        rcases hempty with h | ⟨h, hr⟩
        · rw [h, if_neg (by decide), if_pos rfl]
        · obtain ⟨bs, hbs⟩ := bindPlanColumns_ok_of_named s.dbbind s.colnames 0
            (fun i nm hi hn => by
              have := hbind h i nm hi hn
              rw [Nat.zero_add]; exact this)
          rw [h, hr, if_neg (by decide), if_neg (by decide), if_pos rfl, hbs]
          rfl
      rw [key]
      unfold cleanupAfterShowPlan
      constructor
      · rintro ⟨b1, b2, b3⟩
        rw [if_neg b1, if_neg b2, if_neg b3]
        rfl
      · intro h
        by_cases b1 : s.showplan_off.cmd = FAIL
        · rw [if_pos b1]; exact ⟨_, rfl⟩
        · rw [if_neg b1]
          by_cases b2 : s.showplan_off.sqlexec = FAIL
          · rw [if_pos b2]; exact ⟨_, rfl⟩
          · rw [if_neg b2]
            have b3 : s.showplan_off.results = FAIL := by
              rcases h with h | h | h
              · exact absurd h b1
              · exact absurd h b2
              · exact h
            rw [if_pos b3]; exact ⟨_, rfl⟩
    · intro h hfail
      obtain ⟨nm, hnm⟩ := bindPlanColumns_error_of_named s.dbbind s.colnames 0
        (by
          obtain ⟨i, n, hi, hn, hf⟩ := hfail
          exact ⟨i, n, hi, hn, by rw [Nat.zero_add]; exact hf⟩)
      refine ⟨nm, ?_⟩
      unfold tdsGetRowCountShowPlanAll
      rw [if_neg a1, if_neg a2, if_neg a3, if_neg a4, if_neg a5, h, if_neg (by decide),
        if_neg (by decide), if_pos rfl, hnm]

/-- Witness for C10, amended: for the session whose query has no results both
estimators return 0. -/
theorem empty_result_estimate_witness :
    tdsGetRowCountExecute [113] emptySession = .ok ⟨0, [[113]]⟩ ∧
    tdsGetRowCountShowPlanAll [113] emptySession =
      .ok ⟨0, [show_plan_query, [113], show_plan_query_off]⟩ :=
  have h := empty_result_estimate [113] emptySession (by decide) (Or.inl rfl)
  ⟨h.1, ((h.2 (by decide) (by decide) (by decide)).1
    (fun hs => absurd hs (by decide))).1 (by decide)⟩

/-! ## Estimator failures and the startup cost (claims C11 and C12) -/

/-- Claim C11: in both estimators a failure to set the query, to execute it or
to fetch its results, and a `dbnextrow` that returns `FAIL`, `BUF_FULL` or an
unknown code after rows that were delivered, raise an error, so that no
estimate is returned; `tdsGetRowCountShowPlanAll`, once the plan mode is on
and the columns are bound, raises the same error as `tdsGetRowCountExecute`,
and it also raises an error when the statement that turns the plan mode on
fails. -/
theorem session_failure_aborts_both_estimators {D : Type} [Zero D] [Add D] [IntCast D]
    (query : CStr) (s : EstSession D) :
    (∀ e : TdsError,
      ((s.query.cmd = FAIL ∧ e = ⟨.FDW_UNABLE_TO_CREATE_EXECUTION, .failedSetQuery query⟩) ∨
       (s.query.cmd ≠ FAIL ∧ s.query.sqlexec = FAIL ∧
          e = ⟨.FDW_UNABLE_TO_CREATE_EXECUTION, .failedExecQuery query⟩) ∨
       (s.query.cmd ≠ FAIL ∧ s.query.sqlexec ≠ FAIL ∧ s.query.results = FAIL ∧
          e = ⟨.FDW_UNABLE_TO_CREATE_EXECUTION, .failedGetResults query⟩)) →
      tdsGetRowCountExecute query s = .error e ∧
      (s.showplan_on.cmd ≠ FAIL → s.showplan_on.sqlexec ≠ FAIL → s.showplan_on.results ≠ FAIL →
        tdsGetRowCountShowPlanAll query s = .error e)) ∧
    (∀ (pre post : List (EstRow D)) (bad : EstRow D) (e : TdsError),
      s.query.cmd ≠ FAIL → s.query.sqlexec ≠ FAIL → s.query.results = SUCCEED →
      s.rows = pre ++ bad :: post → (∀ r ∈ pre, r.ret_code = REG_ROW) →
      ((bad.ret_code = BUF_FULL ∧ e = ⟨.FDW_OUT_OF_MEMORY, .planBufferFull⟩) ∨
       (bad.ret_code = FAIL ∧ e = ⟨.FDW_UNABLE_TO_CREATE_EXECUTION, .planRowFailed⟩) ∨
       (bad.ret_code ≠ REG_ROW ∧ bad.ret_code ≠ NO_MORE_ROWS ∧ bad.ret_code ≠ BUF_FULL ∧
          bad.ret_code ≠ FAIL ∧ e = ⟨.FDW_UNABLE_TO_CREATE_EXECUTION, .planUnknownCode⟩)) →
      tdsGetRowCountExecute query s = .error e ∧
      (s.showplan_on.cmd ≠ FAIL → s.showplan_on.sqlexec ≠ FAIL → s.showplan_on.results ≠ FAIL →
        (∀ n, s.dbbind n ≠ FAIL) → tdsGetRowCountShowPlanAll query s = .error e)) ∧
    (s.showplan_on.cmd = FAIL ∨ s.showplan_on.sqlexec = FAIL ∨ s.showplan_on.results = FAIL →
      ∃ e, tdsGetRowCountShowPlanAll query s = .error e) := by
  refine ⟨?_, ?_, ?_⟩
  · intro e he
    rcases he with ⟨h1, rfl⟩ | ⟨h1, h2, rfl⟩ | ⟨h1, h2, h3, rfl⟩
    · refine ⟨by unfold tdsGetRowCountExecute; rw [if_pos h1], ?_⟩
      intro a1 a2 a3
      unfold tdsGetRowCountShowPlanAll
      rw [if_neg a1, if_neg a2, if_neg a3, if_pos h1]
    · refine ⟨by unfold tdsGetRowCountExecute; rw [if_neg h1, if_pos h2], ?_⟩
      intro a1 a2 a3
      unfold tdsGetRowCountShowPlanAll
      rw [if_neg a1, if_neg a2, if_neg a3, if_neg h1, if_pos h2]
    · refine ⟨by unfold tdsGetRowCountExecute; rw [if_neg h1, if_neg h2, if_pos h3], ?_⟩
      intro a1 a2 a3
      unfold tdsGetRowCountShowPlanAll
      rw [if_neg a1, if_neg a2, if_neg a3, if_neg h1, if_neg h2, if_pos h3]
  · intro pre post bad e h1 h2 h3 hrows hpre he
    have hbad : bad.ret_code ≠ REG_ROW ∧ bad.ret_code ≠ NO_MORE_ROWS ∧
        e = rowFetchError bad.ret_code := by
      rcases he with ⟨hb, rfl⟩ | ⟨hb, rfl⟩ | ⟨hb1, hb2, hb3, hb4, rfl⟩
      · rw [hb]; exact ⟨by decide, by decide, rfl⟩
      · rw [hb]; exact ⟨by decide, by decide, rfl⟩
      · refine ⟨hb1, hb2, ?_⟩
        unfold rowFetchError
        rw [if_neg hb3, if_neg hb4]
    obtain ⟨hb1, hb2, rfl⟩ := hbad
    constructor
    · unfold tdsGetRowCountExecute
      rw [if_neg h1, if_neg h2, h3, if_neg (by decide), if_neg (by decide), if_pos rfl, hrows,
        countRowLoop_fail pre bad post 0 hpre hb1 hb2]
    · intro a1 a2 a3 hbind
      obtain ⟨bs, hbs⟩ := bindPlanColumns_ok s.dbbind hbind s.colnames 0
      unfold tdsGetRowCountShowPlanAll
      rw [if_neg a1, if_neg a2, if_neg a3, if_neg h1, if_neg h2, h3, if_neg (by decide),
        if_neg (by decide), if_pos rfl, hbs, hrows]
      simp only [planRowLoop_fail bs pre bad post _ _ hpre hb1 hb2]
  · intro h
    unfold tdsGetRowCountShowPlanAll
    by_cases b1 : s.showplan_on.cmd = FAIL
    · rw [if_pos b1]; exact ⟨_, rfl⟩
    · rw [if_neg b1]
      by_cases b2 : s.showplan_on.sqlexec = FAIL
      · rw [if_pos b2]; exact ⟨_, rfl⟩
      · rw [if_neg b2]
        have b3 : s.showplan_on.results = FAIL := by
          rcases h with h | h | h
          · exact absurd h b1
          · exact absurd h b2
          · exact h
        rw [if_pos b3]; exact ⟨_, rfl⟩

/-- Claim C12: `tdsGetStartupCost` returns 0 when the server name is exactly
"127.0.0.1" or exactly "localhost", and 25 for every other server name, such
as "dbhost.example.com"; 25 is greater than the cost of a local server. -/
theorem startup_cost_local_or_remote (servername : CStr) :
    (cbytes servername = str_loopback ∨ cbytes servername = str_localhost →
      tdsGetStartupCost servername = 0) ∧
    (¬ (cbytes servername = str_loopback ∨ cbytes servername = str_localhost) →
      tdsGetStartupCost servername = 25) ∧
    tdsGetStartupCost str_loopback = 0 ∧ tdsGetStartupCost str_localhost = 0 ∧
    tdsGetStartupCost str_dbhost = 25 ∧
    tdsGetStartupCost str_localhost < tdsGetStartupCost str_dbhost := by
  have e1 : cbytes str_loopback = str_loopback := by decide
  have e2 : cbytes str_localhost = str_localhost := by decide
  have key : (strcmp servername str_loopback = 0 ∨ strcmp servername str_localhost = 0) ↔
      (cbytes servername = str_loopback ∨ cbytes servername = str_localhost) := by
    rw [strcmp_eq_zero_iff, strcmp_eq_zero_iff, e1, e2]
  refine ⟨?_, ?_, by decide, by decide, by decide, by decide⟩
  · intro h
    unfold tdsGetStartupCost
    rw [if_pos (key.mpr h)]
  · intro h
    unfold tdsGetStartupCost
    rw [if_neg (fun c => h (key.mp c))]

/-! ## Positional plans, unmatched columns and rescans (claims C13 to C16) -/

/-- Claim C13: with `match_column_names` off and equal column counts planning
returns one column per source column, column `i` carries the name and wire
type of source column `i` and `local_index` `i`, every target column is the
`local_index` of some column, and no warning is reported. -/
theorem positional_plan_is_identity (b : Build) (src : List SrcCol) (attrs : List Attr)
    (mem : Palloc) (h : src.length = attrs.length) :
    ∃ p, tdsGetColumnMetadata b false src attrs mem = .ok p ∧
      p.columns.length = src.length ∧
      (∀ (i : Nat) (s : SrcCol), src[i]? = some s →
        ∃ c, p.columns[i]? = some c ∧ c.local_index = (i : Int) ∧ c.name = s.name ∧
          c.srctype = s.coltype) ∧
      (∀ j : Nat, j < attrs.length → ∃ c ∈ p.columns, c.local_index = (j : Int)) ∧
      p.warnings = [] := by
  have hcol : ∀ (i : Nat) (s : SrcCol), src[i]? = some s →
      ∃ c, (planColumns b false attrs mem.columns 0 src []).1[i]? = some c ∧
        c.local_index = (i : Int) ∧ c.name = s.name ∧ c.srctype = s.coltype := by
    intro i s hi
    refine ⟨(planColumn b false attrs (mem.columns (0 + i)) (0 + i) s []).1, ?_, ?_, ?_, ?_⟩
    · simp [planColumns_getElem?, hi]
    · rw [planColumn_positional]; simp
    · rw [planColumn_positional]
    · rw [planColumn_positional]
  refine ⟨_, tdsGetColumnMetadata_positional b src attrs mem h, planColumns_length .., hcol, ?_,
    planColumns_positional_warnings ..⟩
  intro j hj
  have hjs : j < src.length := by omega
  obtain ⟨c, hc, hl, -, -⟩ := hcol j src[j] (List.getElem?_eq_getElem hjs)
  exact ⟨c, List.getElem?_mem hc, hl⟩

/-- Witness for C13: a result with the columns `id` and `name`, planned by
position against the sample table, has its second column bound to target
column 1. -/
theorem positional_plan_is_identity_witness :
    ∃ p, tdsGetColumnMetadata sampleBuild false [⟨str_id, SYBINT4⟩, ⟨str_name, SYBVARCHAR⟩]
        sampleAttrs sampleMem = .ok p ∧
      ∃ c, p.columns[1]? = some c ∧ c.local_index = 1 ∧ c.name = str_name ∧
        c.srctype = SYBVARCHAR := by
  obtain ⟨p, hp, -, hcol, -, -⟩ := positional_plan_is_identity sampleBuild
    [⟨str_id, SYBINT4⟩, ⟨str_name, SYBVARCHAR⟩] sampleAttrs sampleMem rfl
  exact ⟨p, hp, hcol 1 ⟨str_name, SYBVARCHAR⟩ rfl⟩

/-- Claim C14: with `match_column_names` on, planning returns for every source
column list and target table; a source column whose name agrees with no
target name gets `local_index` -1 and exactly one warning, under its own
name; the binding loop leaves such a column alone, and the decoding step
leaves `datums` and `isnull` as they are. -/
theorem unmatched_source_column_is_skipped (b : Build) (src : List SrcCol) (attrs : List Attr)
    (mem : Palloc) :
    ∃ p, tdsGetColumnMetadata b true src attrs mem = .ok p ∧
      ∀ (i : Nat) (s : SrcCol), src[i]? = some s →
        (∀ a ∈ attrs, ¬ eqUpTo b.NAMEDATALEN a.attname s.name) →
        ∃ c, p.columns[i]? = some c ∧ c.local_index = -1 ∧
          (∀ nm, p.warnings.count (Warning.sourceColumnIgnored i nm) =
            if nm = s.name then 1 else 0) ∧
          (∀ dbbind_rc, bindColumn b dbbind_rc c = .ok (c, none)) ∧
          (∀ lib raw buf, decodeColumn b lib c raw buf = .ok buf) := by
  refine ⟨_, tdsGetColumnMetadata_by_name b src attrs mem, ?_⟩
  intro i s hi hno
  have hm : matchLocalColumn b.NAMEDATALEN s.name attrs 0 = none := by
    rw [matchLocalColumn_none]
    intro a ha hz
    exact hno a ha ((strncmp_eq_zero_iff _ _ _).mp hz)
  have hl : (planColumn b true attrs (mem.columns (0 + i)) (0 + i) s []).1.local_index = -1 := by
    rw [planColumn_local_index, hm]
  refine ⟨(planColumn b true attrs (mem.columns (0 + i)) (0 + i) s []).1, ?_, hl, ?_, ?_, ?_⟩
  · simp [planColumns_getElem?, hi]
  · intro nm
    show List.count _ (_ ++ _) = _
    rw [List.count_append, List.count_eq_zero.mpr (forceNullLoop_no_ignored _ _ _ _ _ _),
      planColumns_count_ignored, Nat.add_zero]
    by_cases hn : nm = s.name
    · subst hn
      rw [if_pos rfl, if_pos ⟨Nat.zero_le _, by simp [hi], hm⟩]
    · rw [if_neg hn, if_neg]
      rintro ⟨_, h, _⟩
      simp [hi] at h
      exact hn h.symm
  · intro rc
    exact bindColumn_skip b rc _ hl
  · intro lib raw buf
    exact decodeColumn_skip b lib _ raw buf hl

/-- Witness for C14: the source column `x` of the sample result matches no
column of the sample table; it is planned with `local_index` -1 and one
warning. -/
theorem unmatched_source_column_is_skipped_witness :
    ∃ p c, tdsGetColumnMetadata sampleBuild true sampleSrc sampleAttrs sampleMem = .ok p ∧
      p.columns[2]? = some c ∧ c.local_index = -1 ∧
      p.warnings.count (Warning.sourceColumnIgnored 2 str_x) = 1 := by
  obtain ⟨p, hp, hall⟩ :=
    unmatched_source_column_is_skipped sampleBuild sampleSrc sampleAttrs sampleMem
  obtain ⟨c, hc, hl, hw, -, -⟩ := hall 2 ⟨str_x, SYBINT4⟩ rfl (by decide)
  exact ⟨p, c, hp, hc, hl, by rw [hw str_x]; rfl⟩

/-- Counterexample to C15: after the first row of the sample scan is fetched
and `tdsReScanForeignScan` is called, `festate->first` is still 0 and the next
fetch delivers the second row of the same result, not the first row of a new
one. -/
theorem rescan_does_not_restart :
    (match tdsIterateForeignScan sampleBuild sampleLib true [⟨str_id, INT4OID⟩] sampleMem
        sampleFestate sampleDbproc with
      | .error _ => none
      | .ok r1 =>
          match tdsIterateForeignScan sampleBuild sampleLib true [⟨str_id, INT4OID⟩] sampleMem
              (tdsReScanForeignScan r1.festate r1.dbproc).1
              (tdsReScanForeignScan r1.festate r1.dbproc).2 with
          | .error _ => none
          | .ok r2 =>
              some (r1.slot, (tdsReScanForeignScan r1.festate r1.dbproc).1.first, r2.slot)) =
    some (some [some (.word 1)], false, some [some (.word 2)]) := by
  decide

/-- Claim C15, amended: `tdsReScanForeignScan` leaves the execution state and
the connection as they are; after any row fetch that returned, `festate->first`
is 0, so the row fetch that follows a rescan does not set or execute the
query and does not plan or bind columns: it is the `dbnextrow` step on the
columns, bindings and cursor position that the previous fetch left. -/
theorem rescan_keeps_scan_state (b : Build) (lib : Lib) (match_column_names : Bool)
    (attrs : List Attr) (mem : Palloc) (festate : Festate) (dbproc : DBPROCESS) (r : IterResult)
    (h : tdsIterateForeignScan b lib match_column_names attrs mem festate dbproc = .ok r) :
    tdsReScanForeignScan r.festate r.dbproc = (r.festate, r.dbproc) ∧
    r.festate.first = false ∧
    ∀ (m2 : Bool) (attrs2 : List Attr) (mem2 : Palloc),
      tdsIterateForeignScan b lib m2 attrs2 mem2
        (tdsReScanForeignScan r.festate r.dbproc).1 (tdsReScanForeignScan r.festate r.dbproc).2 =
      fetchRow b lib r.festate r.dbproc [] := by
  have hf := iterate_first b lib match_column_names attrs mem festate dbproc r h
  refine ⟨rfl, hf, ?_⟩
  intro m2 attrs2 mem2
  show tdsIterateForeignScan b lib m2 attrs2 mem2 r.festate r.dbproc = _
  unfold tdsIterateForeignScan
  rw [if_neg (by simp [hf])]

/-- Witness for C15, amended: after the first fetch of the sample scan the
rescan changes nothing and `festate->first` is 0. -/
theorem rescan_keeps_scan_state_witness :
    ∃ r, tdsIterateForeignScan sampleBuild sampleLib true [⟨str_id, INT4OID⟩] sampleMem
        sampleFestate sampleDbproc = .ok r ∧
      tdsReScanForeignScan r.festate r.dbproc = (r.festate, r.dbproc) ∧
      r.festate.first = false := by
  cases h : tdsIterateForeignScan sampleBuild sampleLib true [⟨str_id, INT4OID⟩] sampleMem
      sampleFestate sampleDbproc with
  | error e =>
    have hok : (match tdsIterateForeignScan sampleBuild sampleLib true [⟨str_id, INT4OID⟩]
        sampleMem sampleFestate sampleDbproc with
      | .ok _ => true
      | .error _ => false) = true := by decide
    rw [h] at hok
    exact absurd hok (by simp)
  | ok r =>
    have hr := rescan_keeps_scan_state sampleBuild sampleLib true [⟨str_id, INT4OID⟩] sampleMem
      sampleFestate sampleDbproc r h
    exact ⟨r, rfl, hr.1, hr.2.1⟩

/-- Claim C16: on the first row fetch with `match_column_names` off and a
result whose column count differs from the target table's, the call ends in
an error raised by the first-call block, whatever `dbnextrow` would answer;
when the query is set and executed and `dbresults` succeeds, the error is the
table definition mismatch. -/
theorem column_count_mismatch_before_fetch (b : Build) (lib : Lib) (attrs : List Attr)
    (mem : Palloc) (festate : Festate) (dbproc : DBPROCESS)
    (hfirst : festate.first = true) (hne : dbproc.cols.length ≠ attrs.length) :
    (∃ e, firstIteration b false attrs mem festate dbproc = .error e ∧
      ∀ rows, tdsIterateForeignScan b lib false attrs mem festate { dbproc with rows := rows } =
        .error e) ∧
    (dbproc.cmd ≠ FAIL → dbproc.sqlexec ≠ FAIL → dbproc.results = SUCCEED →
      ∀ rows, tdsIterateForeignScan b lib false attrs mem festate { dbproc with rows := rows } =
        .error ⟨.FDW_INCONSISTENT_DESCRIPTOR_INFORMATION,
          .tableDefinitionMismatch dbproc.cols.length attrs.length⟩) := by
  have hplan : tdsGetColumnMetadata b false dbproc.cols attrs mem =
      .error ⟨.FDW_INCONSISTENT_DESCRIPTOR_INFORMATION,
        .tableDefinitionMismatch dbproc.cols.length attrs.length⟩ := by
    simp [tdsGetColumnMetadata, hne]
  have hrows : ∀ rows, firstIteration b false attrs mem festate { dbproc with rows := rows } =
      firstIteration b false attrs mem festate dbproc := by
    intro rows
    simp only [firstIteration, hplan]
  have hiter : ∀ e, firstIteration b false attrs mem festate dbproc = .error e →
      ∀ rows, tdsIterateForeignScan b lib false attrs mem festate { dbproc with rows := rows } =
        .error e := by
    intro e he rows
    unfold tdsIterateForeignScan
    rw [if_pos hfirst, hrows rows, he]
  constructor
  · have : ∃ e, firstIteration b false attrs mem festate dbproc = .error e := by
      unfold firstIteration
      rw [hplan]
      split
      · exact ⟨_, rfl⟩
      · split
        · exact ⟨_, rfl⟩
        · split
          · exact ⟨_, rfl⟩
          · split
            · exact ⟨_, rfl⟩
            · split <;> exact ⟨_, rfl⟩
    obtain ⟨e, he⟩ := this
    exact ⟨e, he, hiter e he⟩
  · intro h1 h2 h3
    apply hiter
    unfold firstIteration
    rw [if_neg h1, if_neg h2, h3, if_neg (by decide), if_neg (by decide), if_pos rfl, hplan]

/-- Witness for C16: the sample result has one column and the sample table
two, so the first fetch by position ends in the mismatch error. -/
theorem column_count_mismatch_before_fetch_witness :
    tdsIterateForeignScan sampleBuild sampleLib false sampleAttrs sampleMem sampleFestate
      { sampleDbproc with rows := [] } =
      .error ⟨.FDW_INCONSISTENT_DESCRIPTOR_INFORMATION, .tableDefinitionMismatch 1 2⟩ :=
  (column_count_mismatch_before_fetch sampleBuild sampleLib sampleAttrs sampleMem sampleFestate
    sampleDbproc rfl (by decide)).2 (by decide) (by decide) rfl []

/-! ## FastBind selection and forced nulls (claims C17 to C20) -/

/-- Claim C18, at a failing input: with `match_column_names` off, a `SYBINT4`
column over an `int4` target is planned without `useraw` when the fresh
column memory holds 0 in `attr_oid`, and with `useraw` when it holds the
OID of `int4`; and a `SYBVARCHAR` column over an `int4` target is planned
with `useraw` when the fresh memory holds the OID of `text`. -/
theorem positional_mode_reads_unset_attr_oid :
    (match firstIteration sampleBuild false [⟨str_id, INT4OID⟩] sampleMem sampleFestate
        sampleDbproc with
      | .ok r => some (r.1.columns.map COL.useraw)
      | .error _ => none) = some [false] ∧
    (match firstIteration sampleBuild false [⟨str_id, INT4OID⟩]
        { sampleMem with columns := fun _ => ⟨[], 0, false, .dbint 0, 0, INT4OID⟩ } sampleFestate
        sampleDbproc with
      | .ok r => some (r.1.columns.map COL.useraw)
      | .error _ => none) = some [true] ∧
    (match firstIteration sampleBuild false [⟨str_id, INT4OID⟩]
        { sampleMem with columns := fun _ => ⟨[], 0, false, .dbint 0, 0, TEXTOID⟩ } sampleFestate
        { sampleDbproc with cols := [⟨str_id, SYBVARCHAR⟩] } with
      | .ok r => some (r.1.columns.map COL.useraw)
      | .error _ => none) = some [true] := by
  refine ⟨?_, ?_, ?_⟩ <;> decide

/-- Claim C19: in a scan with `match_column_names` on, a target column `j` to
which the plan binds no source column is NULL in every row the scan produces,
however many rows are fetched: decoding does not write its null flag. -/
theorem forced_null_stays_null (b : Build) (lib : Lib) (attrs : List Attr) (mem : Palloc)
    (festate : Festate) (dbproc : DBPROCESS) (m : ColumnMetadata) (j : Nat)
    (hfirst : festate.first = true) (hj : j < attrs.length)
    (hplan : tdsGetColumnMetadata b true dbproc.cols attrs mem = .ok m)
    (hunbound : ∀ c ∈ m.columns, c.local_index ≠ (j : Int)) :
    ∀ (n : Nat) (rows : List (List (Option Datum))),
      scanRows b lib true attrs mem n festate dbproc = .ok rows →
      ∀ t ∈ rows, t[j]? = some none := by
  intro n rows h
  cases n with
  | zero =>
    simp only [scanRows] at h
    injection h with h; subst h
    intro t ht; exact absurd ht (by simp)
  | succ n =>
    simp only [scanRows] at h
    unfold tdsIterateForeignScan at h
    rw [if_pos hfirst] at h
    cases hfi : firstIteration b true attrs mem festate dbproc with
    | error e => rw [hfi] at h; exact absurd h (by simp)
    | ok p =>
      obtain ⟨f1, d1, w⟩ := p
      rw [hfi] at h
      simp only [] at h
      have hinv := firstIteration_nullKept b attrs mem festate dbproc m j hj hplan hunbound
        f1 d1 w hfi
      cases hfr : fetchRow b lib f1 d1 w with
      | error e => rw [hfr] at h; exact absurd h (by simp)
      | ok r =>
        rw [hfr] at h
        simp only [] at h
        obtain ⟨hinv2, hslot⟩ := fetchRow_nullKept b lib f1 d1 w r j hinv hfr
        cases hs : r.slot with
        | none =>
          rw [hs] at h
          injection h with h; subst h
          intro t ht; exact absurd ht (by simp)
        | some tuple =>
          rw [hs] at h
          simp only [] at h
          cases hrest : scanRows b lib true attrs mem n r.festate r.dbproc with
          | error e => rw [hrest] at h; exact absurd h (by simp)
          | ok tuples =>
            rw [hrest] at h
            injection h with h; subst h
            intro t ht
            rcases List.mem_cons.mp ht with rfl | ht
            · exact hslot _ hs
            · exact scanRows_nullKept b lib true attrs mem j n r.festate r.dbproc tuples
                hinv2 hrest t ht

/-- Witness for C19: the sample scan over the table `(id int4, name text)`
has no source column for `name`; its two rows carry the bound `id` and NULL
for `name`. -/
theorem forced_null_stays_null_witness :
    scanRows sampleBuild sampleLib true sampleAttrs sampleMem 5 sampleFestate sampleDbproc =
      .ok [[some (.word 1), none], [some (.word 2), none]] ∧
    ∀ t ∈ [[some (Datum.word 1), none], [some (Datum.word 2), none]], t[1]? = some none :=
  ⟨rfl, forced_null_stays_null sampleBuild sampleLib sampleAttrs sampleMem sampleFestate
    sampleDbproc
    ⟨[⟨str_id, SYBINT4, false, .dbint 0, 0, INT4OID⟩], [.word 0, .word 0], [false, true],
      [.localColumnUnmatched 1 str_name]⟩ 1 rfl (by decide) rfl (by decide) 5 _ rfl⟩

/-- Claim C20: a column bound to a target column that the binding loop marks
`useraw` has a recorded target type that is one of the cases of the decoder's
`switch`, so whatever value `dbnextrow` stores in it the `switch` does not end
in the error of its `default` branch. -/
theorem useraw_never_hits_default (b : Build) (column c : COL) (dbbind_rc : Int)
    (bt : Option BindType) (hb : column.local_index ≠ -1)
    (h : bindColumn b dbbind_rc column = .ok (c, bt)) (hu : c.useraw = true) :
    (c.attr_oid = INT2OID ∨ c.attr_oid = INT4OID ∨ c.attr_oid = INT8OID ∨
      c.attr_oid = FLOAT4OID ∨ c.attr_oid = FLOAT8OID ∨ c.attr_oid = TEXTOID ∨
      c.attr_oid = BYTEAOID ∨ (90400 ≤ b.PG_VERSION_NUM ∧ c.attr_oid = TIMESTAMPOID)) ∧
    ∀ (lib : Lib) (raw : RawCol) (v : ColValue) (nm : CStr),
      userawDatum b lib { c with value := v } raw ≠ .error ⟨.FDW_ERROR, .userawWrongType nm⟩ := by
  obtain ⟨h1, h2, h3, h4, h5, h6⟩ := bindColumn_ok b dbbind_rc column c bt hb h
  have hoid : c.attr_oid = INT2OID ∨ c.attr_oid = INT4OID ∨ c.attr_oid = INT8OID ∨
      c.attr_oid = FLOAT4OID ∨ c.attr_oid = FLOAT8OID ∨ c.attr_oid = TEXTOID ∨
      c.attr_oid = BYTEAOID ∨ (90400 ≤ b.PG_VERSION_NUM ∧ c.attr_oid = TIMESTAMPOID) := by
    rw [h5]
    rcases h6.mp hu with q | q | q | q | q | q | q | q
    · exact Or.inl q.2
    · exact Or.inr (Or.inl q.2)
    · exact Or.inr (Or.inr (Or.inl q.2))
    · exact Or.inr (Or.inr (Or.inr (Or.inl q.2)))
    · exact Or.inr (Or.inr (Or.inr (Or.inr (Or.inl q.2))))
    · exact Or.inr (Or.inr (Or.inr (Or.inr (Or.inr (Or.inl q.2)))))
    · exact Or.inr (Or.inr (Or.inr (Or.inr (Or.inr (Or.inr (Or.inl q.2))))))
    · exact Or.inr (Or.inr (Or.inr (Or.inr (Or.inr (Or.inr (Or.inr ⟨q.1, q.2.2⟩))))))
  refine ⟨hoid, ?_⟩
  intro lib raw v nm
  unfold userawDatum
  simp only []
  rcases hoid with q | q | q | q | q | q | q | q
  · rw [q, if_pos rfl]; simp
  · rw [q, if_neg (by decide), if_pos rfl]; simp
  · rw [q, if_neg (by decide), if_neg (by decide), if_pos rfl]; simp
  · rw [q, if_neg (by decide), if_neg (by decide), if_neg (by decide), if_pos rfl]; simp
  · rw [q, if_neg (by decide), if_neg (by decide), if_neg (by decide), if_neg (by decide),
      if_pos rfl]; simp
  · rw [q, if_neg (by decide), if_neg (by decide), if_neg (by decide), if_neg (by decide),
      if_neg (by decide), if_pos rfl]
    cases raw.src <;> simp
  · rw [q, if_neg (by decide), if_neg (by decide), if_neg (by decide), if_neg (by decide),
      if_neg (by decide), if_neg (by decide), if_pos rfl]
    cases raw.src <;> simp
  · rw [q.2, if_neg (by decide), if_neg (by decide), if_neg (by decide), if_neg (by decide),
      if_neg (by decide), if_neg (by decide), if_neg (by decide), if_pos ⟨q.1, rfl⟩]
    split
    · split <;> simp
    · simp

/-- Witness for C20: the sample column is marked `useraw` and its recorded
target type is the `int4` case of the decoder's `switch`. -/
theorem useraw_never_hits_default_witness :
    sampleColumn.attr_oid = INT4OID ∧
    userawDatum sampleBuild sampleLib { sampleColumn with useraw := true, value := .dbint 7 }
      ⟨4, some [7, 0, 0, 0], 7, 0⟩ ≠ .error ⟨.FDW_ERROR, .userawWrongType str_id⟩ :=
  ⟨rfl, (useraw_never_hits_default sampleBuild sampleColumn { sampleColumn with useraw := true }
    SUCCEED (some .INTBIND) (by decide) rfl rfl).2 sampleLib
      ⟨4, some [7, 0, 0, 0], 7, 0⟩ (.dbint 7) str_id⟩


/-! ## Raw text and binary values, and the conversion to a C string (claims C21 to C23) -/

/-- Claim C21: for a bound column in raw mode whose target type is `text` or
`bytea`, and a row value with a present pointer and length `n`, the decoding
step stores a value whose payload is the first `n` bytes at the pointer, as
they are, and clears the null flag; the payload has length `n`, so a value of
length 0 with a present pointer becomes an empty value that is not NULL. -/
theorem fastbind_text_bytea_moves_bytes (b : Build) (lib : Lib) (column : COL) (raw : RawCol)
    (buf : RowBuf) (bytes : List Nat) (n : Nat)
    (hb : column.local_index ≠ -1) (hu : column.useraw = true)
    (hoid : column.attr_oid = TEXTOID ∨ column.attr_oid = BYTEAOID)
    (hsrc : raw.src = some bytes) (hlen : raw.srclen = (n : Int)) (hn : n ≤ bytes.length) :
    (bytes.take n).length = n ∧
    decodeColumn b lib column raw buf = .ok
      ⟨buf.datums.set column.local_index.toNat
          (if column.attr_oid = TEXTOID then .text (bytes.take n) else .bytea (bytes.take n)),
        buf.isnull.set column.local_index.toNat false⟩ := by
  refine ⟨by simp [hn], ?_⟩
  have hnn : ¬ (raw.srclen = 0 ∧ raw.src = none) := by
    rw [hsrc]; exact fun h => absurd h.2 (by simp)
  have hsome : ¬ (raw.src = none) := by rw [hsrc]; simp
  rcases hoid with ho | ho
  · have hd : userawDatum b lib column raw = .ok (.text (bytes.take n)) := by
      simp [userawDatum, ho, hsrc, hlen]
    unfold decodeColumn
    rw [if_neg hb]
    simp only []
    rw [if_neg hnn, if_neg hsome, if_pos hu, hd, if_pos ho]
  · have hd : userawDatum b lib column raw = .ok (.bytea (bytes.take n)) := by
      simp [userawDatum, ho, hsrc, hlen]
    have hne : ¬ (column.attr_oid = TEXTOID) := by rw [ho]; decide
    unfold decodeColumn
    rw [if_neg hb]
    simp only []
    rw [if_neg hnn, if_neg hsome, if_pos hu, hd, if_neg hne]

/-- Witness for C21: a `text` column takes the two bytes of "hi" as they are,
and a `bytea` column with a present pointer and length 0 gets an empty value
that is not NULL. -/
theorem fastbind_text_bytea_moves_bytes_witness :
    decodeColumn sampleBuild sampleLib ⟨str_name, SYBVARCHAR, true, .dbint 0, 1, TEXTOID⟩
        ⟨2, some [104, 105], 0, 0⟩ ⟨[.word 0, .word 0], [true, true]⟩ =
      .ok ⟨[.word 0, .text [104, 105]], [true, false]⟩ ∧
    decodeColumn sampleBuild sampleLib ⟨str_x, SYBIMAGE, true, .dbint 0, 0, BYTEAOID⟩
        ⟨0, some [], 0, 0⟩ ⟨[.word 0], [true]⟩ =
      .ok ⟨[.bytea []], [false]⟩ :=
  ⟨(fastbind_text_bytea_moves_bytes sampleBuild sampleLib
      ⟨str_name, SYBVARCHAR, true, .dbint 0, 1, TEXTOID⟩ ⟨2, some [104, 105], 0, 0⟩
      ⟨[.word 0, .word 0], [true, true]⟩ [104, 105] 2 (by decide) rfl (Or.inl rfl) rfl rfl
      (by decide)).2,
   (fastbind_text_bytea_moves_bytes sampleBuild sampleLib
      ⟨str_x, SYBIMAGE, true, .dbint 0, 0, BYTEAOID⟩ ⟨0, some [], 0, 0⟩
      ⟨[.word 0], [true]⟩ [] 0 (by decide) rfl (Or.inr rfl) rfl rfl (by decide)).2⟩

/-- Counterexample for C22: for `SYBDATETIME` in a build for PostgreSQL 9.4
whose date cracking succeeds, the result is the 19 bytes of the timestamp's
text and `dbconvert` is not used, not a conversion into a 1000-byte buffer; and
for the binary wire type `SYBIMAGE` with 3 bytes the destination is the
1000-byte character buffer, not a binary one of 3 bytes. -/
theorem datetime_and_image_destinations :
    tdsConvertToCString sampleBuild dateLib SYBDATETIME (some [0, 0, 0, 0, 0, 0, 0, 0]) 8 =
      .buffer 19 (some str_timestamp) ∧
    (convSwitch sampleBuild dateLib SYBDATETIME
      (some [0, 0, 0, 0, 0, 0, 0, 0]) 8).use_tds_conversion = false ∧
    convSwitch sampleBuild sampleLib SYBIMAGE (some [1, 2, 3]) 3 =
      ⟨1000, -2, SYBCHAR, .null, true⟩ ∧
    tdsConvertToCString sampleBuild sampleLib SYBIMAGE (some [1, 2, 3]) 3 =
      .buffer 1000 (some [1, 2, 3]) := by
  decide

/-- Claim C22, amended: the `switch` of `tdsConvertToCString` gives
`SYBCHAR`, `SYBVARCHAR` and `SYBTEXT` a null-terminated conversion to
`SYBCHAR` into `srclen + 1` bytes, and `SYBBINARY` and `SYBVARBINARY` a
conversion to `SYBBINARY` of exactly `srclen` bytes. `SYBDATETIME`, in a build
for PostgreSQL 9.4 or later and when date cracking succeeds, gets the text of
the composed timestamp without `dbconvert`. Every other wire type gets the
null-terminated conversion to `SYBCHAR` into 1000 bytes. Where the `switch`
asks for a conversion and `dbwillconvert` allows it, the result is a buffer of
the chosen size that holds what `dbconvert` wrote for the chosen type and
length. -/
theorem convert_destination_by_wire_type (b : Build) (lib : Lib) (srctype : Int)
    (src : Option (List Nat)) (srclen : Int) :
    ((srctype = SYBCHAR ∨ srctype = SYBVARCHAR ∨ srctype = SYBTEXT) →
      convSwitch b lib srctype src srclen = ⟨srclen + 1, -2, SYBCHAR, .null, true⟩) ∧
    ((srctype = SYBBINARY ∨ srctype = SYBVARBINARY) →
      convSwitch b lib srctype src srclen = ⟨srclen, srclen, SYBBINARY, .null, true⟩) ∧
    (srctype = SYBDATETIME → 90400 ≤ b.PG_VERSION_NUM → (lib.dbdatecrack src).1 = SUCCEED →
      ∃ d, tdsDatetimeToDatum b lib src = (SUCCEED, some d) ∧
        tdsConvertToCString b lib srctype src srclen =
          .buffer (cbytes (lib.timestamptz_to_str d)).length
            (some (lib.timestamptz_to_str d))) ∧
    (¬ (srctype = SYBCHAR ∨ srctype = SYBVARCHAR ∨ srctype = SYBTEXT ∨
          srctype = SYBBINARY ∨ srctype = SYBVARBINARY) →
      ¬ (srctype = SYBDATETIME ∧ 90400 ≤ b.PG_VERSION_NUM ∧
          (lib.dbdatecrack src).1 = SUCCEED) →
      convSwitch b lib srctype src srclen = ⟨1000, -2, SYBCHAR, .null, true⟩) ∧
    ((convSwitch b lib srctype src srclen).use_tds_conversion = true →
      lib.dbwillconvert srctype (convSwitch b lib srctype src srclen).desttype = true →
      tdsConvertToCString b lib srctype src srclen =
        match lib.dbconvert srctype src srclen (convSwitch b lib srctype src srclen).desttype
            (convSwitch b lib srctype src srclen).destlen with
        | .ok written =>
            .buffer (convSwitch b lib srctype src srclen).real_destlen (some written)
        | .error _ => .buffer (convSwitch b lib srctype src srclen).real_destlen none) := by
  refine ⟨?_, ?_, ?_, ?_, ?_⟩
  · intro h
    unfold convSwitch
    rw [if_pos h]
  · intro h
    have hn : ¬ (srctype = SYBCHAR ∨ srctype = SYBVARCHAR ∨ srctype = SYBTEXT) := by
      rcases h with h | h <;> rw [h] <;> decide
    unfold convSwitch
    rw [if_neg hn, if_pos h]
  · intro ht hpg hs
    obtain ⟨d, hd⟩ := tdsDatetimeToDatum_succeeds b lib src hs
    refine ⟨d, hd, ?_⟩
    subst ht
    unfold tdsConvertToCString
    rw [convSwitch_datetime b lib src srclen d hpg hd]
    rfl
  · intro h1 h2
    have hn : ¬ (srctype = SYBCHAR ∨ srctype = SYBVARCHAR ∨ srctype = SYBTEXT) :=
      fun h => h1 (by tauto)
    have hn2 : ¬ (srctype = SYBBINARY ∨ srctype = SYBVARBINARY) := fun h => h1 (by tauto)
    unfold convSwitch
    rw [if_neg hn, if_neg hn2]
    by_cases hd : 90400 ≤ b.PG_VERSION_NUM ∧ srctype = SYBDATETIME
    · rw [if_pos hd]
      have hs : ¬ ((lib.dbdatecrack src).1 = SUCCEED) := fun hs => h2 ⟨hd.2, hd.1, hs⟩
      simp [tdsDatetimeToDatum, hs]
    · rw [if_neg hd]
  · intro hu hw
    unfold tdsConvertToCString
    simp only []
    rw [if_pos hu, if_pos hw]

/-- Witness for C22: two bytes of `SYBVARCHAR` get a buffer of 3 bytes, two
bytes of `SYBBINARY` one of 2 bytes, and `SYBINT4` one of 1000 bytes. -/
theorem convert_destination_by_wire_type_witness :
    convSwitch sampleBuild sampleLib SYBVARCHAR (some [104, 105]) 2 =
      ⟨3, -2, SYBCHAR, .null, true⟩ ∧
    convSwitch sampleBuild sampleLib SYBBINARY (some [104, 105]) 2 =
      ⟨2, 2, SYBBINARY, .null, true⟩ ∧
    convSwitch sampleBuild sampleLib SYBINT4 (some [1, 0, 0, 0]) 4 =
      ⟨1000, -2, SYBCHAR, .null, true⟩ :=
  ⟨(convert_destination_by_wire_type sampleBuild sampleLib SYBVARCHAR (some [104, 105]) 2).1
      (by decide),
   (convert_destination_by_wire_type sampleBuild sampleLib SYBBINARY (some [104, 105]) 2).2.1
      (by decide),
   (convert_destination_by_wire_type sampleBuild sampleLib SYBINT4
      (some [1, 0, 0, 0]) 4).2.2.2.1 (by decide) (by decide)⟩

/-- Claim C23, at a failing input: one value of a column that goes through the
generic conversion, once with a coercion table that reports "not convertible"
and once with a `dbconvert` that fails. `tdsConvertToCString` returns the NULL
pointer in the first case and the buffer that `dbconvert` did not write in the
second, and the decoded slot differs: the datum the input function gives for
NULL, against what it makes of the unwritten buffer. -/
theorem not_convertible_differs_from_failed_conversion :
    tdsConvertToCString sampleBuild noConvertLib SYBFLT8 (some [255]) 1 = .null ∧
    tdsConvertToCString sampleBuild sampleLib SYBFLT8 (some [255]) 1 = .buffer 1000 none ∧
    decodeColumn sampleBuild noConvertLib ⟨str_x, SYBFLT8, false, .dbint 0, 0, 1700⟩
      ⟨1, some [255], 0, 0⟩ ⟨[.word 9], [true]⟩ = .ok ⟨[.word 0], [false]⟩ ∧
    decodeColumn sampleBuild sampleLib ⟨str_x, SYBFLT8, false, .dbint 0, 0, 1700⟩
      ⟨1, some [255], 0, 0⟩ ⟨[.word 9], [true]⟩ = .ok ⟨[.parsed 0 []], [false]⟩ := by
  refine ⟨by decide, by decide, rfl, rfl⟩

/-! ## The plan statements and the date fields (claims C24 and C25) -/

/-- Claim C24: whenever `tdsGetRowCountShowPlanAll` returns an estimate, the
statements it has passed to `dbcmd` are, in order, "SET SHOWPLAN_ALL ON", the
query and "SET SHOWPLAN_ALL OFF", and the last one was set, executed and
fetched without `FAIL`. It does return on the path where the query reports
`NO_MORE_RESULTS`, and on the path where the query yields regular rows, as
long as the statements and the bindings do not fail. -/
theorem showplan_is_switched_off_again {D : Type} [Zero D] [Add D] (query : CStr)
    (s : EstSession D) :
    (∀ e, tdsGetRowCountShowPlanAll query s = .ok e →
      e.issued = [show_plan_query, query, show_plan_query_off] ∧
      s.showplan_off.cmd ≠ FAIL ∧ s.showplan_off.sqlexec ≠ FAIL ∧
      s.showplan_off.results ≠ FAIL) ∧
    (s.showplan_on.cmd ≠ FAIL → s.showplan_on.sqlexec ≠ FAIL → s.showplan_on.results ≠ FAIL →
      s.query.cmd ≠ FAIL → s.query.sqlexec ≠ FAIL →
      s.showplan_off.cmd ≠ FAIL → s.showplan_off.sqlexec ≠ FAIL →
      s.showplan_off.results ≠ FAIL →
      (s.query.results = NO_MORE_RESULTS →
        tdsGetRowCountShowPlanAll query s =
          .ok ⟨0, [show_plan_query, query, show_plan_query_off]⟩) ∧
      (s.query.results = SUCCEED → (∀ n, s.dbbind n ≠ FAIL) →
        (∀ r ∈ s.rows, r.ret_code = REG_ROW) →
        ∃ rows, tdsGetRowCountShowPlanAll query s =
          .ok ⟨rows, [show_plan_query, query, show_plan_query_off]⟩)) := by
  refine ⟨fun e h => showPlanAll_issued query s e h, ?_⟩
  intro h1 h2 h3 h4 h5 o1 o2 o3
  constructor
  · intro h7
    have h6 : ¬ (s.query.results = FAIL) := by rw [h7]; decide
    unfold tdsGetRowCountShowPlanAll
    rw [if_neg h1, if_neg h2, if_neg h3, if_neg h4, if_neg h5, if_neg h6, if_pos h7]
    exact cleanupAfterShowPlan_succeeds s 0 _ o1 o2 o3
  · intro h8 hbind hrows
    have h6 : ¬ (s.query.results = FAIL) := by rw [h8]; decide
    have h7 : ¬ (s.query.results = NO_MORE_RESULTS) := by rw [h8]; decide
    obtain ⟨bs, hbs⟩ := bindPlanColumns_ok s.dbbind hbind s.colnames 0
    obtain ⟨d, hd⟩ := planRowLoop_regular_rows bs s.rows (⟨0, 0⟩ : PlanVars D) 0 hrows
    refine ⟨d, ?_⟩
    unfold tdsGetRowCountShowPlanAll
    rw [if_neg h1, if_neg h2, if_neg h3, if_neg h4, if_neg h5, if_neg h6, if_neg h7, if_pos h8,
      hbs]
    simp only []
    rw [hd]
    exact cleanupAfterShowPlan_succeeds s d _ o1 o2 o3

/-- Witness for C24: the estimate for the session without results, and the
one for the fabricated plan, each come with the three statements in order. -/
theorem showplan_is_switched_off_again_witness :
    tdsGetRowCountShowPlanAll [113] emptySession =
      .ok ⟨0, [show_plan_query, [113], show_plan_query_off]⟩ ∧
    (∃ e, tdsGetRowCountShowPlanAll [113] (examplePlan (7 : Int) 5) = .ok e ∧
      e.issued = [show_plan_query, [113], show_plan_query_off]) :=
  ⟨((showplan_is_switched_off_again [113] emptySession).2 (by decide) (by decide) (by decide)
      (by decide) (by decide) (by decide) (by decide) (by decide)).1 rfl,
   ⟨⟨7, [show_plan_query, [113], show_plan_query_off]⟩, rfl,
    ((showplan_is_switched_off_again [113] (examplePlan (7 : Int) 5)).1 _ rfl).1⟩⟩

/-- Claim C25: when `dbdatecrack` succeeds, `tdsDatetimeToDatum` composes the
timestamp from the cracked year, day, hour and minute as they are and from the
cracked month `m` as `m + 1` in the Sybase variant (so 0..11 becomes 1..12) and
as `m` in the Microsoft variant; when `dbdatecrack` fails it returns the
failure code and writes no timestamp. -/
theorem datetime_month_is_normalised (b : Build) (lib : Lib) (src : Option (List Nat)) :
    (b.MSDBLIB = false → (lib.dbdatecrack src).1 = SUCCEED →
      tdsDatetimeToDatum b lib src =
        (SUCCEED, some (.timestamp (lib.dbdatecrack src).2.year
          ((lib.dbdatecrack src).2.month + 1) (lib.dbdatecrack src).2.day
          (lib.dbdatecrack src).2.hour (lib.dbdatecrack src).2.minute
          (lib.dbdatecrack src).2.second (lib.dbdatecrack src).2.millisecond)) ∧
      (0 ≤ (lib.dbdatecrack src).2.month ∧ (lib.dbdatecrack src).2.month ≤ 11 →
        1 ≤ (lib.dbdatecrack src).2.month + 1 ∧ (lib.dbdatecrack src).2.month + 1 ≤ 12)) ∧
    (b.MSDBLIB = true → (lib.dbdatecrack src).1 = SUCCEED →
      tdsDatetimeToDatum b lib src =
        (SUCCEED, some (.timestamp (lib.dbdatecrack src).2.year
          (lib.dbdatecrack src).2.month (lib.dbdatecrack src).2.day
          (lib.dbdatecrack src).2.hour (lib.dbdatecrack src).2.minute
          (lib.dbdatecrack src).2.second (lib.dbdatecrack src).2.millisecond))) ∧
    ((lib.dbdatecrack src).1 ≠ SUCCEED →
      tdsDatetimeToDatum b lib src = ((lib.dbdatecrack src).1, none)) := by
  refine ⟨fun hm hs => ⟨?_, fun h => ⟨by omega, by omega⟩⟩, fun hm hs => ?_, fun hf => ?_⟩
  · simp [tdsDatetimeToDatum, hs, hm]
  · simp [tdsDatetimeToDatum, hs, hm]
  · simp [tdsDatetimeToDatum, hf]

/-- Witness for C25: January (month 0 of the Sybase variant) is composed as
month 1, the same record in the Microsoft variant keeps its month, and a
failed crack yields the code `FAIL` and no timestamp. -/
theorem datetime_month_is_normalised_witness :
    tdsDatetimeToDatum sampleBuild dateLib none =
      (SUCCEED, some (.timestamp 2020 1 15 10 30 0 0)) ∧
    tdsDatetimeToDatum ⟨64, 90400, true⟩ dateLib none =
      (SUCCEED, some (.timestamp 2020 0 15 10 30 0 0)) ∧
    tdsDatetimeToDatum sampleBuild sampleLib none = (FAIL, none) :=
  ⟨((datetime_month_is_normalised sampleBuild dateLib none).1 rfl rfl).1,
   (datetime_month_is_normalised ⟨64, 90400, true⟩ dateLib none).2.1 rfl rfl,
   (datetime_month_is_normalised sampleBuild sampleLib none).2.2 (by decide)⟩

/-! ## Null flags, name matching and the first call (claims C26 to C28) -/

/-- Claim C26, at a failing input: a positional scan of one column whose first
row is NULL and whose second row has length 4 and a NULL pointer. The second
row is delivered as NULL, because its null flag was left as the first row set
it; decoding the same second row over a buffer whose flag is false leaves the
flag false. -/
theorem stale_null_flag_survives_row :
    scanRows sampleBuild sampleLib false [⟨str_id, INT4OID⟩] sampleMem 3 sampleFestate
      staleFlagDbproc = .ok [[none], [none]] ∧
    decodeRow sampleBuild sampleLib [⟨str_id, SYBINT4, false, .dbint 0, 0, 0⟩]
      [⟨4, none, 7, 0⟩] ⟨[.word 0], [true]⟩ = .ok ⟨[.parsed 0 []], [true]⟩ ∧
    decodeRow sampleBuild sampleLib [⟨str_id, SYBINT4, false, .dbint 0, 0, 0⟩]
      [⟨4, none, 7, 0⟩] ⟨[.word 0], [false]⟩ = .ok ⟨[.parsed 0 []], [false]⟩ := by
  refine ⟨rfl, rfl, rfl⟩

/-- Claim C27: when every target column name is shorter than `NAMEDATALEN`
bytes, the comparison of the name-matching loop succeeds for a target column
exactly when its name and the source column's name are the same bytes; the
loop binds the first target column with the same name; and a source column
whose name has `NAMEDATALEN` bytes or more matches no target column, so it is
left unbound and reported as ignored. -/
theorem short_target_names_match_exactly (b : Build) (attrs : List Attr) (name : CStr)
    (hshort : ∀ a ∈ attrs, (cbytes a.attname).length < b.NAMEDATALEN) :
    (∀ a ∈ attrs, (strncmp a.attname name b.NAMEDATALEN = 0 ↔ cbytes a.attname = cbytes name)) ∧
    (∀ j oid, matchLocalColumn b.NAMEDATALEN name attrs 0 = some (j, oid) ↔
      ∃ a, attrs[j]? = some a ∧ cbytes a.attname = cbytes name ∧ oid = a.atttypid ∧
        ∀ i, i < j → ∀ a2, attrs[i]? = some a2 → cbytes a2.attname ≠ cbytes name) ∧
    (b.NAMEDATALEN ≤ (cbytes name).length →
      matchLocalColumn b.NAMEDATALEN name attrs 0 = none ∧
      ∀ (slot : COL) (ncol : Nat) (coltype : Int) (found : List Bool),
        (planColumn b true attrs slot ncol ⟨name, coltype⟩ found).1.local_index = -1 ∧
        (planColumn b true attrs slot ncol ⟨name, coltype⟩ found).2.2 =
          [Warning.sourceColumnIgnored ncol name]) := by
  have hcmp : ∀ a ∈ attrs,
      (strncmp a.attname name b.NAMEDATALEN = 0 ↔ cbytes a.attname = cbytes name) :=
    fun a ha => strncmp_eq_zero_of_short _ _ _ (hshort a ha)
  refine ⟨hcmp, ?_, ?_⟩
  · intro j oid
    rw [matchLocalColumn_some]
    constructor
    · rintro ⟨i, a, hj, hi, hz, ho, hprev⟩
      have hji : j = i := by omega
      subst hji
      refine ⟨a, hi, (hcmp a (List.getElem?_mem hi)).mp hz, ho, ?_⟩
      intro i2 hlt a2 h2 heq
      exact hprev i2 hlt a2 h2 ((hcmp a2 (List.getElem?_mem h2)).mpr heq)
    · rintro ⟨a, hi, heq, ho, hprev⟩
      refine ⟨j, a, by omega, hi, (hcmp a (List.getElem?_mem hi)).mpr heq, ho, ?_⟩
      intro i2 hlt a2 h2 hz
      exact hprev i2 hlt a2 h2 ((hcmp a2 (List.getElem?_mem h2)).mp hz)
  · intro hlong
    have hnone : matchLocalColumn b.NAMEDATALEN name attrs 0 = none := by
      rw [matchLocalColumn_none]
      intro a ha hz
      have heq := (hcmp a ha).mp hz
      have hlt := hshort a ha
      rw [heq] at hlt
      omega
    refine ⟨hnone, fun slot ncol coltype found => ⟨?_, ?_⟩⟩
    · rw [planColumn_local_index]
      simp only [hnone]
    · rw [planColumn_warnings]
      simp only [hnone]
      rfl

/-- Witness for C27: under a limit of 4 bytes, the source column "abc" is
bound to the target column "abc" and the source column "abcd" to none. -/
theorem short_target_names_match_exactly_witness :
    matchLocalColumn 4 [97, 98, 99] [⟨[97, 98, 99], INT4OID⟩] 0 = some (0, INT4OID) ∧
    matchLocalColumn 4 [97, 98, 99, 100] [⟨[97, 98, 99], INT4OID⟩] 0 = none :=
  ⟨((short_target_names_match_exactly ⟨4, 90400, false⟩ [⟨[97, 98, 99], INT4OID⟩] [97, 98, 99]
      (by decide)).2.1 0 INT4OID).mpr
      ⟨⟨[97, 98, 99], INT4OID⟩, rfl, rfl, rfl, fun i hi => absurd hi (Nat.not_lt_zero i)⟩,
   ((short_target_names_match_exactly ⟨4, 90400, false⟩ [⟨[97, 98, 99], INT4OID⟩]
      [97, 98, 99, 100] (by decide)).2.2 (by decide)).1⟩

/-- Claim C28: on the first call of `tdsIterateForeignScan`, when the query is
set and executed and `dbresults` reports `NO_MORE_RESULTS`, the call raises the
error "There appears to be no results from query"; the outcome is the same
whatever the target columns, the result's columns and the rows of the
connection are, so neither planning nor a row fetch takes part. The estimator
`tdsGetRowCountExecute` returns an estimate for the same three return codes. -/
theorem no_results_is_fatal_in_scan (b : Build) (lib : Lib) (match_column_names : Bool)
    (attrs : List Attr) (mem : Palloc) (festate : Festate) (dbproc : DBPROCESS)
    (hfirst : festate.first = true) (hcmd : dbproc.cmd ≠ FAIL) (hexec : dbproc.sqlexec ≠ FAIL)
    (hres : dbproc.results = NO_MORE_RESULTS) :
    tdsIterateForeignScan b lib match_column_names attrs mem festate dbproc =
      .error ⟨.FDW_UNABLE_TO_CREATE_EXECUTION, .noResults festate.query⟩ ∧
    (∀ (attrs2 : List Attr) (mem2 : Palloc) (cols : List SrcCol) (rows : List ScanRow)
        (dbbind : Nat → Int) (match2 : Bool),
      tdsIterateForeignScan b lib match2 attrs2 mem2 festate
          { dbproc with cols := cols, rows := rows, dbbind := dbbind } =
        tdsIterateForeignScan b lib match_column_names attrs mem festate dbproc) ∧
    (∀ s : EstSession Int, s.query = ⟨dbproc.cmd, dbproc.sqlexec, dbproc.results⟩ →
      tdsGetRowCountExecute festate.query s = .ok ⟨0, [festate.query]⟩) := by
  have hnf : ¬ (dbproc.results = FAIL) := by rw [hres]; decide
  have key : ∀ (m : Bool) (a : List Attr) (p : Palloc) (d : DBPROCESS), d.cmd = dbproc.cmd →
      d.sqlexec = dbproc.sqlexec → d.results = dbproc.results →
      tdsIterateForeignScan b lib m a p festate d =
        .error ⟨.FDW_UNABLE_TO_CREATE_EXECUTION, .noResults festate.query⟩ := by
    intro m a p d e1 e2 e3
    unfold tdsIterateForeignScan
    rw [if_pos hfirst]
    unfold firstIteration
    rw [e1, e2, e3, if_neg hcmd, if_neg hexec, if_neg hnf, if_pos hres]
  refine ⟨key _ _ _ _ rfl rfl rfl, ?_, ?_⟩
  · intro attrs2 mem2 cols rows dbbind match2
    rw [key match_column_names attrs mem dbproc rfl rfl rfl]
    exact key _ _ _ _ rfl rfl rfl
  · intro s hs
    have q1 : s.query.cmd = dbproc.cmd := by rw [hs]
    have q2 : s.query.sqlexec = dbproc.sqlexec := by rw [hs]
    have q3 : s.query.results = dbproc.results := by rw [hs]
    unfold tdsGetRowCountExecute
    rw [q1, q2, q3, if_neg hcmd, if_neg hexec, if_neg hnf, if_pos hres]
    rfl

/-- Witness for C28: the sample connection, answering `NO_MORE_RESULTS` to
`dbresults`, makes the first call fail. -/
theorem no_results_is_fatal_in_scan_witness :
    tdsIterateForeignScan sampleBuild sampleLib true sampleAttrs sampleMem sampleFestate
        { sampleDbproc with results := NO_MORE_RESULTS } =
      .error ⟨.FDW_UNABLE_TO_CREATE_EXECUTION, .noResults [113]⟩ :=
  (no_results_is_fatal_in_scan sampleBuild sampleLib true sampleAttrs sampleMem sampleFestate
    { sampleDbproc with results := NO_MORE_RESULTS } rfl (by decide) (by decide) rfl).1

/-! ## Option checks (claims C29 and C30) -/

/-- Claim C29: `tdsValidateForeignTableOptionSet` returns without an error
exactly when one of `table` and `query` is set and the other is not; with both
set it raises the error for conflicting options, with neither set the error
for required options. -/
theorem table_xor_query_accepted (option_set : TdsFdwOptionSet) :
    (tdsValidateForeignTableOptionSet option_set = .ok () ↔
      ((option_set.table ≠ none ∧ option_set.query = none) ∨
       (option_set.table = none ∧ option_set.query ≠ none))) ∧
    ((option_set.table ≠ none ∧ option_set.query ≠ none) →
      tdsValidateForeignTableOptionSet option_set =
        .error ⟨.SYNTAX_ERROR, .conflictingTableQuery⟩) ∧
    ((option_set.table = none ∧ option_set.query = none) →
      tdsValidateForeignTableOptionSet option_set =
        .error ⟨.SYNTAX_ERROR, .requiredTableOrQuery⟩) := by
  unfold tdsValidateForeignTableOptionSet
  by_cases ht : option_set.table = none <;> by_cases hq : option_set.query = none <;>
    simp [ht, hq]

/-- Claim C30, at a failing input: the options list with the single entry
`msg_handler` = "bogus", given to `tdsGetForeignServerOptions` after
`tdsOptionSetInit`. When the uninitialized local `msg_handler_test` holds 1
the value is accepted and stored; the error "Unknown msg handler" is raised
only when it holds 0. With a non-zero content every value is accepted. The
sibling check of `tds_version`, whose local is initialized to 0, rejects
"bogus" in either case. -/
theorem unknown_msg_handler_can_be_accepted :
    tdsGetForeignServerOptions ⟨true, true, true, true⟩ (fun _ => 0) 1
        [⟨str_msg_handler, str_bogus⟩] tdsOptionSetInit =
      .ok { tdsOptionSetInit with msg_handler := some str_bogus } ∧
    tdsGetForeignServerOptions ⟨true, true, true, true⟩ (fun _ => 0) 0
        [⟨str_msg_handler, str_bogus⟩] tdsOptionSetInit =
      .error ⟨.SYNTAX_ERROR, .unknownMsgHandler str_bogus⟩ ∧
    (∀ (v : DbVersions) (atoi : CStr → Int) (arg : CStr) (junk : Int), junk ≠ 0 →
      tdsGetForeignServerOptions v atoi junk [⟨str_msg_handler, arg⟩] tdsOptionSetInit =
        .ok { tdsOptionSetInit with msg_handler := some arg }) ∧
    tdsGetForeignServerOptions ⟨true, true, true, true⟩ (fun _ => 0) 0
        [⟨str_tds_version, str_bogus⟩] tdsOptionSetInit =
      .error ⟨.SYNTAX_ERROR, .unknownTdsVersion str_bogus⟩ ∧
    tdsGetForeignServerOptions ⟨true, true, true, true⟩ (fun _ => 0) 1
        [⟨str_tds_version, str_bogus⟩] tdsOptionSetInit =
      .error ⟨.SYNTAX_ERROR, .unknownTdsVersion str_bogus⟩ := by
  refine ⟨rfl, rfl, ?_, rfl, rfl⟩
  intro v atoi arg junk hj
  have e0 : tdsIsValidOption str_msg_handler ForeignServerRelationId = true := by decide
  have e1 : ¬ (strcmp str_msg_handler str_servername = 0) := by decide
  have e2 : ¬ (strcmp str_msg_handler str_language = 0) := by decide
  have e3 : ¬ (strcmp str_msg_handler str_character_set = 0) := by decide
  have e4 : ¬ (strcmp str_msg_handler str_port = 0) := by decide
  have e5 : ¬ (strcmp str_msg_handler str_database = 0) := by decide
  have e6 : ¬ (strcmp str_msg_handler str_dbuse = 0) := by decide
  have e7 : ¬ (strcmp str_msg_handler str_tds_version = 0) := by decide
  have e8 : strcmp str_msg_handler str_msg_handler = 0 := by decide
  have e9 : ¬ (tdsOptionSetInit.msg_handler ≠ none) := by decide
  have hs : serverOption v atoi junk ⟨str_msg_handler, arg⟩ tdsOptionSetInit =
      .ok { tdsOptionSetInit with msg_handler := some arg } := by
    unfold serverOption
    simp only []
    rw [e0, if_neg (by decide), if_neg e1, if_neg e2, if_neg e3, if_neg e4, if_neg e5, if_neg e6,
      if_neg e7, if_pos e8, if_neg e9]
    by_cases n1 : strcmp arg str_notice = 0
    · rw [if_pos n1, if_neg (by decide)]
    · rw [if_neg n1]
      by_cases n2 : strcmp arg str_blackhole = 0
      · rw [if_pos n2, if_neg (by decide)]
      · rw [if_neg n2, if_neg hj]
  unfold tdsGetForeignServerOptions
  rw [hs]
  rfl

end TdsFdw
